import Mathlib

/-!
# RippleDetector: a shallow embedding of `RippleDetector.cpp`

The per-stream record `RippleDetectorSettings` and the functions of
`RippleDetector.cpp` that work on it are embedded as pure functions.

Modelling conventions.

* `double`/`float` quantities (RMS values, thresholds, means, percentages and
  durations) are exact rationals `ℚ`.
* `int`/`int64` quantities (sample counters, sample counts, millisecond clock
  readings, channel numbers) are unbounded integers `Int`: the overflow of a
  sample counter that grows for hours (`counterMovDownThresh` while the animal
  is still) is not modelled.
* Every read of `std::chrono::system_clock::now()` and the draw
  `distribute(generator)` are inputs of the step that performs them
  (`Oracle`).
* `addEvent(createEvent(line, sample, state), offset)` appends a `TTLEvent`
  to the list of emitted events.
-/

namespace RippleDetector

/-! ## Data model -/

/-- The settings field that supplied the `outputLine` argument of
`createEvent`: `rippleOutputChannel`, `ttlReportChannel` or
`movementOutputChannel`. -/
inductive OutputLine where
  | ripple
  | report
  | movement
  deriving DecidableEq, Repr

/-- A TTL event handed to `addEvent`: the logical line, the numeric line passed to
`createEvent`, the sample number, the state, and the second argument of
`addEvent`. -/
structure TTLEvent where
  line : OutputLine
  channel : Int
  sampleNumber : Int
  state : Bool
  bufferOffset : Int
  deriving DecidableEq, Repr

/-- The value of the `mov_detect` categorical parameter. -/
inductive MovSwitch where
  | OFF
  | ACC
  | EMG
  deriving DecidableEq, Repr

/-- The fields of `RippleDetectorSettings` that the embedded functions read or write. -/
structure RippleDetectorSettings where
  rippleInputChannel : Int
  rippleOutputChannel : Int
  ttlReportChannel : Int
  movementInputChannel : Int
  movementOutputChannel : Int
  movSwitch : MovSwitch
  movSwitchEnabled : Bool
  movChannChanged : Bool
  auxChannelIndices : List Int
  rippleSds : ℚ
  movSds : ℚ
  timeThreshold : Int
  refractoryTime : Int
  rmsSamples : Int
  ttl_duration : ℚ
  ttl_percent : ℚ
  minTimeWoMov : Int
  minTimeWMov : Int
  numSamplesTimeThreshold : Int
  minMovSamplesBelowThresh : Int
  minMovSamplesAboveThresh : Int
  rmsEndIdx : Int
  rmsMean : ℚ
  rmsStdDev : ℚ
  movRmsMean : ℚ
  movRmsStdDev : ℚ
  threshold : ℚ
  movThreshold : ℚ
  counterAboveThresh : Int
  counterMovUpThresh : Int
  counterMovDownThresh : Int
  flagTimeThreshold : Bool
  flagMovMinTimeUp : Bool
  flagMovMinTimeDown : Bool
  onRefractoryTime : Bool
  rippleDetected : Bool
  pluginEnabled : Bool
  rippleStartTime : Int
  refractoryTimeStart : Int
  timeNow : Int
  random_number : Int
  isCalibrating : Bool
  pointsProcessed : Int
  calibrationPoints : Int

/-- A settings record with every counter zero, every flag clear, the detector
enabled and the parameter defaults of the constructor of `RippleDetector`; the
thresholds and sample counts that `process` derives from them are zero. -/
def initialSettings : RippleDetectorSettings where
  rippleInputChannel := 0
  rippleOutputChannel := 0
  ttlReportChannel := 1
  movementInputChannel := -1
  movementOutputChannel := 2
  movSwitch := MovSwitch.OFF
  movSwitchEnabled := false
  movChannChanged := false
  auxChannelIndices := []
  rippleSds := 5
  movSds := 5
  timeThreshold := 10
  refractoryTime := 140
  rmsSamples := 128
  ttl_duration := 100
  ttl_percent := 100
  minTimeWoMov := 5000
  minTimeWMov := 10
  numSamplesTimeThreshold := 0
  minMovSamplesBelowThresh := 0
  minMovSamplesAboveThresh := 0
  rmsEndIdx := 0
  rmsMean := 0
  rmsStdDev := 0
  movRmsMean := 0
  movRmsStdDev := 0
  threshold := 0
  movThreshold := 0
  counterAboveThresh := 0
  counterMovUpThresh := 0
  counterMovDownThresh := 0
  flagTimeThreshold := false
  flagMovMinTimeUp := false
  flagMovMinTimeDown := false
  onRefractoryTime := false
  rippleDetected := false
  pluginEnabled := true
  rippleStartTime := 0
  refractoryTimeStart := 0
  timeNow := 0
  random_number := 0
  isCalibrating := false
  pointsProcessed := 0
  calibrationPoints := 0

/-! ## The RMS window loop of `process` -/

/-- The clamp of `process` (lines 366-367): `if (rmsSamples > numSamplesInBlock)
rmsSamples = numSamplesInBlock`. -/
def clampRmsSamples (rmsSamples numSamplesInBlock : Int) : Int :=
  if rmsSamples > numSamplesInBlock then numSamplesInBlock else rmsSamples

/-- The end index that one iteration of the window loop stores in `rmsEndIdx`
(lines 414-418). -/
def windowEnd (rmsSamples numSamplesInBlock rmsStartIdx : Int) : Int :=
  if rmsStartIdx + rmsSamples > numSamplesInBlock then numSamplesInBlock
  else rmsStartIdx + rmsSamples

/-- The window loop of `process` (lines 412-452), as the list of
`(rmsStartIdx, rmsEndIdx)` pairs of its iterations, in order.  The loop
`for (rmsStartIdx = 0; rmsStartIdx < numSamplesInBlock; rmsStartIdx += rmsSamples)`
need not terminate (`rmsSamples = 0`), so the embedding takes fuel and returns
`none` when the fuel runs out before the loop condition fails. -/
def windowLoop : Nat → Int → Int → Int → Option (List (Int × Int))
  | 0, _, _, _ => none
  | fuel + 1, rmsSamples, numSamplesInBlock, rmsStartIdx =>
    if rmsStartIdx < numSamplesInBlock then
      (windowLoop fuel rmsSamples numSamplesInBlock (rmsStartIdx + rmsSamples)).map
        (fun rest => (rmsStartIdx, windowEnd rmsSamples numSamplesInBlock rmsStartIdx) :: rest)
    else some []

/-- The sample count `rmsEndIdx - rmsStartIdx` that `process` stores for a window
(lines 443-444). -/
def windowSamples (w : Int × Int) : Int := w.2 - w.1

/-! ## `detectRipples` -/

/-- One entry of `rmsValuesArray` together with its entry of `rmsNumSamplesArray`
(or of `movRmsValuesArray` and `movRmsNumSamplesArray`). -/
structure RmsWindow where
  rms : ℚ
  samples : Int
  deriving DecidableEq, Repr

/-- What one iteration of the loop of `detectRipples` reads from outside the
settings: the four places that read `system_clock::now()` in milliseconds (lines
661, 696, 725 and 732, in this order) and the value of `distribute(generator)`
(line 703). -/
structure Oracle where
  offsetNow : Int
  rippleStart : Int
  refractoryStart : Int
  timeNow : Int
  randomDraw : Int
  deriving DecidableEq, Repr

/-- Lines 657-675 of `detectRipples`: "Reset TTL if ripple was detected during the
last iteration". -/
def resetTTL (firstSample : Int) (o : Oracle) (s : RippleDetectorSettings) :
    RippleDetectorSettings × List TTLEvent :=
  if s.rippleDetected then
    if s.pluginEnabled then
      if (((o.offsetNow - s.rippleStartTime : Int) : ℚ)) > s.ttl_duration then
        if (s.random_number : ℚ) ≤ s.ttl_percent then
          ({ s with rippleDetected := false },
            [{ line := OutputLine.ripple, channel := s.rippleOutputChannel,
               sampleNumber := firstSample, state := false, bufferOffset := 0 }])
        else (s, [])
      else (s, [])
    else (s, [])
  else (s, [])

/-- Lines 677-683 of `detectRipples`: "Counter: acumulate time above threshold". -/
def countAboveThresh (w : RmsWindow) (s : RippleDetectorSettings) : RippleDetectorSettings :=
  if w.rms > s.threshold then
    { s with counterAboveThresh := s.counterAboveThresh + w.samples }
  else
    { s with counterAboveThresh := 0, flagTimeThreshold := false }

/-- Lines 685-689 of `detectRipples`: "Set flag to indicate that time threshold was
achieved". -/
def setFlagTimeThreshold (s : RippleDetectorSettings) : RippleDetectorSettings :=
  if s.counterAboveThresh > s.numSamplesTimeThreshold then
    { s with flagTimeThreshold := true }
  else s

/-- Lines 691-728 of `detectRipples`: "Send TTL if ripple is detected and it is not
on refractory period", then "Start refractory period". -/
def sendTTL (firstSample : Int) (o : Oracle) (s : RippleDetectorSettings) :
    RippleDetectorSettings × List TTLEvent :=
  if s.flagTimeThreshold && !s.onRefractoryTime then
    if s.pluginEnabled then
      ({ s with rippleStartTime := o.rippleStart, random_number := o.randomDraw,
                rippleDetected := true, onRefractoryTime := true,
                refractoryTimeStart := o.refractoryStart },
        { line := OutputLine.report, channel := s.ttlReportChannel,
          sampleNumber := firstSample, state := true, bufferOffset := 0 } ::
        (if (o.randomDraw : ℚ) ≤ s.ttl_percent then
          [{ line := OutputLine.ripple, channel := s.rippleOutputChannel,
             sampleNumber := firstSample, state := true, bufferOffset := 0 }]
         else []))
    else
      ({ s with rippleDetected := true, onRefractoryTime := true,
                refractoryTimeStart := o.refractoryStart }, [])
  else (s, [])

/-- Lines 730-740 of `detectRipples`: "Check and reset refractory time". -/
def checkRefractory (o : Oracle) (s : RippleDetectorSettings) : RippleDetectorSettings :=
  if s.onRefractoryTime then
    if o.timeNow - s.refractoryTimeStart ≥ s.refractoryTime then
      { s with timeNow := o.timeNow, onRefractoryTime := false }
    else { s with timeNow := o.timeNow }
  else s

/-- One iteration of the loop of `detectRipples` (lines 653-741) on the window `w`,
in a block whose first sample number is `firstSample`. -/
def detectRipplesStep (firstSample : Int) (s : RippleDetectorSettings)
    (w : RmsWindow) (o : Oracle) : RippleDetectorSettings × List TTLEvent :=
  let r1 := resetTTL firstSample o s
  let r2 := sendTTL firstSample o (setFlagTimeThreshold (countAboveThresh w r1.1))
  (checkRefractory o r2.1, r1.2 ++ r2.2)

/-- `RippleDetector::detectRipples`: the loop over the windows of the block, each
window paired with what its iteration reads from the clock and the generator. -/
def detectRipples (firstSample : Int) :
    RippleDetectorSettings → List (RmsWindow × Oracle) → RippleDetectorSettings × List TTLEvent
  | s, [] => (s, [])
  | s, wo :: rest =>
    let r := detectRipplesStep firstSample s wo.1 wo.2
    let r' := detectRipples firstSample r.1 rest
    (r'.1, r.2 ++ r'.2)

/-! ## `evalMovement` -/

/-- Lines 600-608 of `evalMovement`: "Counter: acumulate time above or below
threshold". -/
def countMovement (w : RmsWindow) (s : RippleDetectorSettings) : RippleDetectorSettings :=
  if w.rms > s.movThreshold then
    { s with counterMovUpThresh := s.counterMovUpThresh + w.samples,
             flagMovMinTimeDown := false }
  else
    { s with counterMovDownThresh := s.counterMovDownThresh + w.samples,
             flagMovMinTimeUp := false, counterMovUpThresh := 0 }

/-- Lines 610-621 of `evalMovement`: "Set flags when minimum time above or below
threshold is achieved". -/
def setMovementFlags (s : RippleDetectorSettings) : RippleDetectorSettings :=
  let s1 :=
    if s.counterMovUpThresh > s.minMovSamplesAboveThresh then
      { s with flagMovMinTimeUp := true, counterMovDownThresh := 0 }
    else s
  if s1.counterMovDownThresh > s1.minMovSamplesBelowThresh then
    { s1 with flagMovMinTimeDown := true }
  else s1

/-- Lines 623-631 of `evalMovement`: "Disable plugin...". -/
def disablePlugin (firstSample : Int) (rmsIdx : Nat) (s : RippleDetectorSettings) :
    RippleDetectorSettings × List TTLEvent :=
  if s.pluginEnabled && s.flagMovMinTimeUp then
    ({ s with pluginEnabled := false },
      [{ line := OutputLine.movement, channel := s.movementOutputChannel,
         sampleNumber := firstSample + rmsIdx, state := true, bufferOffset := rmsIdx }])
  else (s, [])

/-- Lines 632-640 of `evalMovement`: "... or enable plugin". -/
def enablePlugin (firstSample : Int) (rmsIdx : Nat) (s : RippleDetectorSettings) :
    RippleDetectorSettings × List TTLEvent :=
  if !s.pluginEnabled && s.flagMovMinTimeDown then
    ({ s with pluginEnabled := true },
      [{ line := OutputLine.movement, channel := s.movementOutputChannel,
         sampleNumber := firstSample + rmsIdx, state := false, bufferOffset := rmsIdx }])
  else (s, [])

/-- One iteration of the loop of `evalMovement` (lines 595-645), at loop index
`rmsIdx`. -/
def evalMovementStep (firstSample : Int) (rmsIdx : Nat) (s : RippleDetectorSettings)
    (w : RmsWindow) : RippleDetectorSettings × List TTLEvent :=
  let r1 := disablePlugin firstSample rmsIdx (setMovementFlags (countMovement w s))
  let r2 := enablePlugin firstSample rmsIdx r1.1
  (r2.1, r1.2 ++ r2.2)

/-- The loop of `evalMovement` from loop index `rmsIdx` on. -/
def evalMovementLoop (firstSample : Int) :
    Nat → RippleDetectorSettings → List RmsWindow → RippleDetectorSettings × List TTLEvent
  | _, s, [] => (s, [])
  | rmsIdx, s, w :: rest =>
    let r := evalMovementStep firstSample rmsIdx s w
    let r' := evalMovementLoop firstSample (rmsIdx + 1) r.1 rest
    (r'.1, r.2 ++ r'.2)

/-- `RippleDetector::evalMovement` on the movement windows of one block. -/
def evalMovement (firstSample : Int) (s : RippleDetectorSettings) (ws : List RmsWindow) :
    RippleDetectorSettings × List TTLEvent :=
  evalMovementLoop firstSample 0 s ws

/-- A run of `evalMovement` over consecutive blocks, each given by its first sample
number and its movement windows. -/
def evalMovementBlocks :
    RippleDetectorSettings → List (Int × List RmsWindow) → RippleDetectorSettings × List TTLEvent
  | s, [] => (s, [])
  | s, b :: rest =>
    let r := evalMovement b.1 s b.2
    let r' := evalMovementBlocks r.1 rest
    (r'.1, r.2 ++ r'.2)

/-! ## Observations on runs

The functions below are not part of the program: they read off, from a state or a
list of emitted events, the quantities that the theorems speak about. -/

/-- The number of events of `evs` on the logical line `line` with state `state`. -/
def countEvents (line : OutputLine) (state : Bool) (evs : List TTLEvent) : Nat :=
  (evs.filter (fun e => e.line == line && e.state == state)).length

/-- The condition under which lines 657-675 emit the detection-end event. -/
def offsetFires (o : Oracle) (s : RippleDetectorSettings) : Bool :=
  s.rippleDetected && s.pluginEnabled &&
    decide ((((o.offsetNow - s.rippleStartTime : Int) : ℚ)) > s.ttl_duration) &&
    decide ((s.random_number : ℚ) ≤ s.ttl_percent)

/-- The value of `flagTimeThreshold` after lines 677-689 of an iteration. -/
def debounced (s : RippleDetectorSettings) (w : RmsWindow) : Bool :=
  (setFlagTimeThreshold (countAboveThresh w s)).flagTimeThreshold

/-- One iteration of the loop of `detectRipples` inside a longer run: `env` is what
the rest of the program did to the settings since the previous iteration
(`evalMovement` and `process` toggling `pluginEnabled`, `parameterValueChanged`
writing configuration fields); the other fields are the inputs of the iteration. -/
structure RunStep where
  env : RippleDetectorSettings → RippleDetectorSettings
  firstSample : Int
  window : RmsWindow
  oracle : Oracle

/-- The clock readings of a run, in the order in which the iterations take them. -/
def clockReadings : List RunStep → List Int
  | [] => []
  | st :: rest =>
    st.oracle.offsetNow :: st.oracle.rippleStart :: st.oracle.refractoryStart ::
      st.oracle.timeNow :: clockReadings rest

/-- The clock times of the detection onsets of a run, in order: for every iteration
that emits a detection-start event on the report line, the time that the iteration
stored in `rippleStartTime`. -/
def onsetTimes : RippleDetectorSettings → List RunStep → List Int
  | _, [] => []
  | s, st :: rest =>
    let r := detectRipplesStep st.firstSample (st.env s) st.window st.oracle
    (if countEvents OutputLine.report true r.2 > 0 then [r.1.rippleStartTime] else []) ++
      onsetTimes r.1 rest

/-- The environment `env` of a run step leaves the refractory bookkeeping alone: the
flag `onRefractoryTime`, the time `refractoryTimeStart` and the configured
`refractoryTime` (only `detectRipples` writes the first two). -/
def KeepsRefractory (env : RippleDetectorSettings → RippleDetectorSettings) : Prop :=
  ∀ s, (env s).onRefractoryTime = s.onRefractoryTime ∧
    (env s).refractoryTimeStart = s.refractoryTimeStart ∧
    (env s).refractoryTime = s.refractoryTime

/-- The value of `flagMovMinTimeUp` that the test of lines 624-625 reads in an
iteration of `evalMovement`. -/
def movingReached (s : RippleDetectorSettings) (w : RmsWindow) : Bool :=
  (setMovementFlags (countMovement w s)).flagMovMinTimeUp

/-- The movement windows of a run of blocks, in the order in which `evalMovement`
processes them. -/
def windowsOf : List (Int × List RmsWindow) → List RmsWindow
  | [] => []
  | b :: rest => b.2 ++ windowsOf rest

/-- The total sample count of a list of windows. -/
def totalSamples (ws : List RmsWindow) : Int := (ws.map (fun w => w.samples)).sum

/-- The total sample count of the windows of `ws` whose RMS is at or below `thr`. -/
def belowSamples (thr : ℚ) (ws : List RmsWindow) : Int :=
  totalSamples (ws.filter (fun w => !decide (w.rms > thr)))

/-- The test of lines 692-695 as an iteration of `detectRipples` evaluates it: the
debounce flag is set, the stream is not refractory and the detector is enabled. -/
def onsetFires (firstSample : Int) (o : Oracle) (s : RippleDetectorSettings)
    (w : RmsWindow) : Bool :=
  (setFlagTimeThreshold (countAboveThresh w (resetTTL firstSample o s).1)).flagTimeThreshold &&
  !(setFlagTimeThreshold (countAboveThresh w (resetTTL firstSample o s).1)).onRefractoryTime &&
  (setFlagTimeThreshold (countAboveThresh w (resetTTL firstSample o s).1)).pluginEnabled

/-- Lines 465-469 of `process`, the branch taken when the stream is not calibrating:
`detectRipples(streamId); if (movSwitchEnabled) evalMovement(streamId);`. -/
def detectAndGate (firstSample : Int) (s : RippleDetectorSettings)
    (ws : List (RmsWindow × Oracle)) (movWs : List RmsWindow) :
    RippleDetectorSettings × List TTLEvent :=
  let r := detectRipples firstSample s ws
  if r.1.movSwitchEnabled then
    let r' := evalMovement firstSample r.1 movWs
    (r'.1, r.2 ++ r'.2)
  else r

/-- The states of the events of `evs` on the logical line `line`, in order. -/
def lineStates (line : OutputLine) (evs : List TTLEvent) : List Bool :=
  (evs.filter (fun e => e.line == line)).map (fun e => e.state)

/-- A stream with accelerometer gating on: detection threshold `0 + 5 * 1 = 5`, no
debounce (`time_thresh = 0`), every onset passed to the primary line, output duration
100 ms, refractory time 140 ms; movement threshold `0 + 5 * 2 = 10`, both movement
minima zero. -/
def gatedSettings : RippleDetectorSettings :=
  { initialSettings with
      movSwitch := MovSwitch.ACC, movSwitchEnabled := true, auxChannelIndices := [1, 2, 3],
      rmsMean := 0, rmsStdDev := 1, rippleSds := 5, threshold := 5,
      timeThreshold := 0, numSamplesTimeThreshold := 0,
      ttl_percent := 100, ttl_duration := 100, refractoryTime := 140,
      movRmsMean := 0, movRmsStdDev := 2, movSds := 5, movThreshold := 10,
      minTimeWMov := 0, minTimeWoMov := 0,
      minMovSamplesAboveThresh := 0, minMovSamplesBelowThresh := 0 }

/-- Four consecutive one-window blocks through `detectAndGate`, at clock times 0, 200,
400 and 600 ms: a ripple while the animal is quiet (draw 50), movement without a
ripple, a ripple during the movement that ends with it, and a quiet block. -/
def gatedRun : RippleDetectorSettings × List TTLEvent :=
  let r1 := detectAndGate 0 gatedSettings [(⟨6, 1⟩, ⟨0, 0, 0, 0, 50⟩)] [⟨1, 1⟩]
  let r2 := detectAndGate 1 r1.1 [(⟨1, 1⟩, ⟨200, 200, 200, 200, 50⟩)] [⟨20, 1⟩]
  let r3 := detectAndGate 2 r2.1 [(⟨6, 1⟩, ⟨400, 400, 400, 400, 50⟩)] [⟨1, 1⟩]
  let r4 := detectAndGate 3 r3.1 [(⟨1, 1⟩, ⟨600, 600, 600, 600, 50⟩)] [⟨1, 1⟩]
  (r4.1, r1.2 ++ r2.2 ++ r3.2 ++ r4.2)

/-! ## Calibration -/

/-- The members `calibrationRmsValues[streamId]` and `calibrationMovRmsValues[streamId]`
of `RippleDetector`. -/
structure CalibrationBuffers where
  calibrationRmsValues : List ℚ
  calibrationMovRmsValues : List ℚ
  deriving DecidableEq, Repr

/-- Lines 369-383 of `process`, "Check if need to calibrate".  The first component is
the member `shouldCalibrate` afterwards. -/
def checkCalibrate (shouldCalibrate : Bool) (s : RippleDetectorSettings)
    (c : CalibrationBuffers) : Bool × RippleDetectorSettings × CalibrationBuffers :=
  if shouldCalibrate || (s.movChannChanged && decide (s.movementInputChannel > 0)) then
    (false,
     { s with isCalibrating := true, movChannChanged := false, pointsProcessed := 0 },
     { calibrationRmsValues := [], calibrationMovRmsValues := [] })
  else (shouldCalibrate, s, c)

/-- Lines 433-440 of `process`: what the window loop does with the values `rms` and
`movRms` of a window while `isCalibrating` is set. -/
def calibrateWindow (rms movRms : ℚ) (s : RippleDetectorSettings) (c : CalibrationBuffers) :
    RippleDetectorSettings × CalibrationBuffers :=
  if s.movSwitchEnabled then
    ({ s with rmsMean := s.rmsMean + rms, movRmsMean := s.movRmsMean + movRms },
     { calibrationRmsValues := c.calibrationRmsValues ++ [rms],
       calibrationMovRmsValues := c.calibrationMovRmsValues ++ [movRms] })
  else
    ({ s with rmsMean := s.rmsMean + rms },
     { c with calibrationRmsValues := c.calibrationRmsValues ++ [rms] })

/-- The window loop of a block processed while `isCalibrating` is set, on the values
`(rms, movRms)` of its windows in order. -/
def calibrateWindows :
    List (ℚ × ℚ) → RippleDetectorSettings → CalibrationBuffers →
      RippleDetectorSettings × CalibrationBuffers
  | [], s, c => (s, c)
  | v :: rest, s, c =>
    let r := calibrateWindow v.1 v.2 s c
    calibrateWindows rest r.1 r.2

/-- The loop of lines 522-525 (and 538-543) of `finishCalibration`: starting from the
stored standard deviation `acc`, add `pow(x - mean, 2.0)` for every collected value. -/
def sumSquaredDeviations (mean : ℚ) (values : List ℚ) (acc : ℚ) : ℚ :=
  values.foldl (fun a x => a + (x - mean) ^ 2) acc

/-- A division of doubles whose result is a number: `none` stands for the infinity or
NaN that a zero divisor produces. -/
def divide (x y : ℚ) : Option ℚ :=
  if y = 0 then none else some (x / y)

/-- `RippleDetector::finishCalibration` (lines 509-550; the `printf` calls are left
out).  `sqrt` is the square root of `<cmath>`.  The result is `none` when one of the
divisions has a zero divisor, that is when a stored mean or standard deviation is
not a number. -/
def finishCalibration (sqrt : ℚ → ℚ) (s : RippleDetectorSettings) (c : CalibrationBuffers) :
    Option RippleDetectorSettings := do
  let s1 := { s with isCalibrating := false }
  let numCalibrationPoints : Int := c.calibrationRmsValues.length
  let mean ← divide s1.rmsMean (numCalibrationPoints : ℚ)
  let s2 := { s1 with rmsMean := mean }
  let s3 := { s2 with
    rmsStdDev := sumSquaredDeviations s2.rmsMean c.calibrationRmsValues s2.rmsStdDev }
  let variance ← divide s3.rmsStdDev ((numCalibrationPoints : ℚ) - 1)
  let s4 := { s3 with rmsStdDev := sqrt variance }
  let s5 := { s4 with threshold := s4.rmsMean + s4.rippleSds * s4.rmsStdDev }
  if s5.movSwitchEnabled then
    let numMovCalibrationPoints : Int := c.calibrationMovRmsValues.length
    let movMean ← divide s5.movRmsMean (numMovCalibrationPoints : ℚ)
    let s6 := { s5 with movRmsMean := movMean }
    let s7 := { s6 with
      movRmsStdDev :=
        sumSquaredDeviations s6.movRmsMean c.calibrationMovRmsValues s6.movRmsStdDev }
    let movVariance ← divide s7.movRmsStdDev ((numMovCalibrationPoints : ℚ) - 1)
    let s8 := { s7 with movRmsStdDev := sqrt movVariance }
    some { s8 with movThreshold := s8.movRmsMean + s8.movSds * s8.movRmsStdDev }
  else some s5

/-- Lines 454-464 of `process`, the branch taken while `isCalibrating` is set (the
update of the text boxes of the editor is left out). -/
def calibrationBlockEnd (sqrt : ℚ → ℚ) (numSamplesInBlock : Int)
    (s : RippleDetectorSettings) (c : CalibrationBuffers) : Option RippleDetectorSettings :=
  let s1 := { s with pointsProcessed := s.pointsProcessed + numSamplesInBlock }
  if s1.pointsProcessed ≥ s1.calibrationPoints then finishCalibration sqrt s1 c
  else some s1

/-- The calibrating branches of `process` for one block, entered with `isCalibrating`
set: lines 433-440 for the values `(rms, movRms)` of every window of the block,
then lines 454-464.  The result is `none` when `finishCalibration` runs and produces a
value that is not a number. -/
def calibrationBlock (sqrt : ℚ → ℚ) (numSamplesInBlock : Int) (vals : List (ℚ × ℚ))
    (s : RippleDetectorSettings) (c : CalibrationBuffers) :
    Option (RippleDetectorSettings × CalibrationBuffers) :=
  let r := calibrateWindows vals s c
  (calibrationBlockEnd sqrt numSamplesInBlock r.1 r.2).map (fun s' => (s', r.2))

/-- A calibration pass that completes within one block: the calibration is requested
(`shouldCalibrate`), and the next block of the stream, with `numSamplesInBlock`
samples and the window values `vals`, reaches `calibrationPoints`. -/
def requestedCalibration (sqrt : ℚ → ℚ) (numSamplesInBlock : Int) (vals : List (ℚ × ℚ))
    (s : RippleDetectorSettings) (c : CalibrationBuffers) :
    Option (RippleDetectorSettings × CalibrationBuffers) :=
  let r := checkCalibrate true s c
  calibrationBlock sqrt numSamplesInBlock vals r.2.1 r.2.2

/-- The mean of the spec, `sum / count`, of the values collected by a calibration
pass. -/
def sampleMean (xs : List ℚ) : ℚ := xs.sum / (xs.length : ℚ)

/-- The standard deviation of the spec, `sqrt(sum((x_i - mean)^2) / (count - 1))` over
the values collected by a calibration pass. -/
def sampleStdDev (sqrt : ℚ → ℚ) (xs : List ℚ) : ℚ :=
  sqrt ((xs.map (fun x => (x - sampleMean xs) ^ 2)).sum / ((xs.length : ℚ) - 1))

/-! ## `calculateRms` and `calculateAccelMod` -/

/-- The loop of `calculateRms` (lines 480-482), `count` iterations from index `idx`
with the running `sum`, on the memory `data` behind the pointer. -/
def squaresFrom (data : Int → ℚ) : Nat → Int → ℚ → ℚ
  | 0, _, sum => sum
  | count + 1, idx, sum => squaresFrom data count (idx + 1) (sum + data idx ^ 2)

/-- `RippleDetector::calculateRms(const float *data, int initIndex, int endIndex)`
(lines 477-485): the loop runs for `initIndex ≤ idx < endIndex`, and the quotient
`sum / (endIndex - initIndex)` is not a number when the window is empty. -/
def calculateRms (sqrt : ℚ → ℚ) (data : Int → ℚ) (initIndex endIndex : Int) : Option ℚ :=
  (divide (squaresFrom data (endIndex - initIndex).toNat initIndex 0)
    ((endIndex - initIndex : Int) : ℚ)).map sqrt

/-- The loop of the vector overload of `calculateRms` (lines 489-491); `none` when an
index is outside the vector. -/
def squaresFromVector (data : List ℚ) : Nat → Int → ℚ → Option ℚ
  | 0, _, sum => some sum
  | count + 1, idx, sum =>
    if 0 ≤ idx then
      match data[idx.toNat]? with
      | some x => squaresFromVector data count (idx + 1) (sum + x ^ 2)
      | none => none
    else none

/-- `RippleDetector::calculateRms(std::vector<float> data, int initIndex,
int endIndex)` (lines 486-494). -/
def calculateRmsVector (sqrt : ℚ → ℚ) (data : List ℚ) (initIndex endIndex : Int) :
    Option ℚ :=
  (squaresFromVector data (endIndex - initIndex).toNat initIndex 0).bind
    (fun sum => (divide sum ((endIndex - initIndex : Int) : ℚ)).map sqrt)

/-- The value that one iteration of the loop of `calculateAccelMod` pushes (lines
502-503); `none` when `axis` has fewer than three rows or a row has no entry `p`. -/
def accelModAt (sqrt : ℚ → ℚ) (axis : List (List ℚ)) (p : Nat) : Option ℚ :=
  match axis[0]?, axis[1]?, axis[2]? with
  | some x, some y, some z =>
    match x[p]?, y[p]?, z[p]? with
    | some a, some b, some c => some (sqrt (a ^ 2 + b ^ 2 + c ^ 2))
    | _, _, _ => none
  | _, _, _ => none

/-- The loop of `calculateAccelMod` (lines 501-504), `count` iterations from `p`. -/
def accelModFrom (sqrt : ℚ → ℚ) (axis : List (List ℚ)) : Nat → Nat → Option (List ℚ)
  | 0, _ => some []
  | count + 1, p =>
    match accelModAt sqrt axis p with
    | some m => (accelModFrom sqrt axis count (p + 1)).map (fun rest => m :: rest)
    | none => none

/-- `RippleDetector::calculateAccelMod` (lines 497-506). -/
def calculateAccelMod (sqrt : ℚ → ℚ) (axis : List (List ℚ)) (numberOfSamples : Int) :
    Option (List ℚ) :=
  accelModFrom sqrt axis numberOfSamples.toNat 0

/-! ## `parameterValueChanged` -/

/-- The branch of `parameterValueChanged` for the parameter `mov_detect` (lines
261-285), `value` being the new value of the parameter; the message boxes are left
out. -/
def movDetectChanged (value : MovSwitch) (s : RippleDetectorSettings) :
    RippleDetectorSettings :=
  let s1 := { s with movSwitch := value }
  let s2 :=
    if s1.movSwitch = MovSwitch.ACC then
      if s1.auxChannelIndices.length = 0 then { s1 with movSwitch := MovSwitch.OFF }
      else s1
    else s1
  { s2 with movSwitchEnabled := !decide (s2.movSwitch = MovSwitch.OFF),
            movChannChanged := true }

/-- Lines 391-400 of `process` for the mode `ACC`: one row of `numSamplesInBlock`
samples for every auxiliary channel, handed to `calculateAccelMod`. -/
def accelMagnitude (sqrt : ℚ → ℚ) (data : Int → Int → ℚ) (numSamplesInBlock : Nat)
    (s : RippleDetectorSettings) : Option (List ℚ) :=
  calculateAccelMod sqrt
    (s.auxChannelIndices.map
      (fun ch => (List.range numSamplesInBlock).map (fun i => data ch i)))
    numSamplesInBlock

/-- Lines 349-361 of `process`: the sample counts and thresholds derived from the
configuration and the sample rate of the stream. -/
def recomputeThresholds (sampleRate : ℚ) (s : RippleDetectorSettings) :
    RippleDetectorSettings :=
  { s with
    numSamplesTimeThreshold := ⌈sampleRate * (s.timeThreshold : ℚ) / 1000⌉,
    minMovSamplesBelowThresh := ⌈sampleRate * (s.minTimeWoMov : ℚ) / 1000⌉,
    minMovSamplesAboveThresh := ⌈sampleRate * (s.minTimeWMov : ℚ) / 1000⌉,
    threshold := s.rmsMean + s.rippleSds * s.rmsStdDev,
    movThreshold := s.movRmsMean + s.movSds * s.movRmsStdDev }

/-- The end-to-end scenario of the spec: sample rate 1000, multiplier 5, mean 0,
standard deviation 1, time threshold 10 ms, the other parameters at their defaults
(output duration 100 ms, refractory time 140 ms). -/
def scenarioSettings : RippleDetectorSettings :=
  recomputeThresholds 1000
    { initialSettings with rmsMean := 0, rmsStdDev := 1, rippleSds := 5, timeThreshold := 10 }

/-- The first `n` windows of the block of the scenario: RMS window length 1, every
sample at 6, one millisecond of clock time per sample starting at `t0`. -/
def scenarioWindows (t0 : Int) (n : Nat) : List (RmsWindow × Oracle) :=
  (List.range n).map (fun i =>
    ({ rms := 6, samples := 1 },
     { offsetNow := t0 + i, rippleStart := t0 + i, refractoryStart := t0 + i,
       timeNow := t0 + i, randomDraw := 50 }))

/-! ## `process` -/

/-- What `process` reads, for one stream and one block, from outside the settings:
the flag `enable_stream`, the first sample number and the number of samples of the
block, the sample rate, the samples `data channel index` behind
`buffer.getReadPointer(channel, 0)`, and the clock readings and draw of every
iteration of `detectRipples`. -/
structure StreamBlock where
  enable_stream : Bool
  firstSampleInBlock : Int
  numSamplesInBlock : Nat
  sampleRate : ℚ
  data : Int → Int → ℚ
  oracle : Nat → Oracle

/-- What `RippleDetector` keeps for one stream between blocks: `settings[streamId]`
and the calibration vectors of the stream. -/
structure StreamState where
  settings : RippleDetectorSettings
  calibration : CalibrationBuffers

/-- The ways in which the embedding of `process` stops without a result. -/
inductive Fault where
  /-- The window loop has not ended when the fuel runs out. -/
  | outOfFuel
  /-- A division by zero: a value that is not a number. -/
  | notANumber
  /-- An access outside a `std::vector`. -/
  | outOfBounds
  deriving DecidableEq, Repr

/-- The outcome of the body of the stream loop of `process` for one stream:
`returned` tells that a `return` statement was executed, `shouldCalibrate` is the
member of that name afterwards. -/
structure StreamResult where
  returned : Bool
  shouldCalibrate : Bool
  state : StreamState
  events : List TTLEvent

/-- Lines 338-347 of `process`: "Enable detection again if the mov. detector channel
is "-" or if calibration button was clicked". -/
def reEnable (firstSampleInBlock : Int) (shouldCalibrate : Bool)
    (s : RippleDetectorSettings) : RippleDetectorSettings × List TTLEvent :=
  if !s.pluginEnabled && (!s.movSwitchEnabled || shouldCalibrate) then
    ({ s with pluginEnabled := true },
      [{ line := OutputLine.movement, channel := s.movementOutputChannel,
         sampleNumber := firstSampleInBlock, state := false, bufferOffset := 0 }])
  else (s, [])

/-- Lines 385-406 of `process`: the movement signal of the block.  In the mode `ACC`
it is the result of `calculateAccelMod`; otherwise (`EMG`) the code assigns to
`emgData[0]`, an element of an empty vector. -/
def movementSignal (sqrt : ℚ → ℚ) (b : StreamBlock) (s : RippleDetectorSettings) :
    Except Fault (List ℚ) :=
  if s.movSwitchEnabled then
    if s.movSwitch = MovSwitch.ACC then
      match accelMagnitude sqrt b.data b.numSamplesInBlock s with
      | some accMagnit => Except.ok accMagnit
      | none => Except.error Fault.outOfBounds
    else Except.error Fault.outOfBounds
  else Except.ok []

/-- Lines 420-431 of `process`: the values `rms` and `movRms` of the window
`[rmsStartIdx, rmsEndIdx)`. -/
def windowValues (sqrt : ℚ → ℚ) (b : StreamBlock) (s : RippleDetectorSettings)
    (movement : List ℚ) (w : Int × Int) : Except Fault (ℚ × ℚ) :=
  match calculateRms sqrt (b.data s.rippleInputChannel) w.1 w.2 with
  | none => Except.error Fault.notANumber
  | some rms =>
    if s.movSwitchEnabled then
      match calculateRmsVector sqrt movement w.1 w.2 with
      | some movRms => Except.ok (rms, movRms)
      | none => Except.error Fault.outOfBounds
    else Except.ok (rms, 0)

/-- The values of all windows of the block, in order. -/
def allWindowValues (sqrt : ℚ → ℚ) (b : StreamBlock) (s : RippleDetectorSettings)
    (movement : List ℚ) : List (Int × Int) → Except Fault (List (ℚ × ℚ))
  | [] => Except.ok []
  | w :: rest =>
    match windowValues sqrt b s movement w with
    | Except.error f => Except.error f
    | Except.ok v =>
      match allWindowValues sqrt b s movement rest with
      | Except.error f => Except.error f
      | Except.ok vs => Except.ok (v :: vs)

/-- The arrays `rmsValuesArray` and `rmsNumSamplesArray` that the window loop fills
while the stream is not calibrating (lines 442-444), each entry paired with what the
iteration of `detectRipples` on it will read from the clock and the generator. -/
def rmsArrays (b : StreamBlock) (ws : List (Int × Int)) (vals : List (ℚ × ℚ)) :
    List (RmsWindow × Oracle) :=
  ((ws.zip vals).enum).map
    (fun e => ({ rms := e.2.2.1, samples := windowSamples e.2.1 }, b.oracle e.1))

/-- The arrays `movRmsValuesArray` and `movRmsNumSamplesArray` (lines 446-450). -/
def movRmsArrays (s : RippleDetectorSettings) (ws : List (Int × Int))
    (vals : List (ℚ × ℚ)) : List RmsWindow :=
  if s.movSwitchEnabled then
    (ws.zip vals).map (fun e => { rms := e.2.2, samples := windowSamples e.1 })
  else []

/-- The value of `rmsEndIdx` after the window loop. -/
def lastEndIdx (s : RippleDetectorSettings) (ws : List (Int × Int)) : Int :=
  match ws.getLast? with
  | some w => w.2
  | none => s.rmsEndIdx

/-- Lines 338-383 of `process`: the re-enabling of the detector, the derived
thresholds, the clamp of `rmsSamples` and the check for a calibration.  The result
is the member `shouldCalibrate`, the settings and the calibration vectors afterwards,
and the event added. -/
def prepareBlock (b : StreamBlock) (shouldCalibrate : Bool) (st : StreamState) :
    Bool × RippleDetectorSettings × CalibrationBuffers × List TTLEvent :=
  let r1 := reEnable b.firstSampleInBlock shouldCalibrate st.settings
  let s2 := recomputeThresholds b.sampleRate r1.1
  let s3 := { s2 with rmsSamples := clampRmsSamples s2.rmsSamples b.numSamplesInBlock }
  let r4 := checkCalibrate shouldCalibrate s3 st.calibration
  (r4.1, r4.2.1, r4.2.2, r1.2)

/-- Lines 385-431 of `process`: the movement signal, the windows of the window loop
and the values `rms` and `movRms` of each of them.  `fuel` bounds the number of
iterations of the window loop. -/
def blockWindows (sqrt : ℚ → ℚ) (fuel : Nat) (b : StreamBlock)
    (s : RippleDetectorSettings) : Except Fault (List (Int × Int) × List (ℚ × ℚ)) :=
  match movementSignal sqrt b s with
  | Except.error f => Except.error f
  | Except.ok movement =>
    match windowLoop fuel s.rmsSamples b.numSamplesInBlock 0 with
    | none => Except.error Fault.outOfFuel
    | some ws =>
      match allWindowValues sqrt b s movement ws with
      | Except.error f => Except.error f
      | Except.ok vals => Except.ok (ws, vals)

/-- Lines 433-469 of `process`: what is done with the values of the windows, by the
window loop and after it, according to `isCalibrating`. -/
def handleWindows (sqrt : ℚ → ℚ) (b : StreamBlock) (s : RippleDetectorSettings)
    (c : CalibrationBuffers) (ws : List (Int × Int)) (vals : List (ℚ × ℚ)) :
    Except Fault (RippleDetectorSettings × CalibrationBuffers × List TTLEvent) :=
  let s5 := { s with rmsEndIdx := lastEndIdx s ws }
  if s5.isCalibrating then
    let r6 := calibrateWindows vals s5 c
    match calibrationBlockEnd sqrt b.numSamplesInBlock r6.1 r6.2 with
    | none => Except.error Fault.notANumber
    | some s7 => Except.ok (s7, r6.2, [])
  else
    let r6 := detectAndGate b.firstSampleInBlock s5 (rmsArrays b ws vals)
      (movRmsArrays s5 ws vals)
    Except.ok (r6.1, c, r6.2)

/-- The body of the stream loop of `process` for an enabled stream (lines 327-470). -/
def processStream (sqrt : ℚ → ℚ) (fuel : Nat) (shouldCalibrate : Bool) (st : StreamState)
    (b : StreamBlock) : Except Fault StreamResult :=
  if st.settings.rippleInputChannel < 0 then
    Except.ok { returned := true, shouldCalibrate := shouldCalibrate, state := st, events := [] }
  else if b.numSamplesInBlock = 0 then
    Except.ok { returned := true, shouldCalibrate := shouldCalibrate, state := st, events := [] }
  else
    let p := prepareBlock b shouldCalibrate st
    match blockWindows sqrt fuel b p.2.1 with
    | Except.error f => Except.error f
    | Except.ok wv =>
      match handleWindows sqrt b p.2.1 p.2.2.1 wv.1 wv.2 with
      | Except.error f => Except.error f
      | Except.ok r =>
        Except.ok { returned := false, shouldCalibrate := p.1,
                    state := { settings := r.1, calibration := r.2.1 },
                    events := p.2.2.2 ++ r.2.2 }

/-- `RippleDetector::process`: the loop over the streams, each with its state and
what the block holds for it.  The result is the member `shouldCalibrate`, the states
of the streams and the events added, in order.  A `return` in the body ends the loop:
the streams after it keep their state. -/
def process (sqrt : ℚ → ℚ) (fuel : Nat) :
    Bool → List (StreamState × StreamBlock) →
      Except Fault (Bool × List StreamState × List TTLEvent)
  | shouldCalibrate, [] => Except.ok (shouldCalibrate, [], [])
  | shouldCalibrate, sb :: rest =>
    if sb.2.enable_stream then
      match processStream sqrt fuel shouldCalibrate sb.1 sb.2 with
      | Except.error f => Except.error f
      | Except.ok r =>
        if r.returned then
          Except.ok (r.shouldCalibrate, r.state :: rest.map Prod.fst, r.events)
        else
          match process sqrt fuel r.shouldCalibrate rest with
          | Except.error f => Except.error f
          | Except.ok out => Except.ok (out.1, r.state :: out.2.1, r.events ++ out.2.2)
    else
      match process sqrt fuel shouldCalibrate rest with
      | Except.error f => Except.error f
      | Except.ok out => Except.ok (out.1, sb.1 :: out.2.1, out.2.2)

/-- The counters and flags of the two state machines: `counterAboveThresh`,
`flagTimeThreshold`, `onRefractoryTime`, `rippleDetected`, `counterMovUpThresh`,
`counterMovDownThresh`, `flagMovMinTimeUp` and `flagMovMinTimeDown`. -/
def detectorState (s : RippleDetectorSettings) :
    Int × Bool × Bool × Bool × Int × Int × Bool × Bool :=
  (s.counterAboveThresh, s.flagTimeThreshold, s.onRefractoryTime, s.rippleDetected,
   s.counterMovUpThresh, s.counterMovDownThresh, s.flagMovMinTimeUp, s.flagMovMinTimeDown)

/-- A stream with the settings of `initialSettings`, 600000 calibration points and
empty calibration vectors. -/
def idleStream : StreamState :=
  { settings := { initialSettings with calibrationPoints := 600000 },
    calibration := { calibrationRmsValues := [], calibrationMovRmsValues := [] } }

/-- A stream like `idleStream` that has no primary input channel
(`rippleInputChannel = -1`). -/
def unassignedStream : StreamState :=
  { idleStream with settings := { idleStream.settings with rippleInputChannel := -1 } }

/-- A stream like `idleStream` with 4 calibration points and an RMS window length of
2 samples. -/
def shortCalibrationStream : StreamState :=
  { idleStream with
    settings := { idleStream.settings with calibrationPoints := 4, rmsSamples := 2 } }

/-- A block of `n` samples at 30 kHz for an enabled stream, starting at sample 0; the
sample `i` of every channel is `i`, and every clock reading and draw is 0. -/
def rampBlock (n : Nat) : StreamBlock :=
  { enable_stream := true, firstSampleInBlock := 0, numSamplesInBlock := n,
    sampleRate := 30000, data := fun _ i => (i : ℚ),
    oracle := fun _ => { offsetNow := 0, rippleStart := 0, refractoryStart := 0,
                         timeNow := 0, randomDraw := 0 } }

/-! ## Observations on `process` -/

/-- Fields of the settings that neither `detectRipples` nor `evalMovement` writes:
`rippleInputChannel`, `rmsSamples`, `movSwitchEnabled`, `isCalibrating`,
`pointsProcessed` and `movChannChanged`. -/
def detectionFrame (s : RippleDetectorSettings) : Int × Int × Bool × Bool × Int × Bool :=
  (s.rippleInputChannel, s.rmsSamples, s.movSwitchEnabled, s.isCalibrating, s.pointsProcessed,
   s.movChannChanged)

/-- Fields of the settings that the calibrating branches of `process` and
`finishCalibration` do not write: `rippleInputChannel`, `rmsSamples`,
`movSwitchEnabled` and `pluginEnabled`. -/
def calibrationFrame (s : RippleDetectorSettings) : Int × Int × Bool × Bool :=
  (s.rippleInputChannel, s.rmsSamples, s.movSwitchEnabled, s.pluginEnabled)

/-- The settings after the window loop of lines 412-452 over the windows `ws`: the
loop leaves the end index of the last window in `rmsEndIdx`. -/
def afterWindowLoop (s : RippleDetectorSettings) (ws : List (Int × Int)) :
    RippleDetectorSettings :=
  { s with rmsEndIdx := lastEndIdx s ws }

/-- The branch of `parameterValueChanged` for the parameter `mov_input` (lines
286-298).  `selected` is the global index of the first selected channel, `none` when
the selection is empty. -/
def movInputChanged (selected : Option Int) (s : RippleDetectorSettings) :
    RippleDetectorSettings :=
  let s1 :=
    match selected with
    | some globalIndex => { s with movementInputChannel := globalIndex }
    | none => { s with movementInputChannel := -1 }
  { s1 with movChannChanged := true }

/-- A stream after a calibration pass of 600000 samples: mean 2, standard deviation
1, the two collected values still in the calibration vector; movement detection
off. -/
def baselineStream : StreamState :=
  { settings := { initialSettings with
      calibrationPoints := 600000, pointsProcessed := 600000, rmsMean := 2, rmsStdDev := 1 },
    calibration := { calibrationRmsValues := [1, 3], calibrationMovRmsValues := [] } }

/-- The stream `baselineStream` after `parameterValueChanged` has stored the global
index 0 as its movement input channel. -/
def reassignedStream : StreamState :=
  { settings := movInputChanged (some 0) baselineStream.settings,
    calibration := baselineStream.calibration }

/-- A stream like `idleStream` in the movement mode `EMG` with the movement input on
channel 1. -/
def emgStream : StreamState :=
  { idleStream with
    settings := { idleStream.settings with
      movSwitch := MovSwitch.EMG, movSwitchEnabled := true, movementInputChannel := 1 } }

/-- The stream of `gatedSettings` in the middle of an excursion of both signals: 8
samples counted above each threshold, both flags of the excursions set. -/
def excursionSettings : RippleDetectorSettings :=
  { gatedSettings with
    counterAboveThresh := 8, flagTimeThreshold := true,
    counterMovUpThresh := 8, flagMovMinTimeUp := true }

/-- Consecutive calls of `process` for one enabled stream, with no parameter change in
between: the blocks in order, each handled by `processStream` from the state and the
member `shouldCalibrate` that the block before left. -/
def processBlocks (sqrt : ℚ → ℚ) (fuel : Nat) :
    Bool → StreamState → List StreamBlock → Except Fault (Bool × StreamState × List TTLEvent)
  | shouldCalibrate, st, [] => Except.ok (shouldCalibrate, st, [])
  | shouldCalibrate, st, b :: rest =>
    match processStream sqrt fuel shouldCalibrate st b with
    | Except.error f => Except.error f
    | Except.ok r =>
      match processBlocks sqrt fuel r.shouldCalibrate r.state rest with
      | Except.error f => Except.error f
      | Except.ok out => Except.ok (out.1, out.2.1, r.events ++ out.2.2)

/-- The window length that the clamp of lines 366-367 leaves after the blocks `blocks`,
starting from the stored length `rmsSamples`. -/
def clampedOver (rmsSamples : Int) (blocks : List StreamBlock) : Int :=
  blocks.foldl (fun w b => clampRmsSamples w b.numSamplesInBlock) rmsSamples

/-- The state `st'` is what the body of the stream loop leaves for the stream and block
`x` when no calibration is requested. -/
def HandledWithoutRequest (sqrt : ℚ → ℚ) (fuel : Nat) (x : StreamState × StreamBlock)
    (st' : StreamState) : Prop :=
  ∃ r, processStream sqrt fuel false x.1 x.2 = Except.ok r ∧ r.returned = false ∧
    st' = r.state

/-- The settings of `st'` are those that `detectRipples` and, with movement detection
on, `evalMovement` leave on the windows of the block of `x` (lines 465-469), the block
being handled with no calibration requested. -/
def RunsDetection (sqrt : ℚ → ℚ) (fuel : Nat) (x : StreamState × StreamBlock)
    (st' : StreamState) : Prop :=
  ∃ wv, blockWindows sqrt fuel x.2 (prepareBlock x.2 false x.1).2.1 = Except.ok wv ∧
    st'.settings =
      (detectAndGate x.2.firstSampleInBlock
        (afterWindowLoop (prepareBlock x.2 false x.1).2.1 wv.1)
        (rmsArrays x.2 wv.1 wv.2)
        (movRmsArrays (afterWindowLoop (prepareBlock x.2 false x.1).2.1 wv.1) wv.1 wv.2)).1



/-- A stream in the movement mode `ACC` on the auxiliary channels 1, 2 and 3 whose
detector has been disabled by movement (`pluginEnabled = false`), with 4 calibration
points and an RMS window length of 2 samples. -/
def gatedOffStream : StreamState :=
  { settings := { initialSettings with
      movSwitch := MovSwitch.ACC, movSwitchEnabled := true, auxChannelIndices := [1, 2, 3],
      pluginEnabled := false, calibrationPoints := 4, rmsSamples := 2 },
    calibration := { calibrationRmsValues := [], calibrationMovRmsValues := [] } }

/-- The stream `gatedOffStream` after `parameterValueChanged` has stored the global
index 5 as its movement input channel. -/
def gatedOffReassigned : StreamState :=
  { settings := movInputChanged (some 5) gatedOffStream.settings,
    calibration := gatedOffStream.calibration }

/-! ## The parameter `rms_samples` -/

theorem windowEnd_eq_min (W N a : Int) : windowEnd W N a = min (a + W) N := by
  unfold windowEnd
  split
  · rw [min_eq_right]; omega
  · rw [min_eq_left]; omega

theorem ediv_step (W x : Int) (hW : 1 ≤ W) (hx : 0 ≤ x) :
    ((x + W) / W).toNat = (x / W).toNat + 1 := by
  rw [Int.add_ediv_of_dvd_right (dvd_refl W), Int.ediv_self (by omega)]
  have h2 : 0 ≤ x / W := Int.ediv_nonneg hx (by omega)
  omega

theorem windowLoop_spec (W N : Int) (hW : 1 ≤ W) :
    ∀ (fuel : Nat) (a : Int), (N - a).toNat < fuel →
      ∃ ws, windowLoop fuel W N a = some ws ∧
        ws.length = ((N - a + W - 1) / W).toNat ∧
        (∀ (i : Nat) (h : i < ws.length),
          ws.get ⟨i, h⟩ = (a + i * W, min (a + (i + 1) * W) N)) ∧
        (ws.map windowSamples).sum = max (N - a) 0 := by
  intro fuel
  induction fuel with
  | zero => intro a h; omega
  | succ fuel ih =>
    intro a h
    by_cases ha : a < N
    · obtain ⟨ws, hws, hlen, hget, hsum⟩ := ih (a + W) (by omega)
      refine ⟨(a, windowEnd W N a) :: ws, ?_, ?_, ?_, ?_⟩
      · simp [windowLoop, ha, hws]
      · rw [List.length_cons, hlen]
        have h1 := ediv_step W (N - a - 1) hW (by omega)
        have h2 : N - a + W - 1 = N - a - 1 + W := by ring
        have h3 : N - (a + W) + W - 1 = N - a - 1 := by ring
        rw [h2, h3, h1]
      · intro i hi
        cases i with
        | zero => simp [windowEnd_eq_min]
        | succ j =>
          have := hget j (by simpa using hi)
          simp only [List.get_eq_getElem, List.getElem_cons_succ] at this ⊢
          rw [this]
          push_cast
          congr 1
          · ring
          · congr 1; ring
      · simp only [List.map_cons, List.sum_cons, hsum, windowSamples, windowEnd_eq_min]
        rcases le_total (a + W) N with h1 | h1
        · rw [min_eq_left h1, max_eq_left (by omega), max_eq_left (by omega)]; ring
        · rw [min_eq_right h1, max_eq_right (by omega), max_eq_left (by omega)]; ring
    · refine ⟨[], ?_, ?_, ?_, ?_⟩
      · simp [windowLoop, ha]
      · have : (N - a + W - 1) / W ≤ 0 := by
          have : (N - a + W - 1) / W < 1 := by
            apply Int.ediv_lt_of_lt_mul (by omega); omega
          omega
        simp only [List.length_nil]; omega
      · intro i hi; simp at hi
      · simp; omega

theorem clampRmsSamples_bounds (W N : Int) (hN : 1 ≤ N) (hW : 1 ≤ W) :
    1 ≤ clampRmsSamples W N ∧ clampRmsSamples W N ≤ N := by
  unfold clampRmsSamples
  split <;> omega

theorem last_window_samples (W N : Int) (hW : 1 ≤ W) :
    N - ((N - 1) / W) * W = if N % W = 0 then W else N % W := by
  have hdiv := Int.ediv_add_emod N W
  have hr0 := Int.emod_nonneg N (show W ≠ 0 by omega)
  have hr1 := Int.emod_lt_of_pos N (show 0 < W by omega)
  by_cases hr : N % W = 0
  · rw [if_pos hr]
    have h1 : N - 1 = (W - 1) + W * (N / W - 1) := by rw [hr] at hdiv; linarith
    rw [h1, Int.add_mul_ediv_left _ _ (show W ≠ 0 by omega),
      Int.ediv_eq_zero_of_lt (by omega) (by omega)]
    rw [hr] at hdiv
    linarith
  · rw [if_neg hr]
    have h1 : N - 1 = (N % W - 1) + W * (N / W) := by linarith
    rw [h1, Int.add_mul_ediv_left _ _ (show W ≠ 0 by omega),
      Int.ediv_eq_zero_of_lt (by omega) (by omega)]
    linarith

theorem count_mul_bounds (W N : Int) (hN : 1 ≤ N) (hW : 1 ≤ W) :
    (N + W - 1) / W = (N - 1) / W + 1 ∧ ((N - 1) / W) * W ≤ N - 1 ∧
      N - 1 < ((N - 1) / W + 1) * W ∧ 0 ≤ (N - 1) / W := by
  refine ⟨?_, ?_, ?_, ?_⟩
  · have h : N + W - 1 = N - 1 + W := by ring
    rw [h, Int.add_ediv_of_dvd_right (dvd_refl W), Int.ediv_self (by omega)]
  · exact Int.ediv_mul_le _ (by omega)
  · exact Int.lt_ediv_add_one_mul_self _ (by omega)
  · exact Int.ediv_nonneg (by omega) (by omega)

/-- The windows of the loop run with a window length `C ≥ 1`. -/
theorem windowLoop_cover (N C : Int) (hN : 1 ≤ N) (hC1 : 1 ≤ C)
    (fuel : Nat) (hfuel : N.toNat < fuel) :
    ∃ ws : List (Int × Int),
      windowLoop fuel C N 0 = some ws ∧
      (ws.length : Int) = ⌈(N : ℚ) / (C : ℚ)⌉ ∧
      (∀ (i : Nat) (h : i < ws.length),
        (ws.get ⟨i, h⟩).1 = i * C ∧
        (i + 1 < ws.length →
          (ws.get ⟨i, h⟩).2 = (i + 1) * C ∧
          windowSamples (ws.get ⟨i, h⟩) = C) ∧
        (i + 1 = ws.length →
          (ws.get ⟨i, h⟩).2 = N ∧
          windowSamples (ws.get ⟨i, h⟩) =
            if N % C = 0 then C
            else N % C)) ∧
      (ws.map windowSamples).sum = N := by
  obtain ⟨ws, hws, hlen, hget, hsum⟩ := windowLoop_spec C N hC1 fuel 0 (by simpa using hfuel)
  obtain ⟨hq1, hq2, hq3, hq4⟩ := count_mul_bounds C N hN hC1
  have hlenZ : (ws.length : Int) = (N - 1) / C + 1 := by
    rw [hlen]; simp only [sub_zero]; rw [hq1]; omega
  refine ⟨ws, hws, ?_, ?_, ?_⟩
  · rw [hlenZ]
    symm
    rw [Int.ceil_eq_iff]
    have hCq : (0 : ℚ) < (C : ℚ) := by exact_mod_cast (show (0 : Int) < C by omega)
    constructor
    · rw [lt_div_iff₀ hCq]
      have : ((N - 1) / C) * C < N := by omega
      have h2 : ((((N - 1) / C) * C : Int) : ℚ) < (N : ℚ) := by exact_mod_cast this
      push_cast at h2 ⊢
      linarith
    · rw [div_le_iff₀ hCq]
      have : N ≤ ((N - 1) / C + 1) * C := by omega
      have h2 : (N : ℚ) ≤ ((((N - 1) / C + 1) * C : Int) : ℚ) := by exact_mod_cast this
      push_cast at h2 ⊢
      linarith
  · intro i h
    have hi := hget i h
    simp only [zero_add] at hi
    have hiZ : (i : Int) + 1 ≤ (N - 1) / C + 1 := by omega
    refine ⟨by rw [hi], ?_, ?_⟩
    · intro hlt
      have hle : ((i : Int) + 1) * C ≤ N := by
        have : (i : Int) + 1 ≤ (N - 1) / C := by omega
        have := Int.mul_le_mul_of_nonneg_right this (show 0 ≤ C by omega)
        omega
      rw [hi]
      simp only [windowSamples, min_eq_left hle]
      constructor
      · trivial
      · ring
    · intro heq
      have hiq : (i : Int) = (N - 1) / C := by omega
      have hge : N ≤ ((i : Int) + 1) * C := by rw [hiq]; omega
      rw [hi]
      simp only [windowSamples, min_eq_right hge]
      refine ⟨trivial, ?_⟩
      rw [hiq]
      exact last_window_samples C N hC1
  · rw [hsum]; simp; omega


theorem ceil_div_clampRmsSamples (N W : Int) (hN : 1 ≤ N) (hW : 1 ≤ W) :
    ⌈(N : ℚ) / (clampRmsSamples W N : ℚ)⌉ = ⌈(N : ℚ) / (W : ℚ)⌉ := by
  unfold clampRmsSamples
  split_ifs with h
  · have hNq : (0 : ℚ) < (N : ℚ) := by exact_mod_cast (show (0 : Int) < N by omega)
    have hWq : (0 : ℚ) < (W : ℚ) := by exact_mod_cast (show (0 : Int) < W by omega)
    have hlt : (N : ℚ) < (W : ℚ) := by exact_mod_cast h
    rw [div_self (ne_of_gt hNq)]
    symm
    rw [Int.ceil_eq_iff]
    constructor
    · simp only [Int.ceil_one, Int.cast_one, sub_self]
      exact div_pos hNq hWq
    · simp only [Int.ceil_one, Int.cast_one]
      rw [div_le_one hWq]
      exact le_of_lt hlt
  · rfl

/-- C1: for every block length `N ≥ 1` and configured window length `W ≥ 1`, the
window loop of `process`, run with the clamped length `clampRmsSamples W N` and
enough fuel, terminates with `⌈N / W⌉` windows; window `i` starts at `i * W`, every
window but the last ends where the next one starts and has `W` samples, the last
one ends at `N` and has `N mod W` samples (`W` when `W` divides `N`), and the sample
counts sum to `N`.  (When `W > N` the clamp leaves a single window of `N = N mod W`
samples; otherwise the clamped length is `W`.) -/
theorem C1_windows_cover_block (N W : Int) (hN : 1 ≤ N) (hW : 1 ≤ W)
    (fuel : Nat) (hfuel : N.toNat < fuel) :
    ∃ ws : List (Int × Int),
      windowLoop fuel (clampRmsSamples W N) N 0 = some ws ∧
      (ws.length : Int) = ⌈(N : ℚ) / (W : ℚ)⌉ ∧
      (∀ (i : Nat) (h : i < ws.length),
        (ws.get ⟨i, h⟩).1 = i * W ∧
        (i + 1 < ws.length →
          (ws.get ⟨i, h⟩).2 = (i + 1) * W ∧ windowSamples (ws.get ⟨i, h⟩) = W) ∧
        (i + 1 = ws.length →
          (ws.get ⟨i, h⟩).2 = N ∧
          windowSamples (ws.get ⟨i, h⟩) = if N % W = 0 then W else N % W)) ∧
      (ws.map windowSamples).sum = N := by
  obtain ⟨hC1, hC2⟩ := clampRmsSamples_bounds W N hN hW
  obtain ⟨ws, hws, hlen, hget, hsum⟩ :=
    windowLoop_cover N (clampRmsSamples W N) hN hC1 fuel hfuel
  rw [ceil_div_clampRmsSamples N W hN hW] at hlen
  refine ⟨ws, hws, hlen, ?_, hsum⟩
  by_cases hle : W ≤ N
  · have hc : clampRmsSamples W N = W := by
      unfold clampRmsSamples; rw [if_neg (by omega)]
    rw [hc] at hget
    exact hget
  · -- a single window of `N` samples
    have hc : clampRmsSamples W N = N := by
      unfold clampRmsSamples; rw [if_pos (by omega)]
    rw [hc] at hget
    have hone : ws.length = 1 := by
      have h1 : ⌈(N : ℚ) / (W : ℚ)⌉ = ⌈(N : ℚ) / (N : ℚ)⌉ := by
        rw [← ceil_div_clampRmsSamples N W hN hW, hc]
      have hNq : (N : ℚ) ≠ 0 := by exact_mod_cast (show N ≠ 0 by omega)
      rw [h1, div_self hNq, Int.ceil_one] at hlen
      exact_mod_cast hlen
    intro i h
    have hi0 : i = 0 := by omega
    subst hi0
    obtain ⟨g1, -, g3⟩ := hget 0 h
    refine ⟨by rw [g1]; simp, fun hlt => by omega, fun heq => ?_⟩
    obtain ⟨g4, g5⟩ := g3 heq
    refine ⟨g4, ?_⟩
    rw [g5, Int.emod_self, if_pos rfl, Int.emod_eq_of_lt (by omega) (by omega),
      if_neg (by omega)]

/-- Witness of C1 at `N = 10`, `W = 4`. -/
theorem C1_windows_cover_block_witness :
    ∃ ws : List (Int × Int),
      windowLoop 11 (clampRmsSamples 4 10) 10 0 = some ws ∧
      (ws.map windowSamples).sum = 10 := by
  obtain ⟨ws, h1, _, _, h4⟩ := C1_windows_cover_block 10 4 (by decide) (by decide) 11 (by decide)
  exact ⟨ws, h1, h4⟩

/-! ### `detectRipples`: the effect of one iteration -/

theorem resetTTL_fst (f : Int) (o : Oracle) (s : RippleDetectorSettings) :
    (resetTTL f o s).1 = { s with rippleDetected := s.rippleDetected && !offsetFires o s } := by
  unfold resetTTL offsetFires
  split_ifs <;> (cases s; simp_all)

theorem resetTTL_snd (f : Int) (o : Oracle) (s : RippleDetectorSettings) :
    (resetTTL f o s).2 = if offsetFires o s then
      [{ line := OutputLine.ripple, channel := s.rippleOutputChannel,
               sampleNumber := f, state := false, bufferOffset := 0 }] else [] := by
  unfold resetTTL offsetFires
  by_cases h1 : s.rippleDetected = true <;> by_cases h2 : s.pluginEnabled = true <;>
    by_cases h3 : (((o.offsetNow - s.rippleStartTime : Int) : ℚ)) > s.ttl_duration <;>
    by_cases h4 : (s.random_number : ℚ) ≤ s.ttl_percent <;>
    simp only [h1, h2, h3, h4, ↓reduceIte, decide_True, decide_False, Bool.and_self,
      Bool.and_false, Bool.false_and, Bool.and_true, Bool.true_and, Bool.false_eq_true]

theorem countAboveThresh_eq (w : RmsWindow) (s : RippleDetectorSettings) :
    countAboveThresh w s = { s with
      counterAboveThresh := if w.rms > s.threshold then s.counterAboveThresh + w.samples else 0,
      flagTimeThreshold := decide (w.rms > s.threshold) && s.flagTimeThreshold } := by
  unfold countAboveThresh
  split_ifs <;> (cases s; simp_all)

theorem setFlagTimeThreshold_eq (s : RippleDetectorSettings) :
    setFlagTimeThreshold s = { s with
      flagTimeThreshold :=
        decide (s.counterAboveThresh > s.numSamplesTimeThreshold) || s.flagTimeThreshold } := by
  unfold setFlagTimeThreshold
  split_ifs <;> (cases s; simp_all)

theorem sendTTL_fst (f : Int) (o : Oracle) (s : RippleDetectorSettings) :
    (sendTTL f o s).1 = { s with
      rippleStartTime :=
        if (s.flagTimeThreshold && !s.onRefractoryTime && s.pluginEnabled) = true
        then o.rippleStart else s.rippleStartTime,
      random_number :=
        if (s.flagTimeThreshold && !s.onRefractoryTime && s.pluginEnabled) = true
        then o.randomDraw else s.random_number,
      rippleDetected := (s.flagTimeThreshold && !s.onRefractoryTime) || s.rippleDetected,
      onRefractoryTime := s.flagTimeThreshold || s.onRefractoryTime,
      refractoryTimeStart :=
        if (s.flagTimeThreshold && !s.onRefractoryTime) = true
        then o.refractoryStart else s.refractoryTimeStart } := by
  unfold sendTTL
  split_ifs <;> (cases s; simp_all)

theorem sendTTL_snd (f : Int) (o : Oracle) (s : RippleDetectorSettings) :
    (sendTTL f o s).2 =
      if (s.flagTimeThreshold && !s.onRefractoryTime && s.pluginEnabled) = true then
        { line := OutputLine.report, channel := s.ttlReportChannel,
          sampleNumber := f, state := true, bufferOffset := 0 } ::
        (if (o.randomDraw : ℚ) ≤ s.ttl_percent then
          [{ line := OutputLine.ripple, channel := s.rippleOutputChannel,
             sampleNumber := f, state := true, bufferOffset := 0 }]
         else [])
      else [] := by
  unfold sendTTL
  by_cases h1 : s.flagTimeThreshold = true <;> by_cases h2 : s.onRefractoryTime = true <;>
    by_cases h3 : s.pluginEnabled = true <;> simp [h1, h2, h3]

theorem checkRefractory_eq (o : Oracle) (s : RippleDetectorSettings) :
    checkRefractory o s = { s with
      timeNow := if s.onRefractoryTime = true then o.timeNow else s.timeNow,
      onRefractoryTime := s.onRefractoryTime &&
        !decide (o.timeNow - s.refractoryTimeStart ≥ s.refractoryTime) } := by
  unfold checkRefractory
  split_ifs <;> (cases s; simp_all)

theorem detectRipplesStep_pluginEnabled (f : Int) (s : RippleDetectorSettings) (w : RmsWindow)
    (o : Oracle) : (detectRipplesStep f s w o).1.pluginEnabled = s.pluginEnabled := by
  simp only [detectRipplesStep, resetTTL_fst, countAboveThresh_eq, setFlagTimeThreshold_eq,
    sendTTL_fst, checkRefractory_eq]

theorem detectRipplesStep_threshold (f : Int) (s : RippleDetectorSettings) (w : RmsWindow)
    (o : Oracle) : (detectRipplesStep f s w o).1.threshold = s.threshold := by
  simp only [detectRipplesStep, resetTTL_fst, countAboveThresh_eq, setFlagTimeThreshold_eq,
    sendTTL_fst, checkRefractory_eq]

theorem detectRipplesStep_numSamplesTimeThreshold (f : Int) (s : RippleDetectorSettings)
    (w : RmsWindow) (o : Oracle) :
    (detectRipplesStep f s w o).1.numSamplesTimeThreshold = s.numSamplesTimeThreshold := by
  simp only [detectRipplesStep, resetTTL_fst, countAboveThresh_eq, setFlagTimeThreshold_eq,
    sendTTL_fst, checkRefractory_eq]

theorem detectRipplesStep_refractoryTime (f : Int) (s : RippleDetectorSettings)
    (w : RmsWindow) (o : Oracle) :
    (detectRipplesStep f s w o).1.refractoryTime = s.refractoryTime := by
  simp only [detectRipplesStep, resetTTL_fst, countAboveThresh_eq, setFlagTimeThreshold_eq,
    sendTTL_fst, checkRefractory_eq]

theorem detectRipplesStep_counter (f : Int) (s : RippleDetectorSettings) (w : RmsWindow)
    (o : Oracle) : (detectRipplesStep f s w o).1.counterAboveThresh =
      if w.rms > s.threshold then s.counterAboveThresh + w.samples else 0 := by
  simp only [detectRipplesStep, resetTTL_fst, countAboveThresh_eq, setFlagTimeThreshold_eq,
    sendTTL_fst, checkRefractory_eq]

theorem debounced_eq (s : RippleDetectorSettings) (w : RmsWindow) :
    debounced s w =
      (decide ((if w.rms > s.threshold then s.counterAboveThresh + w.samples else 0) >
          s.numSamplesTimeThreshold) || (decide (w.rms > s.threshold) && s.flagTimeThreshold)) := by
  simp only [debounced, countAboveThresh_eq, setFlagTimeThreshold_eq]

theorem detectRipplesStep_flagTimeThreshold (f : Int) (s : RippleDetectorSettings) (w : RmsWindow)
    (o : Oracle) : (detectRipplesStep f s w o).1.flagTimeThreshold = debounced s w := by
  simp only [debounced, detectRipplesStep, resetTTL_fst, countAboveThresh_eq,
    setFlagTimeThreshold_eq, sendTTL_fst, checkRefractory_eq]

theorem detectRipplesStep_onRefractoryTime (f : Int) (s : RippleDetectorSettings) (w : RmsWindow)
    (o : Oracle) : (detectRipplesStep f s w o).1.onRefractoryTime =
      ((debounced s w || s.onRefractoryTime) &&
        !decide (o.timeNow -
          (if (debounced s w && !s.onRefractoryTime) = true then o.refractoryStart
           else s.refractoryTimeStart) ≥ s.refractoryTime)) := by
  simp only [debounced, detectRipplesStep, resetTTL_fst, countAboveThresh_eq,
    setFlagTimeThreshold_eq, sendTTL_fst, checkRefractory_eq]

theorem detectRipplesStep_report (f : Int) (s : RippleDetectorSettings) (w : RmsWindow)
    (o : Oracle) : countEvents OutputLine.report true (detectRipplesStep f s w o).2 =
      if (debounced s w && !s.onRefractoryTime && s.pluginEnabled) = true then 1 else 0 := by
  simp only [debounced, detectRipplesStep, resetTTL_fst, resetTTL_snd, countAboveThresh_eq,
    setFlagTimeThreshold_eq, sendTTL_fst, sendTTL_snd, checkRefractory_eq, countEvents]
  split_ifs <;> simp

theorem countEvents_append (l : OutputLine) (b : Bool) (xs ys : List TTLEvent) :
    countEvents l b (xs ++ ys) = countEvents l b xs + countEvents l b ys := by
  simp [countEvents]

theorem detectRipples_append (f : Int) (s : RippleDetectorSettings)
    (xs ys : List (RmsWindow × Oracle)) :
    detectRipples f s (xs ++ ys) =
      ((detectRipples f (detectRipples f s xs).1 ys).1,
        (detectRipples f s xs).2 ++ (detectRipples f (detectRipples f s xs).1 ys).2) := by
  induction xs generalizing s with
  | nil => simp [detectRipples]
  | cons x xs ih => simp [detectRipples, ih]

theorem detectRipples_frame (f : Int) (ws : List (RmsWindow × Oracle)) :
    ∀ s : RippleDetectorSettings,
      (detectRipples f s ws).1.pluginEnabled = s.pluginEnabled ∧
      (detectRipples f s ws).1.threshold = s.threshold ∧
      (detectRipples f s ws).1.numSamplesTimeThreshold = s.numSamplesTimeThreshold ∧
      (detectRipples f s ws).1.refractoryTime = s.refractoryTime := by
  induction ws with
  | nil => intro s; simp [detectRipples]
  | cons x xs ih =>
    intro s
    obtain ⟨h1, h2, h3, h4⟩ := ih (detectRipplesStep f s x.1 x.2).1
    simp only [detectRipples]
    rw [h1, h2, h3, h4]
    exact ⟨detectRipplesStep_pluginEnabled .., detectRipplesStep_threshold ..,
      detectRipplesStep_numSamplesTimeThreshold .., detectRipplesStep_refractoryTime ..⟩

/-- Windows at or below the threshold never produce a report event. -/
theorem detectRipples_below_report (f : Int) (ws : List (RmsWindow × Oracle)) :
    ∀ s : RippleDetectorSettings, (∀ w ∈ ws, w.1.rms ≤ s.threshold) →
      0 ≤ s.numSamplesTimeThreshold →
      countEvents OutputLine.report true (detectRipples f s ws).2 = 0 := by
  induction ws with
  | nil => intro s _ _; simp [detectRipples, countEvents]
  | cons x xs ih =>
    intro s h hT
    have hx : ¬ (x.1.rms > s.threshold) := not_lt.mpr (h x (List.mem_cons_self _ _))
    have hd : debounced s x.1 = false := by
      rw [debounced_eq]; simp [hx]; omega
    simp only [detectRipples, countEvents_append]
    rw [ih _ (by
      rw [detectRipplesStep_threshold]
      exact fun w hw => h w (List.mem_cons_of_mem _ hw))
      (by rw [detectRipplesStep_numSamplesTimeThreshold]; exact hT)]
    rw [detectRipplesStep_report, hd]
    simp

/-- Windows at or below the threshold keep a quiet detector quiet. -/
theorem detectRipples_below_state (f : Int) (ws : List (RmsWindow × Oracle)) :
    ∀ s : RippleDetectorSettings, (∀ w ∈ ws, w.1.rms ≤ s.threshold) →
      0 ≤ s.numSamplesTimeThreshold →
      s.onRefractoryTime = false → s.counterAboveThresh = 0 → s.flagTimeThreshold = false →
      (detectRipples f s ws).1.onRefractoryTime = false ∧
      (detectRipples f s ws).1.counterAboveThresh = 0 ∧
      (detectRipples f s ws).1.flagTimeThreshold = false := by
  induction ws with
  | nil => intro s _ _ h1 h2 h3; simp [detectRipples, h1, h2, h3]
  | cons x xs ih =>
    intro s h hT h1 h2 h3
    have hx : ¬ (x.1.rms > s.threshold) := not_lt.mpr (h x (List.mem_cons_self _ _))
    have hd : debounced s x.1 = false := by
      rw [debounced_eq]; simp [hx]; omega
    simp only [detectRipples]
    apply ih
    · rw [detectRipplesStep_threshold]
      exact fun w hw => h w (List.mem_cons_of_mem _ hw)
    · rw [detectRipplesStep_numSamplesTimeThreshold]; exact hT
    · rw [detectRipplesStep_onRefractoryTime, hd]; simp [h1]
    · rw [detectRipplesStep_counter]; simp [hx]
    · rw [detectRipplesStep_flagTimeThreshold, hd]

/-- Above-threshold windows whose samples do not take the counter past
`numSamplesTimeThreshold` produce no report event and only add to the counter. -/
theorem detectRipples_above_short (f : Int) (ws : List (RmsWindow × Oracle)) :
    ∀ s : RippleDetectorSettings,
      (∀ w ∈ ws, s.threshold < w.1.rms ∧ 0 < w.1.samples) →
      s.onRefractoryTime = false → s.flagTimeThreshold = false →
      s.counterAboveThresh + (ws.map (fun w => w.1.samples)).sum ≤ s.numSamplesTimeThreshold →
      countEvents OutputLine.report true (detectRipples f s ws).2 = 0 ∧
      (detectRipples f s ws).1.onRefractoryTime = false ∧
      (detectRipples f s ws).1.flagTimeThreshold = false ∧
      (detectRipples f s ws).1.counterAboveThresh =
        s.counterAboveThresh + (ws.map (fun w => w.1.samples)).sum := by
  induction ws with
  | nil => intro s _ h1 h2 _; simp [detectRipples, countEvents, h1, h2]
  | cons x xs ih =>
    intro s h h1 h2 h3
    have hx : x.1.rms > s.threshold := (h x (List.mem_cons_self _ _)).1
    have hrest : 0 ≤ (xs.map (fun w => w.1.samples)).sum :=
      List.sum_nonneg (by
        intro a ha
        obtain ⟨w, hw, rfl⟩ := List.mem_map.mp ha
        exact le_of_lt (h w (List.mem_cons_of_mem _ hw)).2)
    simp only [List.map_cons, List.sum_cons] at h3
    have hd : debounced s x.1 = false := by
      rw [debounced_eq]; simp [hx, h2]; omega
    have ih' := ih (detectRipplesStep f s x.1 x.2).1
      (by rw [detectRipplesStep_threshold]; exact fun w hw => h w (List.mem_cons_of_mem _ hw))
      (by rw [detectRipplesStep_onRefractoryTime, hd]; simp [h1])
      (by rw [detectRipplesStep_flagTimeThreshold, hd])
      (by rw [detectRipplesStep_counter, detectRipplesStep_numSamplesTimeThreshold]
          simp only [hx, if_true]; omega)
    obtain ⟨i1, i2, i3, i4⟩ := ih'
    simp only [detectRipples, countEvents_append, List.map_cons, List.sum_cons]
    refine ⟨?_, i2, i3, ?_⟩
    · rw [i1, detectRipplesStep_report, hd]; simp
    · rw [i4, detectRipplesStep_counter]; simp only [hx, if_true]; ring

/-- C2: from an enabled, non-refractory stream with `counterAboveThresh = 0` and
`flagTimeThreshold` clear, under the configuration of `s`, a window sequence
`pre ++ (body ++ [lastW]) ++ post` whose only above-threshold windows are the run
`body ++ [lastW]`, of positive sample counts totalling `numSamplesTimeThreshold + 1`,
makes `detectRipples` emit exactly one detection-start event on the report line: none
has been emitted once `pre ++ body` is processed, and one once `lastW` is. -/
theorem C2_single_excursion_one_onset (firstSample : Int) (s : RippleDetectorSettings)
    (pre body post : List (RmsWindow × Oracle)) (lastW : RmsWindow × Oracle)
    (hen : s.pluginEnabled = true) (href : s.onRefractoryTime = false)
    (hc : s.counterAboveThresh = 0) (hf : s.flagTimeThreshold = false)
    (hpre : ∀ w ∈ pre, w.1.rms ≤ s.threshold)
    (hpost : ∀ w ∈ post, w.1.rms ≤ s.threshold)
    (hrun : ∀ w ∈ body ++ [lastW], s.threshold < w.1.rms ∧ 0 < w.1.samples)
    (hsum : ((body ++ [lastW]).map (fun w => w.1.samples)).sum =
      s.numSamplesTimeThreshold + 1) :
    countEvents OutputLine.report true
        (detectRipples firstSample s (pre ++ (body ++ [lastW]) ++ post)).2 = 1 ∧
    countEvents OutputLine.report true (detectRipples firstSample s (pre ++ body)).2 = 0 ∧
    countEvents OutputLine.report true
        (detectRipples firstSample s (pre ++ (body ++ [lastW]))).2 = 1 := by
  have hlast : s.threshold < lastW.1.rms ∧ 0 < lastW.1.samples :=
    hrun lastW (by simp)
  simp only [List.map_append, List.sum_append, List.map_cons, List.map_nil, List.sum_cons,
    List.sum_nil, add_zero] at hsum
  have hbodysum : 0 ≤ (body.map (fun w => w.1.samples)).sum :=
    List.sum_nonneg (by
      intro a ha
      obtain ⟨w, hw, rfl⟩ := List.mem_map.mp ha
      exact le_of_lt (hrun w (List.mem_append_left _ hw)).2)
  have hT : 0 ≤ s.numSamplesTimeThreshold := by omega
  -- after the windows before the run
  obtain ⟨p1, p2, p3, p4⟩ := detectRipples_frame firstSample pre s
  obtain ⟨q1, q2, q3⟩ := detectRipples_below_state firstSample pre s hpre hT href hc hf
  have hpre0 := detectRipples_below_report firstSample pre s hpre hT
  set s1 := (detectRipples firstSample s pre).1 with hs1
  -- the run without its last window
  obtain ⟨b1, b2, b3, b4⟩ := detectRipples_above_short firstSample body s1
    (by rw [p2]; exact fun w hw => hrun w (List.mem_append_left _ hw)) q1 q3
    (by rw [q2, p3]; omega)
  obtain ⟨c1, c2, c3, c4⟩ := detectRipples_frame firstSample body s1
  set s2 := (detectRipples firstSample s1 body).1 with hs2
  -- the last window of the run
  have hd : debounced s2 lastW.1 = true := by
    rw [debounced_eq, c2, p2, c3, p3, b4, q2]
    simp [hlast.1]; left; omega
  have hstep : countEvents OutputLine.report true
      (detectRipplesStep firstSample s2 lastW.1 lastW.2).2 = 1 := by
    rw [detectRipplesStep_report, hd, b2, c1, p1, hen]; simp
  have hpost0 := detectRipples_below_report firstSample post
    (detectRipplesStep firstSample s2 lastW.1 lastW.2).1
    (by rw [detectRipplesStep_threshold, c2, p2]; exact hpost)
    (by rw [detectRipplesStep_numSamplesTimeThreshold, c3, p3]; exact hT)
  have hbody : countEvents OutputLine.report true
      (detectRipples firstSample s (pre ++ body)).2 = 0 := by
    rw [detectRipples_append, countEvents_append, hpre0, b1]
  have hrunAll : countEvents OutputLine.report true
      (detectRipples firstSample s (pre ++ (body ++ [lastW]))).2 = 1 := by
    rw [← List.append_assoc, detectRipples_append, countEvents_append, hbody]
    simp only [detectRipples_append, detectRipples, List.append_nil]
    rw [← hs1, ← hs2, hstep]
  refine ⟨?_, hbody, hrunAll⟩
  rw [detectRipples_append, countEvents_append, hrunAll]
  have : (detectRipples firstSample s (pre ++ (body ++ [lastW]))).1 =
      (detectRipplesStep firstSample s2 lastW.1 lastW.2).1 := by
    rw [← List.append_assoc]
    simp only [detectRipples_append, detectRipples]
  rw [this, hpost0]

/-- Witness of C2: threshold 5, `numSamplesTimeThreshold = 2`, a run of three
one-sample windows between two quiet windows. -/
theorem C2_single_excursion_one_onset_witness :
    countEvents OutputLine.report true
      (detectRipples 0 { initialSettings with threshold := 5, numSamplesTimeThreshold := 2 }
        [(⟨1, 1⟩, ⟨0, 0, 0, 0, 7⟩), (⟨6, 1⟩, ⟨1, 1, 1, 1, 7⟩), (⟨6, 1⟩, ⟨2, 2, 2, 2, 7⟩),
         (⟨6, 1⟩, ⟨3, 3, 3, 3, 7⟩), (⟨1, 1⟩, ⟨4, 4, 4, 4, 7⟩)]).2 = 1 :=
  (C2_single_excursion_one_onset 0
    { initialSettings with threshold := 5, numSamplesTimeThreshold := 2 }
    [(⟨1, 1⟩, ⟨0, 0, 0, 0, 7⟩)] [(⟨6, 1⟩, ⟨1, 1, 1, 1, 7⟩), (⟨6, 1⟩, ⟨2, 2, 2, 2, 7⟩)]
    [(⟨1, 1⟩, ⟨4, 4, 4, 4, 7⟩)] (⟨6, 1⟩, ⟨3, 3, 3, 3, 7⟩)
    rfl rfl rfl rfl (by decide) (by decide) (by decide) (by decide)).1

/-! ### A disabled detector emits nothing (C3) -/

theorem detectRipplesStep_disabled (f : Int) (s : RippleDetectorSettings) (w : RmsWindow)
    (o : Oracle) (h : s.pluginEnabled = false) : (detectRipplesStep f s w o).2 = [] := by
  simp only [detectRipplesStep, resetTTL_fst, resetTTL_snd, countAboveThresh_eq,
    setFlagTimeThreshold_eq, sendTTL_snd, offsetFires, h]
  simp

theorem detectRipples_disabled (f : Int) (ws : List (RmsWindow × Oracle)) :
    ∀ s : RippleDetectorSettings, s.pluginEnabled = false → (detectRipples f s ws).2 = [] := by
  induction ws with
  | nil => intro s _; rfl
  | cons x xs ih =>
    intro s h
    simp only [detectRipples]
    rw [detectRipplesStep_disabled f s x.1 x.2 h,
      ih _ (by rw [detectRipplesStep_pluginEnabled]; exact h)]
    rfl

/-- C3: while `pluginEnabled` is false, `detectRipples` emits no event on the primary
ripple output line and none on the report line, whatever the windows, the counters
and flags of the state, the clock readings and the random draws are; the detector
stays disabled throughout the call. -/
theorem C3_disabled_emits_nothing (firstSample : Int) (s : RippleDetectorSettings)
    (ws : List (RmsWindow × Oracle)) (h : s.pluginEnabled = false) :
    (∀ e ∈ (detectRipples firstSample s ws).2,
      e.line ≠ OutputLine.ripple ∧ e.line ≠ OutputLine.report) ∧
    (detectRipples firstSample s ws).1.pluginEnabled = false := by
  rw [detectRipples_disabled firstSample ws s h, (detectRipples_frame firstSample ws s).1]
  exact ⟨by simp, h⟩

/-- Witness of C3: a disabled detector whose debounce condition is satisfied by the
window. -/
theorem C3_disabled_emits_nothing_witness :
    (∀ e ∈ (detectRipples 0 { initialSettings with pluginEnabled := false, threshold := 5 }
        [(⟨6, 1⟩, ⟨0, 0, 0, 0, 7⟩)]).2,
      e.line ≠ OutputLine.ripple ∧ e.line ≠ OutputLine.report) ∧
    (detectRipples 0 { initialSettings with pluginEnabled := false, threshold := 5 }
        [(⟨6, 1⟩, ⟨0, 0, 0, 0, 7⟩)]).1.pluginEnabled = false :=
  C3_disabled_emits_nothing 0 { initialSettings with pluginEnabled := false, threshold := 5 }
    [(⟨6, 1⟩, ⟨0, 0, 0, 0, 7⟩)] rfl

/-! ### Refractory period (C4) -/

theorem detectRipplesStep_refractoryTimeStart (f : Int) (s : RippleDetectorSettings)
    (w : RmsWindow) (o : Oracle) :
    (detectRipplesStep f s w o).1.refractoryTimeStart =
      if (debounced s w && !s.onRefractoryTime) = true then o.refractoryStart
      else s.refractoryTimeStart := by
  simp only [debounced, detectRipplesStep, resetTTL_fst, countAboveThresh_eq,
    setFlagTimeThreshold_eq, sendTTL_fst, checkRefractory_eq]

theorem detectRipplesStep_rippleStartTime (f : Int) (s : RippleDetectorSettings)
    (w : RmsWindow) (o : Oracle) :
    (detectRipplesStep f s w o).1.rippleStartTime =
      if (debounced s w && !s.onRefractoryTime && s.pluginEnabled) = true then o.rippleStart
      else s.rippleStartTime := by
  simp only [debounced, detectRipplesStep, resetTTL_fst, countAboveThresh_eq,
    setFlagTimeThreshold_eq, sendTTL_fst, checkRefractory_eq]

/-- Every onset of a run comes at least `R` after `t0`, as soon as the state is
either still refractory since a time not before `t0`, or the clock has already
passed `t0 + R`. -/
theorem onsetTimes_after (R t0 : Int) (steps : List RunStep) :
    ∀ (s : RippleDetectorSettings) (L : Int),
      (∀ st ∈ steps, KeepsRefractory st.env) →
      s.refractoryTime = R →
      (clockReadings steps).Pairwise (fun a b => a ≤ b) →
      (∀ t ∈ clockReadings steps, L ≤ t) →
      ((s.onRefractoryTime = true ∧ t0 ≤ s.refractoryTimeStart) ∨ R ≤ L - t0) →
      ∀ b ∈ onsetTimes s steps, R ≤ b - t0 := by
  induction steps with
  | nil => intro s L _ _ _ _ _ b hb; simp [onsetTimes] at hb
  | cons st rest ih =>
    intro s L henv hR hclock hL hinv b hb
    obtain ⟨e1, e2, e3⟩ := henv st (List.mem_cons_self _ _) s
    simp only [clockReadings, List.pairwise_cons, List.mem_cons, forall_eq_or_imp] at hclock hL
    obtain ⟨⟨c1, c2, c3, c4⟩, ⟨d1, d2, d3⟩, ⟨f1, f2⟩, g, hrest⟩ := hclock
    obtain ⟨l1, l2, l3, l4, l5⟩ := hL
    simp only [onsetTimes, List.mem_append] at hb
    rcases hb with hb | hb
    · -- the onset of this iteration
      split_ifs at hb with hfire
      · simp only [List.mem_singleton] at hb
        rw [detectRipplesStep_report] at hfire
        split_ifs at hfire with hcond
        · simp only [Bool.and_eq_true, Bool.not_eq_true'] at hcond
          rw [detectRipplesStep_rippleStartTime] at hb
          simp only [hcond.1.1, hcond.1.2, hcond.2, Bool.not_false, Bool.and_self,
            if_true] at hb
          rw [e1] at hcond
          rcases hinv with ⟨h1, _⟩ | h2
          · rw [h1] at hcond; simp at hcond
          · omega
        · simp at hfire
      · simp at hb
    · -- a later onset
      refine ih (detectRipplesStep st.firstSample (st.env s) st.window st.oracle).1
        st.oracle.timeNow (fun x hx => henv x (List.mem_cons_of_mem _ hx))
        (by rw [detectRipplesStep_refractoryTime, e3, hR]) hrest g ?_ b hb
      rw [detectRipplesStep_onRefractoryTime, detectRipplesStep_refractoryTimeStart, e1, e2, e3, hR]
      rcases hinv with ⟨h1, h2⟩ | h2
      · rw [h1]
        by_cases hk : st.oracle.timeNow - s.refractoryTimeStart ≥ R
        · right; omega
        · left; simp [hk]; exact h2
      · right; omega

theorem onsetTimes_pairwise (R : Int) (steps : List RunStep) :
    ∀ s : RippleDetectorSettings,
      (∀ st ∈ steps, KeepsRefractory st.env) →
      s.refractoryTime = R →
      (clockReadings steps).Pairwise (fun a b => a ≤ b) →
      (onsetTimes s steps).Pairwise (fun a b => R ≤ b - a) := by
  induction steps with
  | nil => intro s _ _ _; simp [onsetTimes]
  | cons st rest ih =>
    intro s henv hR hclock
    obtain ⟨e1, e2, e3⟩ := henv st (List.mem_cons_self _ _) s
    have hclock' := hclock
    simp only [clockReadings, List.pairwise_cons, List.mem_cons, forall_eq_or_imp] at hclock
    obtain ⟨⟨c1, c2, c3, c4⟩, ⟨d1, d2, d3⟩, ⟨f1, f2⟩, g, hrest⟩ := hclock
    have hR' : (detectRipplesStep st.firstSample (st.env s) st.window st.oracle).1.refractoryTime
        = R := by rw [detectRipplesStep_refractoryTime, e3, hR]
    have ih' := ih _ (fun x hx => henv x (List.mem_cons_of_mem _ hx)) hR' hrest
    simp only [onsetTimes]
    split_ifs with hfire
    · rw [List.singleton_append, List.pairwise_cons]
      refine ⟨?_, ih'⟩
      rw [detectRipplesStep_report] at hfire
      split_ifs at hfire with hcond
      · simp only [Bool.and_eq_true, Bool.not_eq_true'] at hcond
        refine onsetTimes_after R _ rest _ st.oracle.timeNow
          (fun x hx => henv x (List.mem_cons_of_mem _ hx)) hR' hrest g ?_
        rw [detectRipplesStep_onRefractoryTime, detectRipplesStep_refractoryTimeStart,
          detectRipplesStep_rippleStartTime, e3, hR]
        simp only [hcond.1.1, hcond.1.2, hcond.2, Bool.not_false, Bool.and_self, if_true,
          Bool.or_false, Bool.true_and]
        by_cases hk : st.oracle.timeNow - st.oracle.refractoryStart ≥ R
        · right; omega
        · left; simp [hk]; omega
      · simp at hfire
    · simpa using ih'

/-- C4: in every run of iterations of `detectRipples` whose clock readings are
non-decreasing and between whose iterations the refractory bookkeeping and
`refractoryTime` are left alone (the gate and the rest of the configuration may
change), any two detection onsets are at least `refractoryTime` milliseconds apart,
whatever the windows are. -/
theorem C4_refractory_separation (s : RippleDetectorSettings) (steps : List RunStep)
    (henv : ∀ st ∈ steps, KeepsRefractory st.env)
    (hclock : (clockReadings steps).Pairwise (fun a b => a ≤ b)) :
    (onsetTimes s steps).Pairwise (fun a b => s.refractoryTime ≤ b - a) :=
  onsetTimes_pairwise s.refractoryTime steps s henv rfl hclock

/-- Witness of C4: every window is above threshold, the first onset is at clock time
0, the iterations at 100 and 150 are refractory, the next onset is at 200. -/
theorem C4_refractory_separation_witness :
    onsetTimes { initialSettings with threshold := 5 }
      [⟨id, 0, ⟨6, 1⟩, ⟨0, 0, 0, 0, 7⟩⟩, ⟨id, 0, ⟨6, 1⟩, ⟨100, 100, 100, 100, 7⟩⟩,
       ⟨id, 0, ⟨6, 1⟩, ⟨150, 150, 150, 150, 7⟩⟩, ⟨id, 0, ⟨6, 1⟩, ⟨200, 200, 200, 200, 7⟩⟩]
      = [0, 200] ∧
    (onsetTimes { initialSettings with threshold := 5 }
      [⟨id, 0, ⟨6, 1⟩, ⟨0, 0, 0, 0, 7⟩⟩, ⟨id, 0, ⟨6, 1⟩, ⟨100, 100, 100, 100, 7⟩⟩,
       ⟨id, 0, ⟨6, 1⟩, ⟨150, 150, 150, 150, 7⟩⟩,
       ⟨id, 0, ⟨6, 1⟩, ⟨200, 200, 200, 200, 7⟩⟩]).Pairwise
      (fun a b => (140 : Int) ≤ b - a) :=
  ⟨by decide,
   C4_refractory_separation { initialSettings with threshold := 5 }
      [⟨id, 0, ⟨6, 1⟩, ⟨0, 0, 0, 0, 7⟩⟩, ⟨id, 0, ⟨6, 1⟩, ⟨100, 100, 100, 100, 7⟩⟩,
       ⟨id, 0, ⟨6, 1⟩, ⟨150, 150, 150, 150, 7⟩⟩, ⟨id, 0, ⟨6, 1⟩, ⟨200, 200, 200, 200, 7⟩⟩]
      (by
        intro st hst
        simp only [List.mem_cons, List.mem_singleton, List.not_mem_nil, or_false] at hst
        rcases hst with rfl | rfl | rfl | rfl <;> exact fun s => ⟨rfl, rfl, rfl⟩)
      (by decide)⟩

/-! ### `evalMovement`: the effect of one iteration -/

theorem countMovement_eq (w : RmsWindow) (s : RippleDetectorSettings) :
    countMovement w s = { s with
      counterMovUpThresh := if w.rms > s.movThreshold then s.counterMovUpThresh + w.samples else 0,
      counterMovDownThresh :=
        if w.rms > s.movThreshold then s.counterMovDownThresh
        else s.counterMovDownThresh + w.samples,
      flagMovMinTimeUp := decide (w.rms > s.movThreshold) && s.flagMovMinTimeUp,
      flagMovMinTimeDown := !decide (w.rms > s.movThreshold) && s.flagMovMinTimeDown } := by
  unfold countMovement
  split_ifs <;> (cases s; simp_all)

theorem setMovementFlags_eq (s : RippleDetectorSettings) :
    setMovementFlags s = { s with
      flagMovMinTimeUp :=
        decide (s.counterMovUpThresh > s.minMovSamplesAboveThresh) || s.flagMovMinTimeUp,
      counterMovDownThresh :=
        if s.counterMovUpThresh > s.minMovSamplesAboveThresh then 0 else s.counterMovDownThresh,
      flagMovMinTimeDown :=
        decide ((if s.counterMovUpThresh > s.minMovSamplesAboveThresh then 0
          else s.counterMovDownThresh) > s.minMovSamplesBelowThresh) ||
          s.flagMovMinTimeDown } := by
  unfold setMovementFlags
  by_cases h1 : s.counterMovUpThresh > s.minMovSamplesAboveThresh
  · by_cases h2 : (0 : Int) > s.minMovSamplesBelowThresh <;>
      (simp only [h1, h2, ↓reduceIte]; cases s; simp_all)
  · by_cases h2 : s.counterMovDownThresh > s.minMovSamplesBelowThresh <;>
      (simp only [h1, h2, ↓reduceIte]; cases s; simp_all)

theorem disablePlugin_fst (f : Int) (i : Nat) (s : RippleDetectorSettings) :
    (disablePlugin f i s).1 =
      { s with pluginEnabled := s.pluginEnabled && !s.flagMovMinTimeUp } := by
  unfold disablePlugin
  split_ifs <;> (cases s; simp_all)

theorem disablePlugin_snd (f : Int) (i : Nat) (s : RippleDetectorSettings) :
    (disablePlugin f i s).2 =
      if (s.pluginEnabled && s.flagMovMinTimeUp) = true then
        [{ line := OutputLine.movement, channel := s.movementOutputChannel,
           sampleNumber := f + i, state := true, bufferOffset := i }]
      else [] := by
  unfold disablePlugin
  split_ifs <;> rfl

theorem enablePlugin_fst (f : Int) (i : Nat) (s : RippleDetectorSettings) :
    (enablePlugin f i s).1 =
      { s with pluginEnabled := s.pluginEnabled || s.flagMovMinTimeDown } := by
  unfold enablePlugin
  cases hp : s.pluginEnabled <;> cases hf : s.flagMovMinTimeDown <;>
    simp only [Bool.not_false, Bool.not_true, Bool.and_self, Bool.and_false, Bool.false_and,
      Bool.true_and, Bool.or_false, Bool.or_true, Bool.false_eq_true, ↓reduceIte] <;>
    (cases s; simp_all)

theorem enablePlugin_snd (f : Int) (i : Nat) (s : RippleDetectorSettings) :
    (enablePlugin f i s).2 =
      if (!s.pluginEnabled && s.flagMovMinTimeDown) = true then
        [{ line := OutputLine.movement, channel := s.movementOutputChannel,
           sampleNumber := f + i, state := false, bufferOffset := i }]
      else [] := by
  unfold enablePlugin
  split_ifs <;> rfl

theorem evalMovementStep_config (f : Int) (i : Nat) (s : RippleDetectorSettings) (w : RmsWindow) :
    (evalMovementStep f i s w).1.movThreshold = s.movThreshold ∧
    (evalMovementStep f i s w).1.minMovSamplesAboveThresh = s.minMovSamplesAboveThresh ∧
    (evalMovementStep f i s w).1.minMovSamplesBelowThresh = s.minMovSamplesBelowThresh := by
  simp only [evalMovementStep, countMovement_eq, setMovementFlags_eq, disablePlugin_fst,
    enablePlugin_fst, and_self]

theorem evalMovementStep_counterUp (f : Int) (i : Nat) (s : RippleDetectorSettings)
    (w : RmsWindow) : (evalMovementStep f i s w).1.counterMovUpThresh =
      if w.rms > s.movThreshold then s.counterMovUpThresh + w.samples else 0 := by
  simp only [evalMovementStep, countMovement_eq, setMovementFlags_eq, disablePlugin_fst,
    enablePlugin_fst]

/-- The value of `flagMovMinTimeUp` that lines 624-625 of an iteration read. -/
theorem movingReached_eq (s : RippleDetectorSettings) (w : RmsWindow) :
    movingReached s w =
      (decide ((if w.rms > s.movThreshold then s.counterMovUpThresh + w.samples else 0) >
          s.minMovSamplesAboveThresh) ||
        (decide (w.rms > s.movThreshold) && s.flagMovMinTimeUp)) := by
  simp only [movingReached, countMovement_eq, setMovementFlags_eq]

theorem evalMovementStep_flagUp (f : Int) (i : Nat) (s : RippleDetectorSettings)
    (w : RmsWindow) : (evalMovementStep f i s w).1.flagMovMinTimeUp = movingReached s w := by
  simp only [movingReached, evalMovementStep, countMovement_eq, setMovementFlags_eq,
    disablePlugin_fst, enablePlugin_fst]

theorem evalMovementStep_counterDown (f : Int) (i : Nat) (s : RippleDetectorSettings)
    (w : RmsWindow) : (evalMovementStep f i s w).1.counterMovDownThresh =
      if (if w.rms > s.movThreshold then s.counterMovUpThresh + w.samples else 0) >
          s.minMovSamplesAboveThresh then 0
      else if w.rms > s.movThreshold then s.counterMovDownThresh
      else s.counterMovDownThresh + w.samples := by
  simp only [evalMovementStep, countMovement_eq, setMovementFlags_eq, disablePlugin_fst,
    enablePlugin_fst]

theorem evalMovementStep_flagDown (f : Int) (i : Nat) (s : RippleDetectorSettings)
    (w : RmsWindow) : (evalMovementStep f i s w).1.flagMovMinTimeDown =
      (decide ((evalMovementStep f i s w).1.counterMovDownThresh > s.minMovSamplesBelowThresh) ||
        (!decide (w.rms > s.movThreshold) && s.flagMovMinTimeDown)) := by
  simp only [evalMovementStep, countMovement_eq, setMovementFlags_eq, disablePlugin_fst,
    enablePlugin_fst]

theorem evalMovementStep_pluginEnabled (f : Int) (i : Nat) (s : RippleDetectorSettings)
    (w : RmsWindow) : (evalMovementStep f i s w).1.pluginEnabled =
      ((s.pluginEnabled && !movingReached s w) ||
        (evalMovementStep f i s w).1.flagMovMinTimeDown) := by
  simp only [movingReached, evalMovementStep, countMovement_eq, setMovementFlags_eq,
    disablePlugin_fst, enablePlugin_fst]

theorem evalMovementStep_events (f : Int) (i : Nat) (s : RippleDetectorSettings)
    (w : RmsWindow) : (evalMovementStep f i s w).2 =
      (if (s.pluginEnabled && movingReached s w) = true then
        [{ line := OutputLine.movement, channel := s.movementOutputChannel,
           sampleNumber := f + i, state := true, bufferOffset := i }]
       else []) ++
      (if (!(s.pluginEnabled && !movingReached s w) &&
            (evalMovementStep f i s w).1.flagMovMinTimeDown) = true then
        [{ line := OutputLine.movement, channel := s.movementOutputChannel,
           sampleNumber := f + i, state := false, bufferOffset := i }]
       else []) := by
  simp only [movingReached, evalMovementStep, countMovement_eq, setMovementFlags_eq,
    disablePlugin_fst, disablePlugin_snd, enablePlugin_fst, enablePlugin_snd]

theorem totalSamples_cons (w : RmsWindow) (ws : List RmsWindow) :
    totalSamples (w :: ws) = w.samples + totalSamples ws := by
  simp [totalSamples]

theorem totalSamples_nil : totalSamples [] = 0 := rfl

/-! ### Short movement never disables the detector (C5) -/

/-- While the detector is enabled and `flagMovMinTimeUp` is clear, windows whose
above-threshold runs stay within `M = minMovSamplesAboveThresh` emit nothing and keep
both facts; `future` are the windows that later calls will process. -/
theorem evalMovementLoop_short_runs (f : Int) (thr : ℚ) (M : Int) (ws : List RmsWindow) :
    ∀ (future : List RmsWindow) (i : Nat) (s : RippleDetectorSettings),
      s.movThreshold = thr → s.minMovSamplesAboveThresh = M →
      s.pluginEnabled = true → s.flagMovMinTimeUp = false →
      (∀ p, p <+: ws ++ future → (∀ w ∈ p, w.rms > thr) →
        s.counterMovUpThresh + totalSamples p ≤ M) →
      (∀ p, p <:+: ws ++ future → (∀ w ∈ p, w.rms > thr) → totalSamples p ≤ M) →
      (evalMovementLoop f i s ws).2 = [] ∧
      (evalMovementLoop f i s ws).1.pluginEnabled = true ∧
      (evalMovementLoop f i s ws).1.flagMovMinTimeUp = false ∧
      (evalMovementLoop f i s ws).1.movThreshold = thr ∧
      (evalMovementLoop f i s ws).1.minMovSamplesAboveThresh = M ∧
      (∀ p, p <+: future → (∀ w ∈ p, w.rms > thr) →
        (evalMovementLoop f i s ws).1.counterMovUpThresh + totalSamples p ≤ M) := by
  induction ws with
  | nil =>
    intro future i s h1 h2 h3 h4 hpre _
    exact ⟨rfl, h3, h4, h1, h2, fun p hp hall => hpre p (by simpa using hp) hall⟩
  | cons w ws ih =>
    intro future i s h1 h2 h3 h4 hpre hinf
    obtain ⟨k1, k2, _⟩ := evalMovementStep_config f i s w
    have hM0 : 0 ≤ M := by
      have := hinf [] List.nil_infix (by simp)
      simpa [totalSamples] using this
    have hup : (if w.rms > s.movThreshold then s.counterMovUpThresh + w.samples else 0) ≤ M := by
      split_ifs with ha
      · have := hpre [w] (by simp [List.prefix_cons_inj]) (by simpa [h1] using ha)
        simpa [totalSamples] using this
      · exact hM0
    have hmov : movingReached s w = false := by
      rw [movingReached_eq, h4, h2]
      simp only [Bool.and_false, Bool.or_false, decide_eq_false_iff_not, not_lt]
      exact hup
    have hev : (evalMovementStep f i s w).2 = [] := by
      rw [evalMovementStep_events, hmov, h3]; simp
    have hen : (evalMovementStep f i s w).1.pluginEnabled = true := by
      rw [evalMovementStep_pluginEnabled, hmov, h3]; simp
    have hfu : (evalMovementStep f i s w).1.flagMovMinTimeUp = false := by
      rw [evalMovementStep_flagUp, hmov]
    have ih' := ih future (i + 1) (evalMovementStep f i s w).1 (by rw [k1, h1]) (by rw [k2, h2])
      hen hfu
      (by
        intro p hp hall
        rw [evalMovementStep_counterUp]
        split_ifs with ha
        · have := hpre (w :: p) (by simpa [List.prefix_cons_inj] using hp)
            (by
              intro x hx
              rcases List.mem_cons.mp hx with rfl | hx
              · simpa [h1] using ha
              · exact hall x hx)
          rw [totalSamples_cons] at this
          omega
        · have := hinf p (List.infix_cons hp.isInfix) hall
          omega)
      (fun p hp hall => hinf p (List.infix_cons hp) hall)
    obtain ⟨i1, i2, i3, i4, i5, i6⟩ := ih'
    simp only [evalMovementLoop]
    exact ⟨by rw [hev, i1]; rfl, i2, i3, i4, i5, i6⟩

theorem evalMovementBlocks_short_runs (thr : ℚ) (M : Int) (blocks : List (Int × List RmsWindow)) :
    ∀ s : RippleDetectorSettings,
      s.movThreshold = thr → s.minMovSamplesAboveThresh = M →
      s.pluginEnabled = true → s.flagMovMinTimeUp = false →
      (∀ p, p <+: windowsOf blocks → (∀ w ∈ p, w.rms > thr) →
        s.counterMovUpThresh + totalSamples p ≤ M) →
      (∀ p, p <:+: windowsOf blocks → (∀ w ∈ p, w.rms > thr) → totalSamples p ≤ M) →
      (evalMovementBlocks s blocks).2 = [] ∧
      (evalMovementBlocks s blocks).1.pluginEnabled = true := by
  induction blocks with
  | nil => intro s _ _ h3 _ _ _; exact ⟨rfl, h3⟩
  | cons b rest ih =>
    intro s h1 h2 h3 h4 hpre hinf
    obtain ⟨l1, l2, l3, l4, l5, l6⟩ :=
      evalMovementLoop_short_runs b.1 thr M b.2 (windowsOf rest) 0 s h1 h2 h3 h4 hpre hinf
    obtain ⟨i1, i2⟩ := ih (evalMovement b.1 s b.2).1 l4 l5 l2 l3 l6
      (fun p hp hall => hinf p (hp.trans (List.suffix_append _ _).isInfix) hall)
    simp only [evalMovementBlocks]
    refine ⟨?_, i2⟩
    rw [i1]
    simp only [evalMovement, l1, List.append_nil]

/-- C5: from an enabled detector whose above-threshold movement counter is zero and
whose moving-reached flag is clear, under the configuration of `s`, a run of
`evalMovement` over blocks in which every contiguous run of windows with movement RMS
above `movThreshold` totals at most `minMovSamplesAboveThresh` samples leaves the
detector enabled and emits no gate event with `active = true`.  The hypothesis is
inherited by every initial part of the run, so this holds at every point of it; read
on the empty run it says that `minMovSamplesAboveThresh` is not negative, as the
value that `process` computes is. -/
theorem C5_short_movement_never_disables (s : RippleDetectorSettings)
    (blocks : List (Int × List RmsWindow))
    (hen : s.pluginEnabled = true) (hcu : s.counterMovUpThresh = 0)
    (hfu : s.flagMovMinTimeUp = false)
    (hruns : ∀ run, run <:+: windowsOf blocks → (∀ w ∈ run, w.rms > s.movThreshold) →
      totalSamples run ≤ s.minMovSamplesAboveThresh) :
    (evalMovementBlocks s blocks).1.pluginEnabled = true ∧
    countEvents OutputLine.movement true (evalMovementBlocks s blocks).2 = 0 := by
  obtain ⟨h1, h2⟩ := evalMovementBlocks_short_runs s.movThreshold s.minMovSamplesAboveThresh
    blocks s rfl rfl hen hfu
    (fun p hp hall => by
      have := hruns p hp.isInfix hall
      omega)
    hruns
  exact ⟨h2, by rw [h1]; rfl⟩

/-- A property of all contiguous sublists of `l` can be checked on the initial
segments of the final segments of `l`. -/
theorem forall_infix_of_tails_inits {α : Type} (P : List α → Prop) (l : List α)
    (h : ∀ t ∈ l.tails, ∀ run ∈ t.inits, P run) : ∀ run, run <:+: l → P run := by
  intro run hrun
  obtain ⟨t, h1, h2⟩ := List.infix_iff_prefix_suffix.mp hrun
  exact h t ((List.mem_tails _ _).mpr h2) run ((List.mem_inits _ _).mpr h1)

/-- Witness of C5: two blocks with three above-threshold runs of at most two
samples each, the limit being two. -/
theorem C5_short_movement_never_disables_witness :
    (evalMovementBlocks
      { initialSettings with movThreshold := 10, minMovSamplesAboveThresh := 2 }
      [(0, [⟨20, 1⟩, ⟨1, 1⟩, ⟨20, 1⟩]), (3, [⟨20, 1⟩, ⟨1, 1⟩, ⟨20, 2⟩])]).1.pluginEnabled = true ∧
    countEvents OutputLine.movement true (evalMovementBlocks
      { initialSettings with movThreshold := 10, minMovSamplesAboveThresh := 2 }
      [(0, [⟨20, 1⟩, ⟨1, 1⟩, ⟨20, 1⟩]), (3, [⟨20, 1⟩, ⟨1, 1⟩, ⟨20, 2⟩])]).2 = 0 :=
  C5_short_movement_never_disables
    { initialSettings with movThreshold := 10, minMovSamplesAboveThresh := 2 }
    [(0, [⟨20, 1⟩, ⟨1, 1⟩, ⟨20, 1⟩]), (3, [⟨20, 1⟩, ⟨1, 1⟩, ⟨20, 2⟩])] rfl rfl rfl
    (forall_infix_of_tails_inits _ _ (by decide))

/-! ### A disable transition resets the steady count (C7) -/

theorem belowSamples_nil (thr : ℚ) : belowSamples thr [] = 0 := rfl

theorem belowSamples_cons (thr : ℚ) (w : RmsWindow) (ws : List RmsWindow) :
    belowSamples thr (w :: ws) =
      (if w.rms > thr then 0 else w.samples) + belowSamples thr ws := by
  unfold belowSamples
  by_cases h : w.rms > thr <;> simp [List.filter_cons, h, totalSamples]

theorem belowSamples_append (thr : ℚ) (xs ys : List RmsWindow) :
    belowSamples thr (xs ++ ys) = belowSamples thr xs + belowSamples thr ys := by
  simp [belowSamples, totalSamples]

theorem belowSamples_nonneg (thr : ℚ) (ws : List RmsWindow) (h : ∀ x ∈ ws, 0 ≤ x.samples) :
    0 ≤ belowSamples thr ws := by
  induction ws with
  | nil => simp [belowSamples_nil]
  | cons w ws ih =>
    rw [belowSamples_cons]
    have h1 := h w (List.mem_cons_self _ _)
    have h2 := ih (fun x hx => h x (List.mem_cons_of_mem _ hx))
    split_ifs <;> omega

/-- The flag `flagMovMinTimeUp` is only ever set together with a reset of
`counterMovDownThresh`, and stays set only over iterations that leave that counter
alone: "moving reached implies steady count zero" is kept by every iteration. -/
theorem evalMovementStep_keeps_reset (f : Int) (i : Nat) (s : RippleDetectorSettings)
    (w : RmsWindow) (hK : s.flagMovMinTimeUp = true → s.counterMovDownThresh = 0) :
    (evalMovementStep f i s w).1.flagMovMinTimeUp = true →
      (evalMovementStep f i s w).1.counterMovDownThresh = 0 := by
  rw [evalMovementStep_flagUp, movingReached_eq, evalMovementStep_counterDown]
  intro h
  simp only [Bool.or_eq_true, decide_eq_true_eq, Bool.and_eq_true] at h
  rcases h with h | ⟨h1, h2⟩
  · rw [if_pos h]
  · split_ifs
    · rfl
    · exact hK h2

/-- The step-level content of C7. -/
theorem evalMovementStep_disable (f : Int) (i : Nat) (s : RippleDetectorSettings)
    (w : RmsWindow) (hK : s.flagMovMinTimeUp = true → s.counterMovDownThresh = 0)
    (hA : 0 ≤ s.minMovSamplesAboveThresh) (hB : 0 ≤ s.minMovSamplesBelowThresh)
    (hdis : 0 < countEvents OutputLine.movement true (evalMovementStep f i s w).2) :
    (evalMovementStep f i s w).1.counterMovDownThresh = 0 ∧
    (evalMovementStep f i s w).1.flagMovMinTimeDown = false ∧
    (evalMovementStep f i s w).1.pluginEnabled = false := by
  have hmov : movingReached s w = true := by
    by_contra hne
    rw [evalMovementStep_events] at hdis
    simp only [Bool.not_eq_true] at hne
    simp only [hne, Bool.and_false, Bool.false_eq_true, if_false, List.nil_append] at hdis
    split_ifs at hdis <;> simp [countEvents] at hdis
  have hcd : (evalMovementStep f i s w).1.counterMovDownThresh = 0 :=
    evalMovementStep_keeps_reset f i s w hK (by rw [evalMovementStep_flagUp]; exact hmov)
  have habove : w.rms > s.movThreshold ∨
      (if w.rms > s.movThreshold then s.counterMovUpThresh + w.samples else 0) >
        s.minMovSamplesAboveThresh := by
    rw [movingReached_eq] at hmov
    simp only [Bool.or_eq_true, decide_eq_true_eq, Bool.and_eq_true] at hmov
    rcases hmov with h | ⟨h, _⟩
    · exact Or.inr h
    · exact Or.inl h
  have hfd : (evalMovementStep f i s w).1.flagMovMinTimeDown = false := by
    rw [evalMovementStep_flagDown, hcd]
    have h0 : ¬ ((0 : Int) > s.minMovSamplesBelowThresh) := by omega
    simp only [h0, decide_False, Bool.false_or, Bool.and_eq_false_imp, Bool.not_eq_true',
      decide_eq_false_iff_not]
    intro hna
    rcases habove with h | h
    · exact absurd h hna
    · -- below threshold, yet the zeroed up-counter exceeds the moving minimum:
      -- then the down-counter was reset, and the steady flag was cleared with it
      rw [if_neg hna] at h
      omega
  refine ⟨hcd, hfd, ?_⟩
  rw [evalMovementStep_pluginEnabled, hmov, hfd]
  simp

/-- While the detector is disabled, it is re-enabled only once the samples of the
windows at or below threshold exceed `MB = minMovSamplesBelowThresh`: `B` bounds the
steady count of the state from above and grows by the below-threshold samples. -/
theorem evalMovementLoop_reenable (f : Int) (thr : ℚ) (MB : Int) (ws : List RmsWindow) :
    ∀ (i : Nat) (s : RippleDetectorSettings) (B : Int),
      s.movThreshold = thr → s.minMovSamplesBelowThresh = MB →
      (∀ x ∈ ws, 0 ≤ x.samples) → 0 ≤ B →
      ((s.pluginEnabled = false ∧ s.counterMovDownThresh ≤ B ∧
          (s.flagMovMinTimeDown = true → MB < B)) ∨ MB < B) →
      (evalMovementLoop f i s ws).1.movThreshold = thr ∧
      (evalMovementLoop f i s ws).1.minMovSamplesBelowThresh = MB ∧
      (((evalMovementLoop f i s ws).1.pluginEnabled = false ∧
          (evalMovementLoop f i s ws).1.counterMovDownThresh ≤ B + belowSamples thr ws ∧
          ((evalMovementLoop f i s ws).1.flagMovMinTimeDown = true →
            MB < B + belowSamples thr ws)) ∨ MB < B + belowSamples thr ws) := by
  induction ws with
  | nil =>
    intro i s B h1 h2 _ _ hinv
    simpa [evalMovementLoop, belowSamples_nil, h1, h2] using hinv
  | cons w ws ih =>
    intro i s B h1 h2 hpos hB hinv
    obtain ⟨k1, _, k3⟩ := evalMovementStep_config f i s w
    have hw : 0 ≤ w.samples := hpos w (List.mem_cons_self _ _)
    have hstep : 0 ≤ (if w.rms > thr then 0 else w.samples) := by split_ifs <;> omega
    have ih' := ih (i + 1) (evalMovementStep f i s w).1
      (B + (if w.rms > thr then 0 else w.samples)) (by rw [k1, h1]) (by rw [k3, h2])
      (fun x hx => hpos x (List.mem_cons_of_mem _ hx)) (by omega)
      (by
        rcases hinv with ⟨e1, e2, e3⟩ | e
        · have hcd : (evalMovementStep f i s w).1.counterMovDownThresh ≤
              B + (if w.rms > thr then 0 else w.samples) := by
            rw [evalMovementStep_counterDown, h1]
            split_ifs <;> omega
          have hfd : (evalMovementStep f i s w).1.flagMovMinTimeDown = true →
              MB < B + (if w.rms > thr then 0 else w.samples) := by
            rw [evalMovementStep_flagDown, h2, h1]
            intro h
            simp only [Bool.or_eq_true, decide_eq_true_eq, Bool.and_eq_true,
              Bool.not_eq_true', decide_eq_false_iff_not] at h
            rcases h with h | ⟨_, h⟩
            · omega
            · have := e3 h
              omega
          by_cases hen : (evalMovementStep f i s w).1.pluginEnabled = true
          · right
            rw [evalMovementStep_pluginEnabled, e1] at hen
            simp only [Bool.false_and, Bool.false_or] at hen
            exact hfd hen
          · left
            exact ⟨by simpa using hen, hcd, hfd⟩
        · right; omega)
    simp only [evalMovementLoop]
    rw [belowSamples_cons, ← add_assoc]
    exact ih'

theorem evalMovementBlocks_reenable (thr : ℚ) (MB : Int) (blocks : List (Int × List RmsWindow)) :
    ∀ (s : RippleDetectorSettings) (B : Int),
      s.movThreshold = thr → s.minMovSamplesBelowThresh = MB →
      (∀ x ∈ windowsOf blocks, 0 ≤ x.samples) → 0 ≤ B →
      ((s.pluginEnabled = false ∧ s.counterMovDownThresh ≤ B ∧
          (s.flagMovMinTimeDown = true → MB < B)) ∨ MB < B) →
      (evalMovementBlocks s blocks).1.pluginEnabled = true →
      MB < B + belowSamples thr (windowsOf blocks) := by
  induction blocks with
  | nil =>
    intro s B _ _ _ _ hinv hen
    rcases hinv with ⟨e1, _, _⟩ | e
    · simp [evalMovementBlocks, e1] at hen
    · simpa [windowsOf, belowSamples_nil] using e
  | cons b rest ih =>
    intro s B h1 h2 hpos hB hinv hen
    simp only [windowsOf, List.mem_append] at hpos
    obtain ⟨l1, l2, l3⟩ := evalMovementLoop_reenable b.1 thr MB b.2 0 s B h1 h2
      (fun x hx => hpos x (Or.inl hx)) hB hinv
    have := ih (evalMovement b.1 s b.2).1 (B + belowSamples thr b.2) l1 l2
      (fun x hx => hpos x (Or.inr hx))
      (by have := belowSamples_nonneg thr b.2 (fun x hx => hpos x (Or.inl hx)); omega)
      l3 (by simpa [evalMovementBlocks] using hen)
    simp only [windowsOf]
    rw [belowSamples_append, ← add_assoc]
    exact this

/-- C7: under the configuration of `s` (with the non-negative minima that `process`
computes), an iteration of `evalMovement` that disables the detector, taken in a state
where a set moving-reached flag goes with a zero steady count (true when the flags
are clear, and kept by every iteration), leaves `counterMovDownThresh` at zero, the
steady-reached flag false and the detector disabled; and whenever a later run of
`evalMovement` has the detector enabled again, the windows at or below
`movThreshold` processed since the disable transition total more than
`minMovSamplesBelowThresh` samples. -/
theorem C7_disable_resets_steady_count (firstSample : Int) (rmsIdx : Nat)
    (s : RippleDetectorSettings) (w : RmsWindow)
    (hK : s.flagMovMinTimeUp = true → s.counterMovDownThresh = 0)
    (hA : 0 ≤ s.minMovSamplesAboveThresh) (hB : 0 ≤ s.minMovSamplesBelowThresh)
    (hdis : 0 < countEvents OutputLine.movement true (evalMovementStep firstSample rmsIdx s w).2) :
    (evalMovementStep firstSample rmsIdx s w).1.counterMovDownThresh = 0 ∧
    (evalMovementStep firstSample rmsIdx s w).1.flagMovMinTimeDown = false ∧
    (evalMovementStep firstSample rmsIdx s w).1.pluginEnabled = false ∧
    ∀ blocks : List (Int × List RmsWindow), (∀ x ∈ windowsOf blocks, 0 ≤ x.samples) →
      (evalMovementBlocks (evalMovementStep firstSample rmsIdx s w).1 blocks).1.pluginEnabled
        = true →
      s.minMovSamplesBelowThresh < belowSamples s.movThreshold (windowsOf blocks) := by
  obtain ⟨h1, h2, h3⟩ := evalMovementStep_disable firstSample rmsIdx s w hK hA hB hdis
  obtain ⟨k1, _, k3⟩ := evalMovementStep_config firstSample rmsIdx s w
  refine ⟨h1, h2, h3, ?_⟩
  intro blocks hpos hen
  have := evalMovementBlocks_reenable s.movThreshold s.minMovSamplesBelowThresh blocks
    (evalMovementStep firstSample rmsIdx s w).1 0 k1 k3 hpos (le_refl 0)
    (Or.inl ⟨h3, by rw [h1], by rw [h2]; simp⟩) hen
  simpa using this

/-- Witness of C7: three samples of movement, the moving minimum being two, disable
the detector; it is enabled again after six quiet samples, the steady minimum being
five. -/
theorem C7_disable_resets_steady_count_witness :
    (evalMovementStep 0 0
      { initialSettings with movThreshold := 10, minMovSamplesAboveThresh := 2,
                             minMovSamplesBelowThresh := 5 } ⟨20, 3⟩).1.pluginEnabled = false ∧
    (evalMovementBlocks (evalMovementStep 0 0
      { initialSettings with movThreshold := 10, minMovSamplesAboveThresh := 2,
                             minMovSamplesBelowThresh := 5 } ⟨20, 3⟩).1
      [(1, [⟨1, 3⟩, ⟨1, 3⟩])]).1.pluginEnabled = true ∧
    (5 : Int) < belowSamples 10 (windowsOf [(1, [⟨1, 3⟩, ⟨1, 3⟩])]) :=
  ⟨(C7_disable_resets_steady_count 0 0
      { initialSettings with movThreshold := 10, minMovSamplesAboveThresh := 2,
                             minMovSamplesBelowThresh := 5 } ⟨20, 3⟩
      (by decide) (by decide) (by decide) (by decide)).2.2.1,
   by decide,
   (C7_disable_resets_steady_count 0 0
      { initialSettings with movThreshold := 10, minMovSamplesAboveThresh := 2,
                             minMovSamplesBelowThresh := 5 } ⟨20, 3⟩
      (by decide) (by decide) (by decide) (by decide)).2.2.2
      [(1, [⟨1, 3⟩, ⟨1, 3⟩])] (by decide) (by decide)⟩
/-! ### Re-enabling after a disable transition (C6) -/

theorem totalSamples_append (xs ys : List RmsWindow) :
    totalSamples (xs ++ ys) = totalSamples xs + totalSamples ys := by
  simp [totalSamples]

/-- While the detector is disabled and the steady flag is clear, the steady count is
bounded by the below-threshold samples of the windows `seg` processed since the
count was last reset; if those stay within `MB` whenever `seg` has no above-threshold
run longer than `MA`, the loop emits nothing and stays disabled.  `all` is the whole
window sequence of the run, `future` are the windows of later calls. -/
theorem evalMovementLoop_stays_disabled (f : Int) (thr : ℚ) (MA MB : Int)
    (all : List RmsWindow) (hMA : 0 ≤ MA) (hMB : 0 ≤ MB)
    (H : ∀ seg, seg <:+: all →
      (∀ run, run <:+: seg → (∀ w ∈ run, w.rms > thr) → totalSamples run ≤ MA) →
      belowSamples thr seg ≤ MB)
    (ws : List RmsWindow) :
    ∀ (future pre seg : List RmsWindow) (i : Nat) (s : RippleDetectorSettings),
      all = pre ++ seg ++ (ws ++ future) →
      s.movThreshold = thr → s.minMovSamplesAboveThresh = MA →
      s.minMovSamplesBelowThresh = MB →
      (∀ x ∈ ws, 0 ≤ x.samples) →
      s.pluginEnabled = false → s.flagMovMinTimeDown = false →
      s.counterMovDownThresh ≤ belowSamples thr seg → 0 ≤ s.counterMovUpThresh →
      (∀ p, p <:+ seg → (∀ w ∈ p, w.rms > thr) → totalSamples p ≤ s.counterMovUpThresh) →
      (∀ p, p <:+: seg → (∀ w ∈ p, w.rms > thr) → totalSamples p ≤ MA) →
      (evalMovementLoop f i s ws).2 = [] ∧
      ∃ pre' seg', all = pre' ++ seg' ++ future ∧
        (evalMovementLoop f i s ws).1.movThreshold = thr ∧
        (evalMovementLoop f i s ws).1.minMovSamplesAboveThresh = MA ∧
        (evalMovementLoop f i s ws).1.minMovSamplesBelowThresh = MB ∧
        (evalMovementLoop f i s ws).1.pluginEnabled = false ∧
        (evalMovementLoop f i s ws).1.flagMovMinTimeDown = false ∧
        (evalMovementLoop f i s ws).1.counterMovDownThresh ≤ belowSamples thr seg' ∧
        0 ≤ (evalMovementLoop f i s ws).1.counterMovUpThresh ∧
        (∀ p, p <:+ seg' → (∀ w ∈ p, w.rms > thr) →
          totalSamples p ≤ (evalMovementLoop f i s ws).1.counterMovUpThresh) ∧
        (∀ p, p <:+: seg' → (∀ w ∈ p, w.rms > thr) → totalSamples p ≤ MA) := by
  induction ws with
  | nil =>
    intro future pre seg i s hall h1 h2 h3 _ h5 h6 h7 h8 h9 h10
    exact ⟨rfl, pre, seg, by simpa using hall, h1, h2, h3, h5, h6, h7, h8, h9, h10⟩
  | cons w ws ih =>
    intro future pre seg i s hall h1 h2 h3 hpos h5 h6 h7 h8 h9 h10
    obtain ⟨k1, k2, k3⟩ := evalMovementStep_config f i s w
    have hw : 0 ≤ w.samples := hpos w (List.mem_cons_self _ _)
    have hup0 : 0 ≤ (if w.rms > thr then s.counterMovUpThresh + w.samples else 0) := by
      split_ifs <;> omega
    -- the step emits nothing and stays disabled as soon as the steady flag stays clear
    have hfin : (evalMovementStep f i s w).1.flagMovMinTimeDown = false →
        (evalMovementStep f i s w).2 = [] ∧
        (evalMovementStep f i s w).1.pluginEnabled = false := by
      intro hfd
      constructor
      · rw [evalMovementStep_events, hfd, h5]; simp
      · rw [evalMovementStep_pluginEnabled, hfd, h5]; simp
    by_cases hmoving :
        (if w.rms > thr then s.counterMovUpThresh + w.samples else 0) > MA
    · -- the steady count is reset: start a new segment
      have hcd : (evalMovementStep f i s w).1.counterMovDownThresh = 0 := by
        rw [evalMovementStep_counterDown, h1, h2, if_pos hmoving]
      have hfd : (evalMovementStep f i s w).1.flagMovMinTimeDown = false := by
        rw [evalMovementStep_flagDown, hcd, h3, h6]
        have : ¬ ((0 : Int) > MB) := by omega
        simp [this]
      obtain ⟨hev, hen⟩ := hfin hfd
      obtain ⟨i1, pre', seg', i2⟩ := ih future (pre ++ seg ++ [w]) [] (i + 1)
        (evalMovementStep f i s w).1 (by simp [hall]) (by rw [k1, h1]) (by rw [k2, h2])
        (by rw [k3, h3]) (fun x hx => hpos x (List.mem_cons_of_mem _ hx)) hen hfd
        (by rw [hcd, belowSamples_nil])
        (by rw [evalMovementStep_counterUp, h1]; exact hup0)
        (by
          intro p hp _
          rw [List.suffix_nil.mp hp, totalSamples_nil, evalMovementStep_counterUp, h1]
          exact hup0)
        (by
          intro p hp _
          have : p = [] := List.eq_nil_of_infix_nil hp
          rw [this, totalSamples_nil]; exact hMA)
      simp only [evalMovementLoop]
      exact ⟨by rw [hev, i1]; rfl, pre', seg', i2⟩
    · -- no reset: the segment grows by `w`
      have hsuf : ∀ p, p <:+ seg ++ [w] → (∀ x ∈ p, x.rms > thr) →
          totalSamples p ≤ (if w.rms > thr then s.counterMovUpThresh + w.samples else 0) := by
        intro p hp hall'
        rcases List.suffix_concat_iff.mp hp with rfl | ⟨t, rfl, ht⟩
        · rw [totalSamples_nil]; exact hup0
        · have hwa : w.rms > thr := hall' w (by simp)
          have := h9 t ht (fun x hx => hall' x (List.mem_append_left _ hx))
          rw [totalSamples_append, totalSamples_cons, totalSamples_nil, if_pos hwa]
          omega
      have hinf : ∀ p, p <:+: seg ++ [w] → (∀ x ∈ p, x.rms > thr) → totalSamples p ≤ MA := by
        intro p hp hall'
        rcases List.infix_concat_iff.mp hp with hp | hp
        · have := hsuf p hp hall'
          omega
        · exact h10 p hp hall'
      have hbelow := H (seg ++ [w])
        ⟨pre, ws ++ future, by rw [hall]; simp⟩ hinf
      rw [belowSamples_append, belowSamples_cons, belowSamples_nil] at hbelow
      have hcd : (evalMovementStep f i s w).1.counterMovDownThresh ≤
          belowSamples thr (seg ++ [w]) := by
        rw [evalMovementStep_counterDown, h1, h2, if_neg hmoving, belowSamples_append,
          belowSamples_cons, belowSamples_nil]
        split_ifs <;> omega
      have hfd : (evalMovementStep f i s w).1.flagMovMinTimeDown = false := by
        rw [evalMovementStep_flagDown, h3, h6]
        rw [belowSamples_append, belowSamples_cons, belowSamples_nil] at hcd
        have : ¬ ((evalMovementStep f i s w).1.counterMovDownThresh > MB) := by omega
        simp [this]
      obtain ⟨hev, hen⟩ := hfin hfd
      obtain ⟨i1, pre', seg', i2⟩ := ih future pre (seg ++ [w]) (i + 1)
        (evalMovementStep f i s w).1 (by simp [hall]) (by rw [k1, h1]) (by rw [k2, h2])
        (by rw [k3, h3]) (fun x hx => hpos x (List.mem_cons_of_mem _ hx)) hen hfd hcd
        (by rw [evalMovementStep_counterUp, h1]; exact hup0)
        (by rw [evalMovementStep_counterUp, h1]; exact hsuf)
        hinf
      simp only [evalMovementLoop]
      exact ⟨by rw [hev, i1]; rfl, pre', seg', i2⟩

theorem evalMovementBlocks_stays_disabled (thr : ℚ) (MA MB : Int)
    (all : List RmsWindow) (hMA : 0 ≤ MA) (hMB : 0 ≤ MB)
    (H : ∀ seg, seg <:+: all →
      (∀ run, run <:+: seg → (∀ w ∈ run, w.rms > thr) → totalSamples run ≤ MA) →
      belowSamples thr seg ≤ MB)
    (blocks : List (Int × List RmsWindow)) :
    ∀ (pre seg : List RmsWindow) (s : RippleDetectorSettings),
      all = pre ++ seg ++ windowsOf blocks →
      s.movThreshold = thr → s.minMovSamplesAboveThresh = MA →
      s.minMovSamplesBelowThresh = MB →
      (∀ x ∈ windowsOf blocks, 0 ≤ x.samples) →
      s.pluginEnabled = false → s.flagMovMinTimeDown = false →
      s.counterMovDownThresh ≤ belowSamples thr seg → 0 ≤ s.counterMovUpThresh →
      (∀ p, p <:+ seg → (∀ w ∈ p, w.rms > thr) → totalSamples p ≤ s.counterMovUpThresh) →
      (∀ p, p <:+: seg → (∀ w ∈ p, w.rms > thr) → totalSamples p ≤ MA) →
      (evalMovementBlocks s blocks).2 = [] ∧
      (evalMovementBlocks s blocks).1.pluginEnabled = false := by
  induction blocks with
  | nil => intro pre seg s _ _ _ _ _ h5 _ _ _ _ _; exact ⟨rfl, h5⟩
  | cons b rest ih =>
    intro pre seg s hall h1 h2 h3 hpos h5 h6 h7 h8 h9 h10
    simp only [windowsOf, List.mem_append] at hpos
    obtain ⟨l1, pre', seg', q0, q1, q2, q3, q5, q6, q7, q8, q9, q10⟩ :=
      evalMovementLoop_stays_disabled b.1 thr MA MB all hMA hMB H b.2 (windowsOf rest) pre seg 0 s
        (by simpa [windowsOf] using hall) h1 h2 h3 (fun x hx => hpos x (Or.inl hx))
        h5 h6 h7 h8 h9 h10
    obtain ⟨i1, i2⟩ := ih pre' seg' (evalMovement b.1 s b.2).1 q0 q1 q2 q3
      (fun x hx => hpos x (Or.inr hx)) q5 q6 q7 q8 q9 q10
    simp only [evalMovementBlocks]
    refine ⟨?_, i2⟩
    rw [i1]
    simp only [evalMovement, l1, List.append_nil]

/-- C6, amended: from the state that a disabling iteration of `evalMovement` leaves
(taken in a state where a set moving-reached flag goes with a zero steady count and
the up-counter is not negative, with the non-negative minima that `process`
computes), under a fixed configuration, if over every stretch of consecutive windows
that contains no above-threshold run totalling more than `minMovSamplesAboveThresh`
samples the windows at or below `movThreshold` total at most
`minMovSamplesBelowThresh` samples, then a run of `evalMovement` leaves the detector
disabled and emits no gate event with `active = false`. -/
theorem C6_stays_disabled_between_resets (firstSample : Int) (rmsIdx : Nat)
    (s0 : RippleDetectorSettings) (w0 : RmsWindow)
    (hK : s0.flagMovMinTimeUp = true → s0.counterMovDownThresh = 0)
    (hU : 0 ≤ s0.counterMovUpThresh) (hw0 : 0 ≤ w0.samples)
    (hA : 0 ≤ s0.minMovSamplesAboveThresh) (hB : 0 ≤ s0.minMovSamplesBelowThresh)
    (hdis : 0 < countEvents OutputLine.movement true
      (evalMovementStep firstSample rmsIdx s0 w0).2)
    (blocks : List (Int × List RmsWindow))
    (hpos : ∀ x ∈ windowsOf blocks, 0 ≤ x.samples)
    (H : ∀ seg, seg <:+: windowsOf blocks →
      (∀ run, run <:+: seg → (∀ w ∈ run, w.rms > s0.movThreshold) →
        totalSamples run ≤ s0.minMovSamplesAboveThresh) →
      belowSamples s0.movThreshold seg ≤ s0.minMovSamplesBelowThresh) :
    (evalMovementBlocks (evalMovementStep firstSample rmsIdx s0 w0).1 blocks).1.pluginEnabled
      = false ∧
    countEvents OutputLine.movement false
      (evalMovementBlocks (evalMovementStep firstSample rmsIdx s0 w0).1 blocks).2 = 0 := by
  obtain ⟨h1, h2, h3⟩ := evalMovementStep_disable firstSample rmsIdx s0 w0 hK hA hB hdis
  obtain ⟨k1, k2, k3⟩ := evalMovementStep_config firstSample rmsIdx s0 w0
  have hup : 0 ≤ (evalMovementStep firstSample rmsIdx s0 w0).1.counterMovUpThresh := by
    rw [evalMovementStep_counterUp]; split_ifs <;> omega
  obtain ⟨r1, r2⟩ := evalMovementBlocks_stays_disabled s0.movThreshold
    s0.minMovSamplesAboveThresh s0.minMovSamplesBelowThresh (windowsOf blocks) hA hB H blocks
    [] [] (evalMovementStep firstSample rmsIdx s0 w0).1 (by simp) k1 k2 k3 hpos h3 h2
    (by rw [h1, belowSamples_nil])
    hup
    (by intro p hp _; rw [List.suffix_nil.mp hp, totalSamples_nil]; exact hup)
    (by intro p hp _; rw [List.eq_nil_of_infix_nil hp, totalSamples_nil]; exact hA)
  exact ⟨r2, by rw [r1]; rfl⟩

theorem forall_infix_iff {α : Type} (P : List α → Prop) (l : List α) :
    (∀ run, run <:+: l → P run) ↔ ∀ t ∈ l.tails, ∀ run ∈ t.inits, P run := by
  constructor
  · intro h t ht run hrun
    exact h run (List.infix_iff_prefix_suffix.mpr
      ⟨t, (List.mem_inits _ _).mp hrun, (List.mem_tails _ _).mp ht⟩)
  · exact forall_infix_of_tails_inits P l

/-- Counterexample to C6 as stated: moving minimum 2, steady minimum 5.  Three samples
of movement disable the detector; then two quiet runs of three samples each, separated
by one sample of movement, re-enable it although neither run exceeds five samples. -/
theorem C6_counterexample :
    0 < countEvents OutputLine.movement true (evalMovementStep 0 0
      { initialSettings with movThreshold := 10, minMovSamplesAboveThresh := 2,
                             minMovSamplesBelowThresh := 5 } ⟨20, 3⟩).2 ∧
    (∀ run, run <:+: [(⟨1, 3⟩ : RmsWindow), ⟨20, 1⟩, ⟨1, 3⟩] →
      (∀ w ∈ run, w.rms ≤ 10) → totalSamples run ≤ 5) ∧
    (evalMovement 1 (evalMovementStep 0 0
      { initialSettings with movThreshold := 10, minMovSamplesAboveThresh := 2,
                             minMovSamplesBelowThresh := 5 } ⟨20, 3⟩).1
      [⟨1, 3⟩, ⟨20, 1⟩, ⟨1, 3⟩]).1.pluginEnabled = true ∧
    countEvents OutputLine.movement false (evalMovement 1 (evalMovementStep 0 0
      { initialSettings with movThreshold := 10, minMovSamplesAboveThresh := 2,
                             minMovSamplesBelowThresh := 5 } ⟨20, 3⟩).1
      [⟨1, 3⟩, ⟨20, 1⟩, ⟨1, 3⟩]).2 = 1 :=
  ⟨by decide, forall_infix_of_tails_inits _ _ (by decide), by decide, by decide⟩

/-- Witness of the amended C6: the two quiet runs of three samples are separated by
three samples of movement, which exceed the moving minimum and reset the steady
count. -/
theorem C6_stays_disabled_between_resets_witness :
    (evalMovementBlocks (evalMovementStep 0 0
      { initialSettings with movThreshold := 10, minMovSamplesAboveThresh := 2,
                             minMovSamplesBelowThresh := 5 } ⟨20, 3⟩).1
      [(1, [⟨1, 3⟩, ⟨20, 3⟩, ⟨1, 3⟩])]).1.pluginEnabled = false ∧
    countEvents OutputLine.movement false (evalMovementBlocks (evalMovementStep 0 0
      { initialSettings with movThreshold := 10, minMovSamplesAboveThresh := 2,
                             minMovSamplesBelowThresh := 5 } ⟨20, 3⟩).1
      [(1, [⟨1, 3⟩, ⟨20, 3⟩, ⟨1, 3⟩])]).2 = 0 :=
  C6_stays_disabled_between_resets 0 0
    { initialSettings with movThreshold := 10, minMovSamplesAboveThresh := 2,
                           minMovSamplesBelowThresh := 5 } ⟨20, 3⟩
    (by decide) (by decide) (by decide) (by decide) (by decide) (by decide)
    [(1, [⟨1, 3⟩, ⟨20, 3⟩, ⟨1, 3⟩])] (by decide)
    (by
      rw [forall_infix_iff]
      simp only [forall_infix_iff]
      decide)

/-! ### Probabilistic thinning of the primary line (C8) -/

theorem onsetFires_eq (f : Int) (o : Oracle) (s : RippleDetectorSettings) (w : RmsWindow) :
    onsetFires f o s w = (debounced s w && !s.onRefractoryTime && s.pluginEnabled) := by
  simp only [onsetFires, debounced, resetTTL_fst, countAboveThresh_eq, setFlagTimeThreshold_eq]

theorem detectRipplesStep_ripple_start (f : Int) (s : RippleDetectorSettings) (w : RmsWindow)
    (o : Oracle) : countEvents OutputLine.ripple true (detectRipplesStep f s w o).2 =
      if (onsetFires f o s w = true ∧ (o.randomDraw : ℚ) ≤ s.ttl_percent) then 1 else 0 := by
  rw [onsetFires_eq]
  simp only [debounced, detectRipplesStep, resetTTL_fst, resetTTL_snd, countAboveThresh_eq,
    setFlagTimeThreshold_eq, sendTTL_fst, sendTTL_snd, checkRefractory_eq, countEvents]
  split_ifs <;> simp_all

/-- C8: when the test of lines 692-695 succeeds in an iteration of `detectRipples`,
the iteration emits exactly one detection-start event on the report line whatever
the draw is, and one detection-start event on the primary ripple output line if the
draw `d` satisfies `d ≤ ttl_percent` and none otherwise; so for a draw in `[1, 100]`
the primary line gets the event when `ttl_percent = 100` and never when
`ttl_percent = 0`. -/
theorem C8_onset_report_always_primary_by_draw (firstSample : Int)
    (s : RippleDetectorSettings) (w : RmsWindow) (o : Oracle)
    (h : onsetFires firstSample o s w = true) :
    countEvents OutputLine.report true (detectRipplesStep firstSample s w o).2 = 1 ∧
    countEvents OutputLine.ripple true (detectRipplesStep firstSample s w o).2 =
      (if (o.randomDraw : ℚ) ≤ s.ttl_percent then 1 else 0) ∧
    (s.ttl_percent = 100 → 1 ≤ o.randomDraw → o.randomDraw ≤ 100 →
      countEvents OutputLine.ripple true (detectRipplesStep firstSample s w o).2 = 1) ∧
    (s.ttl_percent = 0 → 1 ≤ o.randomDraw →
      countEvents OutputLine.ripple true (detectRipplesStep firstSample s w o).2 = 0) := by
  have hrep : countEvents OutputLine.report true (detectRipplesStep firstSample s w o).2 = 1 := by
    rw [detectRipplesStep_report, ← onsetFires_eq firstSample o s w, h]; simp
  have hrip := detectRipplesStep_ripple_start firstSample s w o
  simp only [h, true_and] at hrip
  refine ⟨hrep, hrip, ?_, ?_⟩
  · intro hp _ h100
    rw [hrip, hp, if_pos]
    exact_mod_cast h100
  · intro hp h1
    rw [hrip, hp, if_neg]
    have : (0 : ℚ) < (o.randomDraw : ℚ) := by exact_mod_cast (show (0 : Int) < o.randomDraw by omega)
    exact not_le.mpr this

/-- Witness of C8: an onset with `ttl_percent = 30` and a draw of 50 reaches the
report line only. -/
theorem C8_onset_report_always_primary_by_draw_witness :
    countEvents OutputLine.report true
      (detectRipplesStep 0 { initialSettings with threshold := 5, ttl_percent := 30 }
        ⟨6, 1⟩ ⟨0, 0, 0, 0, 50⟩).2 = 1 ∧
    countEvents OutputLine.ripple true
      (detectRipplesStep 0 { initialSettings with threshold := 5, ttl_percent := 30 }
        ⟨6, 1⟩ ⟨0, 0, 0, 0, 50⟩).2 = 0 :=
  ⟨(C8_onset_report_always_primary_by_draw 0
      { initialSettings with threshold := 5, ttl_percent := 30 } ⟨6, 1⟩ ⟨0, 0, 0, 0, 50⟩
      (by decide)).1,
   by decide⟩

/-! ### Detection-end events without a detection-start event (C9) -/

/-- C9, the behaviour of the code: in `gatedRun` the ripple of the third block is
detected while the gate is closed, so `rippleDetected` is set without any event and
with the draw of the first block still stored; once the gate has reopened, the
fourth block emits a detection-end event on the primary line.  The primary line
carries start, end, end: the second end follows no start. -/
theorem C9_offset_without_onset :
    lineStates OutputLine.ripple gatedRun.2 = [true, false, false] ∧
    lineStates OutputLine.movement gatedRun.2 = [true, false] ∧
    lineStates OutputLine.report gatedRun.2 = [true] := by
  decide

/-! ### The calibrated mean (C10) -/

theorem calibrateWindows_values (vals : List (ℚ × ℚ)) :
    ∀ (s : RippleDetectorSettings) (c : CalibrationBuffers),
      (calibrateWindows vals s c).1.rmsMean = s.rmsMean + (vals.map Prod.fst).sum ∧
      (calibrateWindows vals s c).2.calibrationRmsValues =
        c.calibrationRmsValues ++ vals.map Prod.fst ∧
      (calibrateWindows vals s c).1.pointsProcessed = s.pointsProcessed ∧
      (calibrateWindows vals s c).1.calibrationPoints = s.calibrationPoints := by
  induction vals with
  | nil => intro s c; simp [calibrateWindows]
  | cons v rest ih =>
    intro s c
    obtain ⟨h1, h2, h3, h4⟩ :=
      ih (calibrateWindow v.1 v.2 s c).1 (calibrateWindow v.1 v.2 s c).2
    simp only [calibrateWindows, h1, h2, h3, h4, List.map_cons, List.sum_cons]
    unfold calibrateWindow
    split_ifs <;> simp [add_assoc]

theorem divide_eq_some (x y z : ℚ) (h : divide x y = some z) : y ≠ 0 ∧ z = x / y := by
  unfold divide at h
  split_ifs at h with hy
  exact ⟨hy, (Option.some.inj h).symm⟩

theorem finishCalibration_rmsMean (sqrt : ℚ → ℚ) (s s' : RippleDetectorSettings)
    (c : CalibrationBuffers) (h : finishCalibration sqrt s c = some s') :
    s'.rmsMean = s.rmsMean / (c.calibrationRmsValues.length : ℚ) ∧ s'.isCalibrating = false := by
  unfold finishCalibration at h
  simp only [Option.bind_eq_bind, Option.bind_eq_some] at h
  obtain ⟨mean, hmean, variance, -, h⟩ := h
  obtain ⟨-, rfl⟩ := divide_eq_some _ _ _ hmean
  split_ifs at h
  · simp only [Option.bind_eq_bind, Option.bind_eq_some] at h
    obtain ⟨movMean, -, movVariance, -, h⟩ := h
    rw [← Option.some.inj h]
    simp
  · rw [← Option.some.inj h]
    simp

/-- The law that the code follows: a calibration pass requested on a stream whose
stored mean is `s.rmsMean` and completed within one block stores that previous mean
plus the sum of the collected values, divided by their count. -/
theorem requestedCalibration_rmsMean (sqrt : ℚ → ℚ) (numSamplesInBlock : Int)
    (vals : List (ℚ × ℚ)) (s : RippleDetectorSettings) (c : CalibrationBuffers)
    (r : RippleDetectorSettings × CalibrationBuffers)
    (hfin : s.calibrationPoints ≤ numSamplesInBlock)
    (h : requestedCalibration sqrt numSamplesInBlock vals s c = some r) :
    r.2.calibrationRmsValues = vals.map Prod.fst ∧
    r.1.rmsMean = (s.rmsMean + (vals.map Prod.fst).sum) / (vals.length : ℚ) := by
  simp only [requestedCalibration, calibrationBlock, checkCalibrate, Bool.true_or, if_true,
    Option.map_eq_some'] at h
  obtain ⟨s', hs', rfl⟩ := h
  obtain ⟨v1, v2, v3, v4⟩ := calibrateWindows_values vals
    { s with isCalibrating := true, movChannChanged := false, pointsProcessed := 0 }
    { calibrationRmsValues := [], calibrationMovRmsValues := [] }
  simp only [List.nil_append] at v2
  refine ⟨v2, ?_⟩
  unfold calibrationBlockEnd at hs'
  simp only [v3, v4] at hs'
  rw [if_pos (by omega)] at hs'
  obtain ⟨hm, -⟩ := finishCalibration_rmsMean _ _ _ _ hs'
  rw [hm, v2]
  simp only [v1, List.length_map]

/-- C10, the behaviour of the code.  First run: a stream whose stored mean is 3 (the
`RMS_mean` parameter) is calibrated on a block whose two windows both have RMS 1; the
collected values are `[1, 1]`, whose mean is 1, and the stored mean is
`(3 + 1 + 1) / 2 = 5 / 2`.  Second run: a stream with stored mean 0 is calibrated on
two windows of RMS 2, which stores 2, and then calibrated again on two windows of
RMS 1; the stored mean is `(2 + 1 + 1) / 2 = 2`, not 1.  In both, `rmsMean` is not
reset when the calibration pass starts. -/
theorem C10_mean_includes_previous_mean (sqrt : ℚ → ℚ) :
    (requestedCalibration sqrt 2 [(1, 0), (1, 0)]
        { initialSettings with rmsMean := 3, calibrationPoints := 2 }
        { calibrationRmsValues := [], calibrationMovRmsValues := [] }).map
      (fun r => (r.1.isCalibrating, r.2.calibrationRmsValues, r.1.rmsMean)) =
      some (false, [1, 1], 5 / 2) ∧
    ((requestedCalibration sqrt 2 [(2, 0), (2, 0)]
        { initialSettings with calibrationPoints := 2 }
        { calibrationRmsValues := [], calibrationMovRmsValues := [] }).bind
      (fun r => requestedCalibration sqrt 2 [(1, 0), (1, 0)] r.1 r.2)).map
      (fun r => (r.1.isCalibrating, r.2.calibrationRmsValues, r.1.rmsMean)) =
      some (false, [1, 1], 2) := by
  constructor
  · simp [requestedCalibration, calibrationBlock, checkCalibrate, calibrateWindows,
      calibrateWindow, calibrationBlockEnd, finishCalibration, divide, initialSettings]
    norm_num
  · simp [requestedCalibration, calibrationBlock, checkCalibrate, calibrateWindows,
      calibrateWindow, calibrationBlockEnd, finishCalibration, divide, initialSettings]
    norm_num
    rfl

/-! ### The calibrated standard deviation (C11, C12) -/

theorem sumSquaredDeviations_eq (mean : ℚ) (values : List ℚ) :
    ∀ acc : ℚ, sumSquaredDeviations mean values acc =
      acc + (values.map (fun x => (x - mean) ^ 2)).sum := by
  induction values with
  | nil => intro acc; simp [sumSquaredDeviations]
  | cons v rest ih =>
    intro acc
    have := ih (acc + (v - mean) ^ 2)
    simp only [sumSquaredDeviations, List.foldl_cons, List.map_cons, List.sum_cons] at this ⊢
    rw [this, add_assoc]

/-- The law that the code follows for the standard deviation: the stored value is the
square root of the previous stored value plus the squared deviations from the stored
mean, over `count - 1`. -/
theorem finishCalibration_rmsStdDev (sqrt : ℚ → ℚ) (s s' : RippleDetectorSettings)
    (c : CalibrationBuffers) (h : finishCalibration sqrt s c = some s') :
    s'.rmsStdDev = sqrt ((s.rmsStdDev +
        (c.calibrationRmsValues.map (fun x => (x - s'.rmsMean) ^ 2)).sum) /
      ((c.calibrationRmsValues.length : ℚ) - 1)) := by
  obtain ⟨hmean, -⟩ := finishCalibration_rmsMean sqrt s s' c h
  unfold finishCalibration at h
  simp only [Option.bind_eq_bind, Option.bind_eq_some] at h
  obtain ⟨mean, hm, variance, hv, h⟩ := h
  obtain ⟨-, rfl⟩ := divide_eq_some _ _ _ hm
  obtain ⟨-, rfl⟩ := divide_eq_some _ _ _ hv
  have hs : s'.rmsStdDev = sqrt (sumSquaredDeviations
      (s.rmsMean / (c.calibrationRmsValues.length : ℚ)) c.calibrationRmsValues s.rmsStdDev /
      ((c.calibrationRmsValues.length : ℚ) - 1)) := by
    split_ifs at h
    · simp only [Option.bind_eq_bind, Option.bind_eq_some] at h
      obtain ⟨movMean, -, movVariance, -, h⟩ := h
      rw [← Option.some.inj h]
      simp
    · rw [← Option.some.inj h]
      simp
  rw [hs, sumSquaredDeviations_eq, hmean]

/-- C11, the behaviour of the code.  First run: a stream whose stored standard
deviation is 2 (the `RMS_std` parameter) and whose stored mean is 0 is calibrated on
a block whose two windows have RMS 1 and 3; the stored mean is 2 and the stored
standard deviation is `sqrt((2 + 1 + 1) / 1) = sqrt 4`, while the sample standard
deviation of `[1, 3]` is `sqrt 2`.  Second run: from zero values the same pass stores
`sqrt 2`, and a second pass on the same windows stores
`sqrt((sqrt 2 + 4 + 0) / 1)`: `rmsStdDev` is not reset when a pass starts (and the
mean it deviates from is the one of C10). -/
theorem C11_stddev_includes_previous_value (sqrt : ℚ → ℚ) :
    (requestedCalibration sqrt 2 [(1, 0), (3, 0)]
        { initialSettings with rmsStdDev := 2, calibrationPoints := 2 }
        { calibrationRmsValues := [], calibrationMovRmsValues := [] }).map
      (fun r => (r.2.calibrationRmsValues, r.1.rmsMean, r.1.rmsStdDev)) =
      some ([1, 3], 2, sqrt 4) ∧
    sampleStdDev sqrt [1, 3] = sqrt 2 ∧
    ((requestedCalibration sqrt 2 [(1, 0), (3, 0)]
        { initialSettings with calibrationPoints := 2 }
        { calibrationRmsValues := [], calibrationMovRmsValues := [] }).bind
      (fun r => requestedCalibration sqrt 2 [(1, 0), (3, 0)] r.1 r.2)).map
      (fun r => (r.2.calibrationRmsValues, r.1.rmsMean, r.1.rmsStdDev)) =
      some ([1, 3], 3, sqrt (sqrt 2 + 4)) := by
  refine ⟨?_, ?_, ?_⟩
  · simp [requestedCalibration, calibrationBlock, checkCalibrate, calibrateWindows,
      calibrateWindow, calibrationBlockEnd, finishCalibration, divide, initialSettings,
      sumSquaredDeviations]
    norm_num
  · simp [sampleStdDev, sampleMean]
    norm_num
  · simp [requestedCalibration, calibrationBlock, checkCalibrate, calibrateWindows,
      calibrateWindow, calibrationBlockEnd, finishCalibration, divide, initialSettings,
      sumSquaredDeviations]
    norm_num
    rw [if_neg (List.cons_ne_nil _ _)]
    norm_num

theorem finishCalibration_underflow (sqrt : ℚ → ℚ) (s : RippleDetectorSettings)
    (c : CalibrationBuffers) (h : c.calibrationRmsValues.length ≤ 1) :
    finishCalibration sqrt s c = none := by
  unfold finishCalibration
  simp only [Option.bind_eq_bind]
  rcases Nat.le_one_iff_eq_zero_or_eq_one.mp h with h0 | h1
  · simp [divide, h0]
  · simp [divide, h1]

/-- C12, the behaviour of the code: when `finishCalibration` runs with no or one
collected value, one of its divisions has a zero divisor (`count` for the mean,
`count - 1` for the standard deviation), so what it stores is not a number, whatever
the stored values were; a requested calibration that completes on a block of one
window is such a run. -/
theorem C12_underflow_is_not_guarded (sqrt : ℚ → ℚ) (s : RippleDetectorSettings)
    (x : ℚ) (movs : List ℚ) :
    finishCalibration sqrt s { calibrationRmsValues := [], calibrationMovRmsValues := movs }
      = none ∧
    finishCalibration sqrt s { calibrationRmsValues := [x], calibrationMovRmsValues := movs }
      = none ∧
    requestedCalibration sqrt 1000 [(1, 0)]
        { initialSettings with calibrationPoints := 1000 }
        { calibrationRmsValues := [], calibrationMovRmsValues := [] } = none :=
  ⟨finishCalibration_underflow sqrt s _ (by simp),
   finishCalibration_underflow sqrt s _ (by simp),
   by
    simp [requestedCalibration, calibrationBlock, checkCalibrate, calibrateWindows,
      calibrateWindow, calibrationBlockEnd, initialSettings]
    exact finishCalibration_underflow sqrt _ _ (by simp)⟩

/-! ### `calculateAccelMod` (C17) and `calculateRms` (C19) -/

theorem accelModFrom_spec (sqrt : ℚ → ℚ) (x y z : List ℚ) :
    ∀ (count p : Nat), p + count ≤ x.length → p + count ≤ y.length → p + count ≤ z.length →
      ∃ l, accelModFrom sqrt [x, y, z] count p = some l ∧ l.length = count ∧
        ∀ (k : Nat), k < count → ∀ (hx : p + k < x.length) (hy : p + k < y.length)
          (hz : p + k < z.length),
          l[k]? = some (sqrt ((x.get ⟨p + k, hx⟩) ^ 2 + (y.get ⟨p + k, hy⟩) ^ 2 +
            (z.get ⟨p + k, hz⟩) ^ 2)) := by
  intro count
  induction count with
  | zero => intro p _ _ _; exact ⟨[], rfl, rfl, fun k hk => absurd hk (Nat.not_lt_zero k)⟩
  | succ n ih =>
    intro p hx hy hz
    obtain ⟨l, hl, hlen, hget⟩ := ih (p + 1) (by omega) (by omega) (by omega)
    have hxp : p < x.length := by omega
    have hyp : p < y.length := by omega
    have hzp : p < z.length := by omega
    have hat : accelModAt sqrt [x, y, z] p =
        some (sqrt ((x.get ⟨p, hxp⟩) ^ 2 + (y.get ⟨p, hyp⟩) ^ 2 + (z.get ⟨p, hzp⟩) ^ 2)) := by
      simp [accelModAt, List.getElem?_eq_getElem hxp, List.getElem?_eq_getElem hyp,
        List.getElem?_eq_getElem hzp]
    refine ⟨sqrt ((x.get ⟨p, hxp⟩) ^ 2 + (y.get ⟨p, hyp⟩) ^ 2 + (z.get ⟨p, hzp⟩) ^ 2) :: l,
      by simp [accelModFrom, hat, hl], by simp [hlen], ?_⟩
    intro k hk hxk hyk hzk
    cases k with
    | zero => simp
    | succ j =>
      have := hget j (by omega) (by omega) (by omega) (by omega)
      simp only [List.getElem?_cons_succ, this]
      have e : p + 1 + j = p + (j + 1) := by omega
      simp only [e]

/-- C17: for axis sequences `x`, `y`, `z` of length at least `n`,
`calculateAccelMod` applied to them and `n` returns a sequence of length exactly `n`
whose entry `p` is `sqrt(x[p]^2 + y[p]^2 + z[p]^2)` for every `p < n` (no read is out
of bounds). -/
theorem C17_accel_magnitude (sqrt : ℚ → ℚ) (x y z : List ℚ) (n : Nat)
    (hx : n ≤ x.length) (hy : n ≤ y.length) (hz : n ≤ z.length) :
    ∃ l, calculateAccelMod sqrt [x, y, z] (n : Int) = some l ∧ l.length = n ∧
      ∀ (p : Nat) (hp : p < n),
        l[p]? = some (sqrt ((x.get ⟨p, lt_of_lt_of_le hp hx⟩) ^ 2 +
          (y.get ⟨p, lt_of_lt_of_le hp hy⟩) ^ 2 + (z.get ⟨p, lt_of_lt_of_le hp hz⟩) ^ 2)) := by
  obtain ⟨l, hl, hlen, hget⟩ := accelModFrom_spec sqrt x y z n 0 (by omega) (by omega) (by omega)
  refine ⟨l, by simpa [calculateAccelMod] using hl, hlen, ?_⟩
  intro p hp
  have := hget p hp (by omega) (by omega) (by omega)
  simpa using this

/-- Witness of C17 on two samples of three axes. -/
theorem C17_accel_magnitude_witness :
    ∃ l, calculateAccelMod Rat.sqrt [[3, 1], [4, 2], [0, 2]] 2 = some l ∧ l.length = 2 := by
  obtain ⟨l, h1, h2, -⟩ := C17_accel_magnitude Rat.sqrt [3, 1] [4, 2] [0, 2] 2
    (by decide) (by decide) (by decide)
  exact ⟨l, h1, h2⟩

theorem squaresFrom_const (data : Int → ℚ) (c : ℚ) :
    ∀ (count : Nat) (idx : Int) (sum : ℚ),
      (∀ k : Int, idx ≤ k → k < idx + count → data k = c) →
      squaresFrom data count idx sum = sum + count * c ^ 2 := by
  intro count
  induction count with
  | zero => intro idx sum _; simp [squaresFrom]
  | succ n ih =>
    intro idx sum h
    rw [squaresFrom, ih (idx + 1) _ (fun k h1 h2 => h k (by omega) (by push_cast; omega)),
      h idx (le_refl _) (by push_cast; omega)]
    push_cast
    ring

theorem squaresFromVector_const (data : List ℚ) (c : ℚ) :
    ∀ (count : Nat) (idx : Int) (sum : ℚ), 0 ≤ idx →
      (∀ k : Nat, idx ≤ k → (k : Int) < idx + count → data[k]? = some c) →
      squaresFromVector data count idx sum = some (sum + count * c ^ 2) := by
  intro count
  induction count with
  | zero => intro idx sum _ _; simp [squaresFromVector]
  | succ n ih =>
    intro idx sum h0 h
    have hk := h idx.toNat (by omega) (by push_cast; omega)
    rw [squaresFromVector, if_pos h0, hk]
    simp only
    rw [ih (idx + 1) _ (by omega) (fun k h1 h2 => h k (by omega) (by push_cast; omega))]
    push_cast
    congr 1
    ring

/-- C19: for a non-empty window `[a, b)` whose samples all equal `c`, both overloads
of `calculateRms` return `|c|`, for a square root that takes `c ^ 2` to `|c|` (exact
arithmetic). -/
theorem C19_rms_of_constant (sqrt : ℚ → ℚ) (c : ℚ) (hsqrt : sqrt (c ^ 2) = |c|)
    (a b : Int) (hab : a < b) :
    (∀ data : Int → ℚ, (∀ idx : Int, a ≤ idx → idx < b → data idx = c) →
      calculateRms sqrt data a b = some |c|) ∧
    (∀ data : List ℚ, 0 ≤ a →
      (∀ idx : Nat, a ≤ idx → (idx : Int) < b → data[idx]? = some c) →
      calculateRmsVector sqrt data a b = some |c|) := by
  have hn : (((b - a).toNat : Int)) = b - a := Int.toNat_of_nonneg (by omega)
  have hq : (((b - a : Int)) : ℚ) ≠ 0 := by
    exact_mod_cast (show b - a ≠ 0 by omega)
  have hcast : (((b - a).toNat : ℚ)) = (((b - a : Int)) : ℚ) := by
    exact_mod_cast hn
  constructor
  · intro data h
    unfold calculateRms
    rw [squaresFrom_const data c _ a 0 (fun k h1 h2 => h k h1 (by omega))]
    simp only [divide, hq, if_false, Option.map_some', zero_add, hcast]
    rw [mul_div_cancel_left₀ _ hq, hsqrt]
  · intro data h0 h
    unfold calculateRmsVector
    rw [squaresFromVector_const data c _ a 0 h0 (fun k h1 h2 => h k h1 (by omega))]
    simp only [divide, hq, if_false, Option.map_some', zero_add, hcast, Option.some_bind]
    rw [mul_div_cancel_left₀ _ hq, hsqrt]

/-- Witness of C19: the window `[2, 5)` of a signal that is `-3` everywhere. -/
theorem C19_rms_of_constant_witness :
    calculateRms Rat.sqrt (fun _ => -3) 2 5 = some 3 ∧
    calculateRmsVector Rat.sqrt [-3, -3, -3, -3, -3] 2 5 = some 3 := by
  have h := C19_rms_of_constant Rat.sqrt (-3) (by rw [sq]; exact Rat.sqrt_eq (-3)) 2 5
    (by decide)
  have habs : |(-3 : ℚ)| = 3 := by norm_num
  rw [habs] at h
  refine ⟨h.1 _ (fun _ _ _ => rfl), h.2 _ (by decide) ?_⟩
  intro idx h1 h2
  have : idx = 2 ∨ idx = 3 ∨ idx = 4 := by omega
  rcases this with rfl | rfl | rfl <;> rfl

/-! ### The `mov_detect` parameter (C18) -/

/-- C18, amended: when `ACC` is selected, the handler of `mov_detect` forces the mode
to `OFF` (movement detection disabled) exactly when the stream has no auxiliary
channel; with one or more auxiliary channels, three or not, the mode stays `ACC` and
movement detection is enabled.  In both cases `movChannChanged` is set. -/
theorem C18_acc_off_only_without_aux (s : RippleDetectorSettings) :
    (movDetectChanged MovSwitch.ACC s).movSwitch =
      (if s.auxChannelIndices.length = 0 then MovSwitch.OFF else MovSwitch.ACC) ∧
    (movDetectChanged MovSwitch.ACC s).movSwitchEnabled =
      !decide (s.auxChannelIndices.length = 0) ∧
    (movDetectChanged MovSwitch.ACC s).movChannChanged = true ∧
    (movDetectChanged MovSwitch.ACC s).auxChannelIndices = s.auxChannelIndices := by
  unfold movDetectChanged
  by_cases h : s.auxChannelIndices.length = 0 <;> simp [h]

/-- Counterexample to C18 as stated: with one auxiliary channel (and likewise with
four) the mode selected as `ACC` stays `ACC` and movement detection is enabled; with
the single axis the reads of `calculateAccelMod` are out of bounds. -/
theorem C18_counterexample :
    (movDetectChanged MovSwitch.ACC { initialSettings with auxChannelIndices := [7] }).movSwitch
      = MovSwitch.ACC ∧
    (movDetectChanged MovSwitch.ACC
      { initialSettings with auxChannelIndices := [7] }).movSwitchEnabled = true ∧
    (movDetectChanged MovSwitch.ACC
      { initialSettings with auxChannelIndices := [7, 8, 9, 10] }).movSwitchEnabled = true ∧
    accelMagnitude Rat.sqrt (fun _ _ => 1) 2
      (movDetectChanged MovSwitch.ACC { initialSettings with auxChannelIndices := [7] }) = none := by
  refine ⟨by decide, by decide, by decide, by decide⟩

/-! ### What an onset does while the detector is disabled (C20) -/

theorem detectRipplesStep_rippleDetected (f : Int) (s : RippleDetectorSettings)
    (w : RmsWindow) (o : Oracle) :
    (detectRipplesStep f s w o).1.rippleDetected =
      ((debounced s w && !s.onRefractoryTime) || (s.rippleDetected && !offsetFires o s)) := by
  simp only [debounced, detectRipplesStep, resetTTL_fst, countAboveThresh_eq,
    setFlagTimeThreshold_eq, sendTTL_fst, checkRefractory_eq]

/-- C20, amended: an iteration of `detectRipples` marks the ripple-asserted flag and
enters refractory (records `refractoryTimeStart` and sets `onRefractoryTime`, which
the check at the end of the same iteration clears again if `refractoryTime` has
already elapsed) exactly when the debounce flag is set and the stream is not
refractory, whether the detector is enabled or not; otherwise it sets neither flag.
`pluginEnabled` does not occur in the three equations (it only conditions the events,
`rippleStartTime`, the draw, and the reset of the asserted flag by a detection-end
event). -/
theorem C20_refractory_entered_regardless_of_gate (firstSample : Int)
    (s : RippleDetectorSettings) (w : RmsWindow) (o : Oracle) :
    (detectRipplesStep firstSample s w o).1.rippleDetected =
      (if (debounced s w && !s.onRefractoryTime) = true then true
       else (s.rippleDetected && !offsetFires o s)) ∧
    (detectRipplesStep firstSample s w o).1.refractoryTimeStart =
      (if (debounced s w && !s.onRefractoryTime) = true then o.refractoryStart
       else s.refractoryTimeStart) ∧
    (detectRipplesStep firstSample s w o).1.onRefractoryTime =
      ((if (debounced s w && !s.onRefractoryTime) = true then true else s.onRefractoryTime) &&
        !decide (o.timeNow - (detectRipplesStep firstSample s w o).1.refractoryTimeStart ≥
          s.refractoryTime)) ∧
    debounced { s with pluginEnabled := false } w = debounced s w := by
  refine ⟨?_, detectRipplesStep_refractoryTimeStart .., ?_, ?_⟩
  · rw [detectRipplesStep_rippleDetected]
    cases debounced s w <;> cases s.onRefractoryTime <;> simp
  · rw [detectRipplesStep_refractoryTimeStart, detectRipplesStep_onRefractoryTime]
    cases debounced s w <;> cases s.onRefractoryTime <;> simp
  · simp only [debounced_eq]

/-- Counterexample to C20 as stated: the detector is disabled, the window is above
threshold and satisfies the debounce; the iteration emits nothing and sets both the
ripple-asserted flag and the refractory flag. -/
theorem C20_counterexample :
    (detectRipplesStep 0 { initialSettings with pluginEnabled := false, threshold := 5 }
      ⟨6, 1⟩ ⟨0, 0, 0, 0, 50⟩).2 = [] ∧
    (detectRipplesStep 0 { initialSettings with pluginEnabled := false, threshold := 5 }
      ⟨6, 1⟩ ⟨0, 0, 0, 0, 50⟩).1.rippleDetected = true ∧
    (detectRipplesStep 0 { initialSettings with pluginEnabled := false, threshold := 5 }
      ⟨6, 1⟩ ⟨0, 0, 0, 0, 50⟩).1.onRefractoryTime = true := by
  refine ⟨by decide, by decide, by decide⟩

/-! ### The sample number of the onset event (C14) -/

theorem ceil_of_int (q : ℚ) (z : Int) (h : q = (z : ℚ)) : ⌈q⌉ = z := by
  rw [h, Int.ceil_intCast]

/-- The settings of the scenario, computed: a debounce of 10 samples and a threshold
of 5. -/
theorem scenarioSettings_eq :
    scenarioSettings =
      { initialSettings with
          rmsMean := 0, rmsStdDev := 1, rippleSds := 5, timeThreshold := 10,
          numSamplesTimeThreshold := 10, minMovSamplesBelowThresh := 5000,
          minMovSamplesAboveThresh := 10, threshold := 5, movThreshold := 0 } := by
  have h1 : ⌈(1000 : ℚ) * ((10 : Int) : ℚ) / 1000⌉ = 10 := ceil_of_int _ _ (by norm_num)
  have h2 : ⌈(1000 : ℚ) * ((5000 : Int) : ℚ) / 1000⌉ = 5000 := ceil_of_int _ _ (by norm_num)
  simp only [scenarioSettings, recomputeThresholds, initialSettings, h1, h2]
  norm_num

theorem detectRipplesStep_stamp (f : Int) (s : RippleDetectorSettings) (w : RmsWindow)
    (o : Oracle) :
    ∀ e ∈ (detectRipplesStep f s w o).2, e.sampleNumber = f ∧ e.bufferOffset = 0 := by
  intro e he
  simp only [detectRipplesStep, resetTTL_snd, sendTTL_snd, List.mem_append] at he
  rcases he with he | he
  · split_ifs at he
    · simp only [List.mem_singleton] at he; subst he; exact ⟨rfl, rfl⟩
    · simp at he
  · split_ifs at he
    · simp only [List.mem_cons, List.mem_singleton, List.not_mem_nil, or_false] at he
      rcases he with rfl | rfl <;> exact ⟨rfl, rfl⟩
    · simp only [List.mem_singleton] at he; subst he; exact ⟨rfl, rfl⟩
    · simp at he

theorem detectRipples_stamp (f : Int) (ws : List (RmsWindow × Oracle)) :
    ∀ s : RippleDetectorSettings,
      ∀ e ∈ (detectRipples f s ws).2, e.sampleNumber = f ∧ e.bufferOffset = 0 := by
  induction ws with
  | nil => intro s e he; simp [detectRipples] at he
  | cons x xs ih =>
    intro s e he
    simp only [detectRipples, List.mem_append] at he
    rcases he with he | he
    · exact detectRipplesStep_stamp f s x.1 x.2 e he
    · exact ih _ e he

/-- C14, amended: `detectRipples` stamps every event it emits with the first sample
number of the block and buffer offset 0, not with the position inside the block.  In
the end-to-end scenario (debounce of 10 samples, threshold 5, windows of one sample
at 6, first sample number 1000) nothing is emitted while the first ten windows are
processed, and the iteration of the window with index 10 emits the detection-start
events, with sample number 1000. -/
theorem C14_onset_stamped_with_block_start (firstSample : Int)
    (s : RippleDetectorSettings) (ws : List (RmsWindow × Oracle)) :
    (∀ e ∈ (detectRipples firstSample s ws).2,
      e.sampleNumber = firstSample ∧ e.bufferOffset = 0) ∧
    (detectRipples 1000 scenarioSettings (scenarioWindows 0 10)).2 = [] ∧
    (detectRipples 1000 scenarioSettings (scenarioWindows 0 11)).2 =
      [⟨OutputLine.report, 1, 1000, true, 0⟩, ⟨OutputLine.ripple, 0, 1000, true, 0⟩] := by
  refine ⟨detectRipples_stamp firstSample ws s, ?_, ?_⟩
  · rw [scenarioSettings_eq]; decide
  · rw [scenarioSettings_eq]; decide

/-- Counterexample to C14 as stated: in the scenario, with first sample number 1000,
the block of 50 samples emits its detection-start events with sample number 1000 and
buffer offset 0, not 1010. -/
theorem C14_counterexample :
    scenarioSettings.numSamplesTimeThreshold = 10 ∧ scenarioSettings.threshold = 5 ∧
    (detectRipples 1000 scenarioSettings (scenarioWindows 0 50)).2 =
      [⟨OutputLine.report, 1, 1000, true, 0⟩, ⟨OutputLine.ripple, 0, 1000, true, 0⟩] := by
  rw [scenarioSettings_eq]
  refine ⟨rfl, rfl, by decide⟩

/-! ### `process` returns a result -/

theorem windowLoop_nonempty (W N : Int) (hW : 1 ≤ W) :
    ∀ (fuel : Nat) (a : Int) (ws : List (Int × Int)),
      windowLoop fuel W N a = some ws → ∀ w ∈ ws, w.1 < w.2 := by
  intro fuel
  induction fuel with
  | zero => intro a ws h; simp [windowLoop] at h
  | succ fuel ih =>
    intro a ws h
    unfold windowLoop at h
    split_ifs at h with ha
    · simp only [Option.map_eq_some'] at h
      obtain ⟨rest, hrest, hws⟩ := h
      rw [← hws]
      intro w hw
      rcases List.mem_cons.mp hw with hw | hw
      · rw [hw]
        simp only [windowEnd_eq_min]
        exact lt_min (by omega) ha
      · exact ih _ rest hrest w hw
    · rw [← Option.some.inj h]
      intro w hw
      simp at hw

theorem calculateRms_some (sqrt : ℚ → ℚ) (data : Int → ℚ) (a e : Int) (h : a < e) :
    ∃ v, calculateRms sqrt data a e = some v := by
  unfold calculateRms divide
  have hne : ((e - a : Int) : ℚ) ≠ 0 := by
    have : e - a ≠ 0 := by omega
    exact_mod_cast this
  rw [if_neg hne]
  exact ⟨_, rfl⟩

theorem allWindowValues_total (sqrt : ℚ → ℚ) (b : StreamBlock) (s : RippleDetectorSettings)
    (movement : List ℚ) (hmov : s.movSwitchEnabled = false) :
    ∀ (ws : List (Int × Int)), (∀ w ∈ ws, w.1 < w.2) →
      ∃ vals, allWindowValues sqrt b s movement ws = Except.ok vals ∧
        vals.length = ws.length := by
  intro ws
  induction ws with
  | nil => intro _; exact ⟨[], rfl, rfl⟩
  | cons w rest ih =>
    intro h
    obtain ⟨vals, hvals, hlen⟩ := ih (fun x hx => h x (List.mem_cons_of_mem _ hx))
    obtain ⟨v, hv⟩ := calculateRms_some sqrt (b.data s.rippleInputChannel) w.1 w.2
      (h w (List.mem_cons_self _ _))
    refine ⟨(v, 0) :: vals, ?_, by simp [hlen]⟩
    simp [allWindowValues, windowValues, hv, hmov, hvals]

theorem blockWindows_total (sqrt : ℚ → ℚ) (fuel : Nat) (b : StreamBlock)
    (s : RippleDetectorSettings) (hmov : s.movSwitchEnabled = false)
    (hW : 1 ≤ s.rmsSamples) (hfuel : b.numSamplesInBlock < fuel) :
    ∃ wv, blockWindows sqrt fuel b s = Except.ok wv ∧ wv.2.length = wv.1.length ∧
      windowLoop fuel s.rmsSamples b.numSamplesInBlock 0 = some wv.1 := by
  obtain ⟨ws, hws, -⟩ := windowLoop_spec s.rmsSamples b.numSamplesInBlock hW fuel 0
    (by simpa using hfuel)
  obtain ⟨vals, hvals, hlen⟩ := allWindowValues_total sqrt b s [] hmov ws
    (windowLoop_nonempty _ _ hW fuel 0 ws hws)
  refine ⟨(ws, vals), ?_, hlen, hws⟩
  simp [blockWindows, movementSignal, hmov, hws, hvals]

theorem prepareBlock_config (b : StreamBlock) (sc : Bool) (st : StreamState) :
    (prepareBlock b sc st).2.1.movSwitchEnabled = st.settings.movSwitchEnabled ∧
    (prepareBlock b sc st).2.1.rmsSamples =
      clampRmsSamples st.settings.rmsSamples b.numSamplesInBlock ∧
    (prepareBlock b sc st).2.1.rippleInputChannel = st.settings.rippleInputChannel ∧
    (prepareBlock b sc st).2.1.calibrationPoints = st.settings.calibrationPoints := by
  unfold prepareBlock checkCalibrate reEnable recomputeThresholds
  simp only []
  split_ifs <;> exact ⟨rfl, rfl, rfl, rfl⟩

theorem calibrateWindows_isCalibrating (vals : List (ℚ × ℚ)) :
    ∀ (s : RippleDetectorSettings) (c : CalibrationBuffers),
      (calibrateWindows vals s c).1.isCalibrating = s.isCalibrating := by
  induction vals with
  | nil => intro s c; rfl
  | cons v rest ih =>
    intro s c
    simp only [calibrateWindows]
    rw [ih]
    unfold calibrateWindow
    split_ifs <;> rfl

theorem calibrateWindows_movSwitchEnabled (vals : List (ℚ × ℚ)) :
    ∀ (s : RippleDetectorSettings) (c : CalibrationBuffers),
      (calibrateWindows vals s c).1.movSwitchEnabled = s.movSwitchEnabled := by
  induction vals with
  | nil => intro s c; rfl
  | cons v rest ih =>
    intro s c
    simp only [calibrateWindows]
    rw [ih]
    unfold calibrateWindow
    split_ifs <;> rfl

/-- A block handled while the stream is calibrating and that does not reach
`calibrationPoints`. -/
theorem handleWindows_calibrating_continues (sqrt : ℚ → ℚ) (b : StreamBlock)
    (s : RippleDetectorSettings) (c : CalibrationBuffers) (ws : List (Int × Int))
    (vals : List (ℚ × ℚ)) (hcal : s.isCalibrating = true)
    (hfin : s.pointsProcessed + b.numSamplesInBlock < s.calibrationPoints) :
    ∃ r, handleWindows sqrt b s c ws vals = Except.ok r ∧ r.1.isCalibrating = true ∧
      r.1.pointsProcessed = s.pointsProcessed + b.numSamplesInBlock ∧
      r.2.1.calibrationRmsValues = c.calibrationRmsValues ++ vals.map Prod.fst := by
  obtain ⟨cw, hcw⟩ : ∃ cw, cw = calibrateWindows vals
      { s with rmsEndIdx := lastEndIdx s ws } c := ⟨_, rfl⟩
  obtain ⟨-, k2, k3, k4⟩ := calibrateWindows_values vals
    { s with rmsEndIdx := lastEndIdx s ws } c
  have k5 := calibrateWindows_isCalibrating vals { s with rmsEndIdx := lastEndIdx s ws } c
  rw [← hcw] at k2 k3 k4 k5
  have k3' : cw.1.pointsProcessed = s.pointsProcessed := k3
  have k4' : cw.1.calibrationPoints = s.calibrationPoints := k4
  have k5' : cw.1.isCalibrating = s.isCalibrating := k5
  have hlt : ¬ (cw.1.pointsProcessed + b.numSamplesInBlock ≥ cw.1.calibrationPoints) := by
    rw [k3', k4']; simpa using hfin
  refine ⟨({ cw.1 with pointsProcessed := cw.1.pointsProcessed + b.numSamplesInBlock },
    cw.2, []), ?_, ?_, ?_, ?_⟩
  · have e1 : handleWindows sqrt b s c ws vals =
        (match calibrationBlockEnd sqrt b.numSamplesInBlock cw.1 cw.2 with
         | none => Except.error Fault.notANumber
         | some s7 => Except.ok (s7, cw.2, [])) := by
      unfold handleWindows
      rw [hcw]
      exact if_pos hcal
    have e2 : calibrationBlockEnd sqrt b.numSamplesInBlock cw.1 cw.2 =
        some { cw.1 with pointsProcessed := cw.1.pointsProcessed + b.numSamplesInBlock } := by
      unfold calibrationBlockEnd
      exact if_neg hlt
    rw [e1, e2]
  · exact k5'.trans hcal
  · exact congrArg (· + (b.numSamplesInBlock : Int)) k3'
  · exact k2

/-- With a primary input channel, a non-empty block, the movement detection off, a
window length of at least one sample and more fuel than samples, `processStream`
gives a result for a block on which the stream is calibrating and does not reach
`calibrationPoints`: the block is counted and the values of its windows are
collected. -/
theorem processStream_calibrating_continues (sqrt : ℚ → ℚ) (fuel : Nat) (sc : Bool)
    (st : StreamState) (b : StreamBlock)
    (hch : 0 ≤ st.settings.rippleInputChannel) (hN : b.numSamplesInBlock ≠ 0)
    (hmov : st.settings.movSwitchEnabled = false) (hW : 1 ≤ st.settings.rmsSamples)
    (hfuel : b.numSamplesInBlock < fuel)
    (hcal : (prepareBlock b sc st).2.1.isCalibrating = true)
    (hfin : (prepareBlock b sc st).2.1.pointsProcessed + b.numSamplesInBlock <
      (prepareBlock b sc st).2.1.calibrationPoints) :
    ∃ r, processStream sqrt fuel sc st b = Except.ok r ∧ r.returned = false ∧
      r.shouldCalibrate = (prepareBlock b sc st).1 ∧
      r.state.settings.isCalibrating = true ∧
      r.state.settings.pointsProcessed =
        (prepareBlock b sc st).2.1.pointsProcessed + b.numSamplesInBlock ∧
      r.state.calibration.calibrationRmsValues.length =
        (prepareBlock b sc st).2.2.1.calibrationRmsValues.length +
          ⌈(b.numSamplesInBlock : ℚ) /
            (clampRmsSamples st.settings.rmsSamples b.numSamplesInBlock : ℚ)⌉ := by
  obtain ⟨c1, c2, -, -⟩ := prepareBlock_config b sc st
  have hN1 : (1 : Int) ≤ b.numSamplesInBlock := by omega
  have hW2 := (clampRmsSamples_bounds _ _ hN1 hW).1
  obtain ⟨wv, hwv, hlen, hloop⟩ := blockWindows_total sqrt fuel b (prepareBlock b sc st).2.1
    (c1.trans hmov) (by rw [c2]; exact hW2) hfuel
  obtain ⟨r, hr, r1, r2, r3⟩ := handleWindows_calibrating_continues sqrt b
    (prepareBlock b sc st).2.1 (prepareBlock b sc st).2.2.1 wv.1 wv.2 hcal hfin
  obtain ⟨ws, hws, hcount, -⟩ := windowLoop_cover b.numSamplesInBlock
    (clampRmsSamples st.settings.rmsSamples b.numSamplesInBlock) hN1 hW2 fuel (by simpa using hfuel)
  rw [c2, hws] at hloop
  refine ⟨{ returned := false, shouldCalibrate := (prepareBlock b sc st).1,
            state := { settings := r.1, calibration := r.2.1 },
            events := (prepareBlock b sc st).2.2.2 ++ r.2.2 }, ?_, ?_, ?_, ?_, ?_, ?_⟩
  · unfold processStream
    rw [if_neg (by omega), if_neg hN]
    simp only [hwv, hr]
  · rfl
  · rfl
  · exact r1
  · exact r2
  · simp only [r3, List.length_append, List.length_map, hlen, ← Option.some.inj hloop]
    push_cast
    rw [hcount, Int.cast_natCast]

theorem finishCalibration_total (sqrt : ℚ → ℚ) (s : RippleDetectorSettings)
    (c : CalibrationBuffers) (hmov : s.movSwitchEnabled = false)
    (hlen : 2 ≤ c.calibrationRmsValues.length) :
    ∃ s', finishCalibration sqrt s c = some s' ∧ s'.isCalibrating = false := by
  have h0 : (((c.calibrationRmsValues.length : Int) : ℚ)) ≠ 0 := by
    have : (c.calibrationRmsValues.length : Int) ≠ 0 := by omega
    exact_mod_cast this
  have h1 : (((c.calibrationRmsValues.length : Int) : ℚ)) - 1 ≠ 0 := by
    have : (c.calibrationRmsValues.length : Int) - 1 ≠ 0 := by omega
    exact_mod_cast this
  unfold finishCalibration divide
  simp only [Option.bind_eq_bind, if_neg h0, if_neg h1, Option.some_bind, hmov]
  exact ⟨_, rfl, rfl⟩

/-- A block handled while the stream is calibrating and that reaches
`calibrationPoints`, with at least two values collected. -/
theorem handleWindows_calibrating_finishes (sqrt : ℚ → ℚ) (b : StreamBlock)
    (s : RippleDetectorSettings) (c : CalibrationBuffers) (ws : List (Int × Int))
    (vals : List (ℚ × ℚ)) (hcal : s.isCalibrating = true)
    (hmov : s.movSwitchEnabled = false)
    (hfin : s.calibrationPoints ≤ s.pointsProcessed + b.numSamplesInBlock)
    (hlen : 2 ≤ c.calibrationRmsValues.length + vals.length) :
    ∃ r, handleWindows sqrt b s c ws vals = Except.ok r ∧ r.1.isCalibrating = false := by
  obtain ⟨cw, hcw⟩ : ∃ cw, cw = calibrateWindows vals
      { s with rmsEndIdx := lastEndIdx s ws } c := ⟨_, rfl⟩
  obtain ⟨-, k2, k3, k4⟩ := calibrateWindows_values vals
    { s with rmsEndIdx := lastEndIdx s ws } c
  have k6 := calibrateWindows_movSwitchEnabled vals { s with rmsEndIdx := lastEndIdx s ws } c
  rw [← hcw] at k2 k3 k4 k6
  have k3' : cw.1.pointsProcessed = s.pointsProcessed := k3
  have k4' : cw.1.calibrationPoints = s.calibrationPoints := k4
  have k6' : cw.1.movSwitchEnabled = s.movSwitchEnabled := k6
  have hge : cw.1.pointsProcessed + b.numSamplesInBlock ≥ cw.1.calibrationPoints := by
    rw [k3', k4']; exact hfin
  obtain ⟨s', hs', hs'cal⟩ := finishCalibration_total sqrt
    { cw.1 with pointsProcessed := cw.1.pointsProcessed + b.numSamplesInBlock } cw.2
    (k6'.trans hmov) (by rw [k2]; simpa using hlen)
  refine ⟨(s', cw.2, []), ?_, hs'cal⟩
  have e1 : handleWindows sqrt b s c ws vals =
      (match calibrationBlockEnd sqrt b.numSamplesInBlock cw.1 cw.2 with
       | none => Except.error Fault.notANumber
       | some s7 => Except.ok (s7, cw.2, [])) := by
    unfold handleWindows
    rw [hcw]
    exact if_pos hcal
  have e2 : calibrationBlockEnd sqrt b.numSamplesInBlock cw.1 cw.2 = some s' := by
    unfold calibrationBlockEnd
    exact (if_pos hge).trans hs'
  rw [e1, e2]

/-- With a primary input channel, a non-empty block, the movement detection off, a
window length of at least one sample and more fuel than samples, `processStream`
gives a result for a block on which the stream is calibrating and reaches
`calibrationPoints` with at least two values collected: the calibration ends. -/
theorem processStream_calibrating_finishes (sqrt : ℚ → ℚ) (fuel : Nat) (sc : Bool)
    (st : StreamState) (b : StreamBlock)
    (hch : 0 ≤ st.settings.rippleInputChannel) (hN : b.numSamplesInBlock ≠ 0)
    (hmov : st.settings.movSwitchEnabled = false) (hW : 1 ≤ st.settings.rmsSamples)
    (hfuel : b.numSamplesInBlock < fuel)
    (hcal : (prepareBlock b sc st).2.1.isCalibrating = true)
    (hfin : (prepareBlock b sc st).2.1.calibrationPoints ≤
      (prepareBlock b sc st).2.1.pointsProcessed + b.numSamplesInBlock)
    (hlen : 2 ≤ ((prepareBlock b sc st).2.2.1.calibrationRmsValues.length : Int) +
      ⌈((b.numSamplesInBlock : Int) : ℚ) /
        (clampRmsSamples st.settings.rmsSamples b.numSamplesInBlock : ℚ)⌉) :
    ∃ r, processStream sqrt fuel sc st b = Except.ok r ∧ r.returned = false ∧
      r.state.settings.isCalibrating = false := by
  obtain ⟨c1, c2, -, -⟩ := prepareBlock_config b sc st
  have hN1 : (1 : Int) ≤ b.numSamplesInBlock := by omega
  have hW2 := (clampRmsSamples_bounds _ _ hN1 hW).1
  obtain ⟨wv, hwv, hlenwv, hloop⟩ := blockWindows_total sqrt fuel b (prepareBlock b sc st).2.1
    (c1.trans hmov) (by rw [c2]; exact hW2) hfuel
  obtain ⟨ws, hws, hcount, -⟩ := windowLoop_cover b.numSamplesInBlock
    (clampRmsSamples st.settings.rmsSamples b.numSamplesInBlock) hN1 hW2 fuel (by simpa using hfuel)
  rw [c2, hws] at hloop
  have hlen2 : 2 ≤ (prepareBlock b sc st).2.2.1.calibrationRmsValues.length + wv.2.length := by
    rw [hlenwv, ← Option.some.inj hloop]
    rw [← hcount] at hlen
    exact_mod_cast hlen
  obtain ⟨r, hr, r1⟩ := handleWindows_calibrating_finishes sqrt b
    (prepareBlock b sc st).2.1 (prepareBlock b sc st).2.2.1 wv.1 wv.2 hcal (c1.trans hmov)
    hfin hlen2
  refine ⟨{ returned := false, shouldCalibrate := (prepareBlock b sc st).1,
            state := { settings := r.1, calibration := r.2.1 },
            events := (prepareBlock b sc st).2.2.2 ++ r.2.2 }, ?_, rfl, r1⟩
  unfold processStream
  rw [if_neg (by omega), if_neg hN]
  simp only [hwv, hr]

/-! ### Blocks handled while the stream is calibrating (C13) -/

theorem reEnable_detectorState (f : Int) (sc : Bool) (s : RippleDetectorSettings) :
    detectorState (reEnable f sc s).1 = detectorState s := by
  unfold reEnable
  split_ifs <;> rfl

theorem checkCalibrate_detectorState (sc : Bool) (s : RippleDetectorSettings)
    (c : CalibrationBuffers) :
    detectorState (checkCalibrate sc s c).2.1 = detectorState s := by
  unfold checkCalibrate
  split_ifs <;> rfl

theorem prepareBlock_detectorState (b : StreamBlock) (sc : Bool) (st : StreamState) :
    detectorState (prepareBlock b sc st).2.1 = detectorState st.settings := by
  unfold prepareBlock
  simp only []
  rw [checkCalibrate_detectorState]
  exact reEnable_detectorState _ _ _

theorem calibrateWindows_detectorState (vals : List (ℚ × ℚ)) :
    ∀ (s : RippleDetectorSettings) (c : CalibrationBuffers),
      detectorState (calibrateWindows vals s c).1 = detectorState s := by
  induction vals with
  | nil => intro s c; rfl
  | cons v rest ih =>
    intro s c
    simp only [calibrateWindows]
    rw [ih]
    unfold calibrateWindow
    split_ifs <;> rfl

theorem finishCalibration_detectorState (sqrt : ℚ → ℚ) (s s' : RippleDetectorSettings)
    (c : CalibrationBuffers) (h : finishCalibration sqrt s c = some s') :
    detectorState s' = detectorState s := by
  unfold finishCalibration at h
  simp only [Option.bind_eq_bind, Option.bind_eq_some] at h
  obtain ⟨mean, -, variance, -, h⟩ := h
  split_ifs at h
  · simp only [Option.bind_eq_bind, Option.bind_eq_some] at h
    obtain ⟨movMean, -, movVariance, -, h⟩ := h
    rw [← Option.some.inj h]
    rfl
  · rw [← Option.some.inj h]
    rfl

theorem calibrationBlockEnd_detectorState (sqrt : ℚ → ℚ) (n : Int)
    (s s' : RippleDetectorSettings) (c : CalibrationBuffers)
    (h : calibrationBlockEnd sqrt n s c = some s') :
    detectorState s' = detectorState s := by
  unfold calibrationBlockEnd at h
  simp only [] at h
  split_ifs at h
  · exact (finishCalibration_detectorState sqrt _ s' c h).trans rfl
  · rw [← Option.some.inj h]
    rfl

/-- The calibrating branch of `handleWindows` leaves the detector state alone and
adds no event. -/
theorem handleWindows_calibrating (sqrt : ℚ → ℚ) (b : StreamBlock)
    (s : RippleDetectorSettings) (c : CalibrationBuffers) (ws : List (Int × Int))
    (vals : List (ℚ × ℚ)) (r : RippleDetectorSettings × CalibrationBuffers × List TTLEvent)
    (hcal : s.isCalibrating = true) (h : handleWindows sqrt b s c ws vals = Except.ok r) :
    detectorState r.1 = detectorState s ∧ r.2.2 = [] := by
  unfold handleWindows at h
  simp only [hcal, if_true] at h
  split at h
  · exact absurd h (by simp)
  · rename_i s7 hs7
    have h7 := calibrationBlockEnd_detectorState sqrt _ _ s7 _ hs7
    rw [calibrateWindows_detectorState] at h7
    have hr : r = (s7, _, []) := (Except.ok.inj h).symm
    rw [hr]
    exact ⟨h7, rfl⟩

/-- C13: when `process` handles a block of a stream that is calibrating after the
check of lines 369-383 (also the block on which the calibration completes), the
counters and flags of `detectRipples` and `evalMovement` are those from before the
block, and the only event that the block can add is the one of lines 343-346 of
`process` itself, on the movement line with state `false` at the first sample of the
block: neither state machine runs. -/
theorem C13_no_detection_while_calibrating (sqrt : ℚ → ℚ) (fuel : Nat)
    (shouldCalibrate : Bool) (st : StreamState) (b : StreamBlock) (r : StreamResult)
    (hcal : (prepareBlock b shouldCalibrate st).2.1.isCalibrating = true)
    (hret : r.returned = false)
    (h : processStream sqrt fuel shouldCalibrate st b = Except.ok r) :
    detectorState r.state.settings = detectorState st.settings ∧
    r.events = (reEnable b.firstSampleInBlock shouldCalibrate st.settings).2 ∧
    countEvents OutputLine.ripple true r.events = 0 ∧
    countEvents OutputLine.ripple false r.events = 0 ∧
    countEvents OutputLine.report true r.events = 0 ∧
    countEvents OutputLine.movement true r.events = 0 := by
  unfold processStream at h
  split_ifs at h with h1 h2
  · rw [← Except.ok.inj h] at hret; simp at hret
  · rw [← Except.ok.inj h] at hret; simp at hret
  · simp only [] at h
    split at h
    · exact absurd h (by simp)
    · rename_i wv hwv
      split at h
      · exact absurd h (by simp)
      · rename_i res hres
        obtain ⟨k1, k2⟩ := handleWindows_calibrating sqrt b _ _ _ _ res hcal hres
        rw [prepareBlock_detectorState] at k1
        rw [← Except.ok.inj h]
        simp only [k1, k2, List.append_nil, true_and]
        have hev : (prepareBlock b shouldCalibrate st).2.2.2 =
            (reEnable b.firstSampleInBlock shouldCalibrate st.settings).2 := rfl
        rw [hev]
        refine ⟨rfl, ?_⟩
        unfold reEnable
        split_ifs <;> simp [countEvents]

theorem C13_no_detection_while_calibrating_witness :
    (prepareBlock (rampBlock 4) true idleStream).2.1.isCalibrating = true ∧
    (∃ r, processStream Rat.sqrt 5 true idleStream (rampBlock 4) = Except.ok r ∧
      r.returned = false ∧ r.state.settings.isCalibrating = true ∧
      detectorState r.state.settings = detectorState idleStream.settings ∧
      r.events = []) ∧
    (prepareBlock (rampBlock 4) true shortCalibrationStream).2.1.isCalibrating = true ∧
    (∃ r, processStream Rat.sqrt 5 true shortCalibrationStream (rampBlock 4) = Except.ok r ∧
      r.returned = false ∧ r.state.settings.isCalibrating = false ∧
      detectorState r.state.settings = detectorState shortCalibrationStream.settings ∧
      r.events = []) := by
  have hcal : (prepareBlock (rampBlock 4) true idleStream).2.1.isCalibrating = true := by
    decide
  have hcal2 : (prepareBlock (rampBlock 4) true shortCalibrationStream).2.1.isCalibrating =
      true := by
    decide
  refine ⟨hcal, ?_, hcal2, ?_⟩
  · obtain ⟨r, hr, hret, -, hc, -⟩ := processStream_calibrating_continues Rat.sqrt 5 true
      idleStream (rampBlock 4) (by decide) (by decide) (by decide) (by decide) (by decide)
      hcal (by decide)
    have h := C13_no_detection_while_calibrating Rat.sqrt 5 true idleStream (rampBlock 4) r
      hcal hret hr
    exact ⟨r, hr, hret, hc, h.1, h.2.1.trans (by decide)⟩
  · have h4 : (clampRmsSamples shortCalibrationStream.settings.rmsSamples
        ((rampBlock 4).numSamplesInBlock : Int)) = 2 := by decide
    have h5 : ((rampBlock 4).numSamplesInBlock : Int) = 4 := by decide
    have h6 : (prepareBlock (rampBlock 4) true
        shortCalibrationStream).2.2.1.calibrationRmsValues.length = 0 := by decide
    have h7 : ⌈((4 : Int) : ℚ) / ((2 : Int) : ℚ)⌉ = 2 := by
      have : ((4 : Int) : ℚ) / ((2 : Int) : ℚ) = ((2 : Int) : ℚ) := by norm_num
      rw [this, Int.ceil_intCast]
    obtain ⟨r, hr, hret, hc⟩ := processStream_calibrating_finishes Rat.sqrt 5 true
      shortCalibrationStream (rampBlock 4) (by decide) (by decide) (by decide) (by decide)
      (by decide) hcal2 (by decide) (by rw [h4, h5, h6, h7]; decide)
    have h := C13_no_detection_while_calibrating Rat.sqrt 5 true shortCalibrationStream
      (rampBlock 4) r hcal2 hret hr
    exact ⟨r, hr, hret, hc, h.1, h.2.1.trans (by decide)⟩

/-! ### The `return` statements of `process` (C15) -/

theorem process_return_ends_loop (sqrt : ℚ → ℚ) (fuel : Nat) (sc : Bool) (st : StreamState)
    (b : StreamBlock) (rest : List (StreamState × StreamBlock))
    (hen : b.enable_stream = true)
    (h : st.settings.rippleInputChannel < 0 ∨ b.numSamplesInBlock = 0) :
    process sqrt fuel sc ((st, b) :: rest) =
      Except.ok (sc, st :: rest.map Prod.fst, []) := by
  have hps : processStream sqrt fuel sc st b =
      Except.ok { returned := true, shouldCalibrate := sc, state := st, events := [] } := by
    unfold processStream
    by_cases h1 : st.settings.rippleInputChannel < 0
    · rw [if_pos h1]
    · rw [if_neg h1, if_pos (h.resolve_left h1)]
  unfold process
  simp only [hen, if_true, hps]

/-- C15: `process` leaves the loop over the streams at the first enabled stream that
has no primary input channel or whose block is empty (`return` at lines 332 and 337):
with the calibration requested, the stream after it keeps its state and nothing is
done for it, for every square root and fuel, whereas the body of the loop on that
stream and block gives a result that starts the calibration, counts the 4 samples of
the block and collects the value of its window. -/
theorem C15_return_ends_stream_loop :
    (∀ (sqrt : ℚ → ℚ) (fuel : Nat),
      process sqrt fuel true [(unassignedStream, rampBlock 4), (idleStream, rampBlock 4)] =
        Except.ok (true, [unassignedStream, idleStream], [])) ∧
    (∀ (sqrt : ℚ → ℚ) (fuel : Nat),
      process sqrt fuel true [(idleStream, rampBlock 0), (idleStream, rampBlock 4)] =
        Except.ok (true, [idleStream, idleStream], [])) ∧
    idleStream.settings.isCalibrating = false ∧
    idleStream.settings.pointsProcessed = 0 ∧
    ∃ r, processStream Rat.sqrt 5 true idleStream (rampBlock 4) = Except.ok r ∧
      r.returned = false ∧ r.shouldCalibrate = false ∧
      r.state.settings.isCalibrating = true ∧
      r.state.settings.pointsProcessed = 4 ∧
      r.state.calibration.calibrationRmsValues.length = 1 := by
  refine ⟨?_, ?_, rfl, rfl, ?_⟩
  · intro sqrt fuel
    exact process_return_ends_loop sqrt fuel true unassignedStream (rampBlock 4) _ rfl
      (Or.inl (by decide))
  · intro sqrt fuel
    exact process_return_ends_loop sqrt fuel true idleStream (rampBlock 0) _ rfl
      (Or.inr rfl)
  · have hcal : (prepareBlock (rampBlock 4) true idleStream).2.1.isCalibrating = true := by
      decide
    obtain ⟨r, hr, hret, hsc, h1, h2, h3⟩ := processStream_calibrating_continues Rat.sqrt 5 true
      idleStream (rampBlock 4) (by decide) (by decide) (by decide) (by decide) (by decide)
      hcal (by decide)
    refine ⟨r, hr, hret, hsc.trans (by decide), h1, h2.trans (by decide), ?_⟩
    have h4 : (clampRmsSamples idleStream.settings.rmsSamples
        ((rampBlock 4).numSamplesInBlock : Int)) = 4 := by decide
    have h5 : ((rampBlock 4).numSamplesInBlock : ℚ) = 4 := by
      simp [rampBlock]
    have h6 : (prepareBlock (rampBlock 4) true idleStream).2.2.1.calibrationRmsValues.length
        = 0 := by decide
    rw [h4, h5, h6] at h3
    have h7 : ⌈(4 : ℚ) / ((4 : Int) : ℚ)⌉ = 1 := by norm_num
    rw [h7] at h3
    exact_mod_cast h3

/-! ### The window loop with a window length of zero -/

theorem windowLoop_zero (N : Int) (a : Int) (ha : a < N) :
    ∀ (fuel : Nat), windowLoop fuel 0 N a = none := by
  intro fuel
  induction fuel with
  | zero => rfl
  | succ fuel ih =>
    unfold windowLoop
    rw [if_pos ha, add_zero, ih]
    rfl

/-- With a stored window length of zero, the window loop of a non-empty block does
not end: whatever the fuel, it runs out. -/
theorem processStream_zero_window (sqrt : ℚ → ℚ) (fuel : Nat) (sc : Bool)
    (st : StreamState) (b : StreamBlock)
    (hch : 0 ≤ st.settings.rippleInputChannel) (hN : b.numSamplesInBlock ≠ 0)
    (hmov : st.settings.movSwitchEnabled = false) (hW : st.settings.rmsSamples = 0) :
    processStream sqrt fuel sc st b = Except.error Fault.outOfFuel := by
  obtain ⟨c1, c2, -, -⟩ := prepareBlock_config b sc st
  have hN1 : (0 : Int) < b.numSamplesInBlock := by omega
  have c3 : (prepareBlock b sc st).2.1.rmsSamples = 0 := by
    rw [c2, hW]
    unfold clampRmsSamples
    rw [if_neg (by omega)]
  have hbw : blockWindows sqrt fuel b (prepareBlock b sc st).2.1 =
      Except.error Fault.outOfFuel := by
    simp [blockWindows, movementSignal, c1.trans hmov, c3, windowLoop_zero _ 0 hN1 fuel]
  unfold processStream
  rw [if_neg (by omega), if_neg hN]
  simp only [hbw]


/-! ### The parts of `processStream` -/

/-- What a result of `processStream` that is not an early `return` is made of. -/
theorem processStream_ok (sqrt : ℚ → ℚ) (fuel : Nat) (sc : Bool) (st : StreamState)
    (b : StreamBlock) (r : StreamResult)
    (h : processStream sqrt fuel sc st b = Except.ok r) (hret : r.returned = false) :
    0 ≤ st.settings.rippleInputChannel ∧ b.numSamplesInBlock ≠ 0 ∧
    ∃ wv res, blockWindows sqrt fuel b (prepareBlock b sc st).2.1 = Except.ok wv ∧
      handleWindows sqrt b (prepareBlock b sc st).2.1 (prepareBlock b sc st).2.2.1 wv.1 wv.2 =
        Except.ok res ∧
      r.shouldCalibrate = (prepareBlock b sc st).1 ∧
      r.state.settings = res.1 ∧ r.state.calibration = res.2.1 ∧
      r.events = (prepareBlock b sc st).2.2.2 ++ res.2.2 := by
  unfold processStream at h
  split_ifs at h with h1 h2
  · rw [← Except.ok.inj h] at hret; simp at hret
  · rw [← Except.ok.inj h] at hret; simp at hret
  · refine ⟨by omega, h2, ?_⟩
    simp only [] at h
    split at h
    · exact absurd h (by simp)
    · rename_i wv hwv
      split at h
      · exact absurd h (by simp)
      · rename_i res hres
        refine ⟨wv, res, hwv, hres, ?_⟩
        rw [← Except.ok.inj h]
        exact ⟨rfl, rfl, rfl, rfl⟩

/-- How `processStream` puts a result together from its parts. -/
theorem processStream_of_parts (sqrt : ℚ → ℚ) (fuel : Nat) (sc : Bool) (st : StreamState)
    (b : StreamBlock) (wv : List (Int × Int) × List (ℚ × ℚ))
    (res : RippleDetectorSettings × CalibrationBuffers × List TTLEvent)
    (hch : 0 ≤ st.settings.rippleInputChannel) (hN : b.numSamplesInBlock ≠ 0)
    (hwv : blockWindows sqrt fuel b (prepareBlock b sc st).2.1 = Except.ok wv)
    (hres : handleWindows sqrt b (prepareBlock b sc st).2.1 (prepareBlock b sc st).2.2.1
      wv.1 wv.2 = Except.ok res) :
    processStream sqrt fuel sc st b =
      Except.ok { returned := false, shouldCalibrate := (prepareBlock b sc st).1,
                  state := { settings := res.1, calibration := res.2.1 },
                  events := (prepareBlock b sc st).2.2.2 ++ res.2.2 } := by
  unfold processStream
  rw [if_neg (by omega), if_neg hN]
  simp only [hwv, hres]

theorem detectionFrame_eq (a b : RippleDetectorSettings)
    (h : detectionFrame a = detectionFrame b) :
    a.rippleInputChannel = b.rippleInputChannel ∧ a.rmsSamples = b.rmsSamples ∧
    a.movSwitchEnabled = b.movSwitchEnabled ∧ a.isCalibrating = b.isCalibrating ∧
    a.pointsProcessed = b.pointsProcessed ∧ a.movChannChanged = b.movChannChanged := by
  simpa only [detectionFrame, Prod.mk.injEq] using h

theorem detectRipplesStep_detectionFrame (f : Int) (s : RippleDetectorSettings) (w : RmsWindow)
    (o : Oracle) : detectionFrame (detectRipplesStep f s w o).1 = detectionFrame s := by
  simp only [detectionFrame, detectRipplesStep, resetTTL_fst, countAboveThresh_eq,
    setFlagTimeThreshold_eq, sendTTL_fst, checkRefractory_eq]

theorem detectRipples_detectionFrame (f : Int) (ws : List (RmsWindow × Oracle)) :
    ∀ s : RippleDetectorSettings,
      detectionFrame (detectRipples f s ws).1 = detectionFrame s := by
  induction ws with
  | nil => intro s; rfl
  | cons x xs ih =>
    intro s
    simp only [detectRipples]
    rw [ih, detectRipplesStep_detectionFrame]

theorem evalMovementStep_detectionFrame (f : Int) (i : Nat) (s : RippleDetectorSettings)
    (w : RmsWindow) : detectionFrame (evalMovementStep f i s w).1 = detectionFrame s := by
  simp only [detectionFrame, evalMovementStep, countMovement_eq, setMovementFlags_eq,
    disablePlugin_fst, enablePlugin_fst]

theorem evalMovementLoop_detectionFrame (f : Int) (ws : List RmsWindow) :
    ∀ (i : Nat) (s : RippleDetectorSettings),
      detectionFrame (evalMovementLoop f i s ws).1 = detectionFrame s := by
  induction ws with
  | nil => intro i s; rfl
  | cons x xs ih =>
    intro i s
    simp only [evalMovementLoop]
    rw [ih, evalMovementStep_detectionFrame]

theorem detectAndGate_detectionFrame (f : Int) (s : RippleDetectorSettings)
    (ws : List (RmsWindow × Oracle)) (movWs : List RmsWindow) :
    detectionFrame (detectAndGate f s ws movWs).1 = detectionFrame s := by
  unfold detectAndGate
  simp only []
  split_ifs
  · simp only [evalMovement]
    rw [evalMovementLoop_detectionFrame, detectRipples_detectionFrame]
  · exact detectRipples_detectionFrame f ws s

/-- The branch of `handleWindows` taken while the stream is not calibrating. -/
theorem handleWindows_detecting (sqrt : ℚ → ℚ) (b : StreamBlock)
    (s : RippleDetectorSettings) (c : CalibrationBuffers) (ws : List (Int × Int))
    (vals : List (ℚ × ℚ)) (hcal : s.isCalibrating = false) :
    handleWindows sqrt b s c ws vals =
      Except.ok
        ((detectAndGate b.firstSampleInBlock { s with rmsEndIdx := lastEndIdx s ws }
            (rmsArrays b ws vals)
            (movRmsArrays { s with rmsEndIdx := lastEndIdx s ws } ws vals)).1,
         c,
         (detectAndGate b.firstSampleInBlock { s with rmsEndIdx := lastEndIdx s ws }
            (rmsArrays b ws vals)
            (movRmsArrays { s with rmsEndIdx := lastEndIdx s ws } ws vals)).2) := by
  unfold handleWindows
  have hn : ¬ (({ s with rmsEndIdx := lastEndIdx s ws } : RippleDetectorSettings).isCalibrating
      = true) := by
    show ¬ (s.isCalibrating = true)
    rw [hcal]; simp
  exact if_neg hn

theorem handleWindows_detecting_frame (sqrt : ℚ → ℚ) (b : StreamBlock)
    (s : RippleDetectorSettings) (c : CalibrationBuffers) (ws : List (Int × Int))
    (vals : List (ℚ × ℚ)) (res : RippleDetectorSettings × CalibrationBuffers × List TTLEvent)
    (hcal : s.isCalibrating = false)
    (h : handleWindows sqrt b s c ws vals = Except.ok res) :
    detectionFrame res.1 = detectionFrame s ∧ res.2.1 = c := by
  rw [handleWindows_detecting sqrt b s c ws vals hcal] at h
  rw [← Except.ok.inj h]
  exact ⟨(detectAndGate_detectionFrame _ _ _ _).trans rfl, rfl⟩

theorem calibrateWindows_calibrationFrame (vals : List (ℚ × ℚ)) :
    ∀ (s : RippleDetectorSettings) (c : CalibrationBuffers),
      calibrationFrame (calibrateWindows vals s c).1 = calibrationFrame s := by
  induction vals with
  | nil => intro s c; rfl
  | cons v rest ih =>
    intro s c
    simp only [calibrateWindows]
    rw [ih]
    unfold calibrateWindow
    split_ifs <;> rfl

theorem finishCalibration_calibrationFrame (sqrt : ℚ → ℚ) (s s' : RippleDetectorSettings)
    (c : CalibrationBuffers) (h : finishCalibration sqrt s c = some s') :
    calibrationFrame s' = calibrationFrame s ∧ s'.isCalibrating = false := by
  unfold finishCalibration at h
  simp only [Option.bind_eq_bind, Option.bind_eq_some] at h
  obtain ⟨mean, -, variance, -, h⟩ := h
  split_ifs at h
  · simp only [Option.bind_eq_bind, Option.bind_eq_some] at h
    obtain ⟨movMean, -, movVariance, -, h⟩ := h
    rw [← Option.some.inj h]
    exact ⟨rfl, rfl⟩
  · rw [← Option.some.inj h]
    exact ⟨rfl, rfl⟩

theorem calibrationBlockEnd_calibrationFrame (sqrt : ℚ → ℚ) (n : Int)
    (s s' : RippleDetectorSettings) (c : CalibrationBuffers)
    (h : calibrationBlockEnd sqrt n s c = some s') :
    calibrationFrame s' = calibrationFrame s := by
  unfold calibrationBlockEnd at h
  simp only [] at h
  split_ifs at h
  · exact (finishCalibration_calibrationFrame sqrt _ s' c h).1.trans rfl
  · rw [← Option.some.inj h]
    rfl

/-- The calibrating branch of `handleWindows` leaves the fields of `calibrationFrame`
alone and adds no event. -/
theorem handleWindows_calibrating_frame (sqrt : ℚ → ℚ) (b : StreamBlock)
    (s : RippleDetectorSettings) (c : CalibrationBuffers) (ws : List (Int × Int))
    (vals : List (ℚ × ℚ)) (res : RippleDetectorSettings × CalibrationBuffers × List TTLEvent)
    (hcal : s.isCalibrating = true) (h : handleWindows sqrt b s c ws vals = Except.ok res) :
    calibrationFrame res.1 = calibrationFrame s ∧ res.2.2 = [] := by
  unfold handleWindows at h
  simp only [hcal, if_true] at h
  split at h
  · exact absurd h (by simp)
  · rename_i s7 hs7
    have h7 := calibrationBlockEnd_calibrationFrame sqrt _ _ s7 _ hs7
    rw [calibrateWindows_calibrationFrame] at h7
    have hr : res = (s7, _, []) := (Except.ok.inj h).symm
    rw [hr]
    exact ⟨h7, rfl⟩

theorem reEnable_fst (f : Int) (sc : Bool) (s : RippleDetectorSettings) :
    (reEnable f sc s).1 =
      { s with pluginEnabled := s.pluginEnabled || (!s.movSwitchEnabled || sc) } := by
  unfold reEnable
  cases hp : s.pluginEnabled <;> cases hm : s.movSwitchEnabled <;> cases sc <;>
    simp only [Bool.not_false, Bool.not_true, Bool.and_self, Bool.and_false, Bool.false_and,
      Bool.true_and, Bool.or_false, Bool.or_true, Bool.false_or, Bool.true_or, Bool.or_self,
      Bool.false_eq_true, ↓reduceIte] <;>
    (cases s; simp_all)

/-- What lines 338-383 of `process` do to `pluginEnabled`, and the event they add. -/
theorem prepareBlock_pluginEnabled (b : StreamBlock) (sc : Bool) (st : StreamState) :
    (prepareBlock b sc st).2.1.pluginEnabled =
      (st.settings.pluginEnabled || (!st.settings.movSwitchEnabled || sc)) ∧
    (prepareBlock b sc st).2.2.2 =
      if (!st.settings.pluginEnabled && (!st.settings.movSwitchEnabled || sc)) = true then
        [{ line := OutputLine.movement, channel := st.settings.movementOutputChannel,
           sampleNumber := b.firstSampleInBlock, state := false, bufferOffset := 0 }]
      else [] := by
  constructor
  · have h1 : (prepareBlock b sc st).2.1.pluginEnabled =
        (reEnable b.firstSampleInBlock sc st.settings).1.pluginEnabled := by
      unfold prepareBlock checkCalibrate recomputeThresholds
      simp only []
      split_ifs <;> rfl
    rw [h1, reEnable_fst]
  · have h2 : (prepareBlock b sc st).2.2.2 =
        (reEnable b.firstSampleInBlock sc st.settings).2 := rfl
    rw [h2]
    unfold reEnable
    split_ifs <;> rfl

/-- The calibration check of lines 369-383 when a calibration is requested. -/
theorem prepareBlock_request (b : StreamBlock) (st : StreamState) :
    (prepareBlock b true st).1 = false ∧
    (prepareBlock b true st).2.1.isCalibrating = true ∧
    (prepareBlock b true st).2.1.pointsProcessed = 0 ∧
    (prepareBlock b true st).2.1.movChannChanged = false ∧
    (prepareBlock b true st).2.2.1 =
      { calibrationRmsValues := [], calibrationMovRmsValues := [] } := by
  unfold prepareBlock checkCalibrate
  simp only [Bool.true_or, if_true, and_self]

/-- The calibration check of lines 369-383 when no calibration is requested. -/
theorem prepareBlock_no_request (b : StreamBlock) (st : StreamState) :
    (prepareBlock b false st).1 = false ∧
    ((st.settings.movChannChanged && decide (st.settings.movementInputChannel > 0)) = true →
      (prepareBlock b false st).2.1.isCalibrating = true ∧
      (prepareBlock b false st).2.1.pointsProcessed = 0 ∧
      (prepareBlock b false st).2.1.movChannChanged = false ∧
      (prepareBlock b false st).2.2.1 =
        { calibrationRmsValues := [], calibrationMovRmsValues := [] }) ∧
    ((st.settings.movChannChanged && decide (st.settings.movementInputChannel > 0)) = false →
      (prepareBlock b false st).2.1.isCalibrating = st.settings.isCalibrating ∧
      (prepareBlock b false st).2.1.pointsProcessed = st.settings.pointsProcessed ∧
      (prepareBlock b false st).2.1.movChannChanged = st.settings.movChannChanged ∧
      (prepareBlock b false st).2.2.1 = st.calibration) := by
  have hr : ∀ s : RippleDetectorSettings,
      (reEnable b.firstSampleInBlock false s).1.movChannChanged = s.movChannChanged ∧
      (reEnable b.firstSampleInBlock false s).1.movementInputChannel = s.movementInputChannel ∧
      (reEnable b.firstSampleInBlock false s).1.isCalibrating = s.isCalibrating ∧
      (reEnable b.firstSampleInBlock false s).1.pointsProcessed = s.pointsProcessed := by
    intro s
    unfold reEnable
    split_ifs <;> exact ⟨rfl, rfl, rfl, rfl⟩
  obtain ⟨r1, r2, r3, r4⟩ := hr st.settings
  unfold prepareBlock checkCalibrate recomputeThresholds
  simp only [Bool.false_or, r1, r2]
  refine ⟨?_, ?_, ?_⟩
  · split_ifs <;> rfl
  · intro h
    rw [if_pos h]
    exact ⟨rfl, rfl, rfl, rfl⟩
  · intro h
    rw [if_neg (by rw [h]; simp)]
    exact ⟨r3, r4, rfl, rfl⟩

theorem handleWindows_detecting_eq (sqrt : ℚ → ℚ) (b : StreamBlock)
    (s : RippleDetectorSettings) (c : CalibrationBuffers) (ws : List (Int × Int))
    (vals : List (ℚ × ℚ)) (hcal : s.isCalibrating = false) :
    handleWindows sqrt b s c ws vals =
      Except.ok
        ((detectAndGate b.firstSampleInBlock (afterWindowLoop s ws) (rmsArrays b ws vals)
            (movRmsArrays (afterWindowLoop s ws) ws vals)).1,
         c,
         (detectAndGate b.firstSampleInBlock (afterWindowLoop s ws) (rmsArrays b ws vals)
            (movRmsArrays (afterWindowLoop s ws) ws vals)).2) :=
  handleWindows_detecting sqrt b s c ws vals hcal

theorem detectAndGate_off (f : Int) (s : RippleDetectorSettings)
    (ws : List (RmsWindow × Oracle)) (movWs : List RmsWindow)
    (hs : s.movSwitchEnabled = false) :
    detectAndGate f s ws movWs = detectRipples f s ws := by
  have hf := detectRipples_detectionFrame f ws s
  have hm : (detectRipples f s ws).1.movSwitchEnabled = false := by
    exact (detectionFrame_eq _ _ hf).2.2.1.trans hs
  unfold detectAndGate
  simp only [hm]
  rfl

/-- With a primary input channel, a non-empty block, the movement detection off, a
window length of at least one sample and more fuel than samples, `processStream`
gives a result for a block on which the stream is not calibrating: `detectRipples`
runs on the windows of the block. -/
theorem processStream_detecting (sqrt : ℚ → ℚ) (fuel : Nat) (sc : Bool)
    (st : StreamState) (b : StreamBlock)
    (hch : 0 ≤ st.settings.rippleInputChannel) (hN : b.numSamplesInBlock ≠ 0)
    (hmov : st.settings.movSwitchEnabled = false) (hW : 1 ≤ st.settings.rmsSamples)
    (hfuel : b.numSamplesInBlock < fuel)
    (hcal : (prepareBlock b sc st).2.1.isCalibrating = false) :
    ∃ r wv, processStream sqrt fuel sc st b = Except.ok r ∧ r.returned = false ∧
      r.shouldCalibrate = (prepareBlock b sc st).1 ∧
      blockWindows sqrt fuel b (prepareBlock b sc st).2.1 = Except.ok wv ∧
      r.state.settings =
        (detectRipples b.firstSampleInBlock
          (afterWindowLoop (prepareBlock b sc st).2.1 wv.1) (rmsArrays b wv.1 wv.2)).1 ∧
      r.events = (prepareBlock b sc st).2.2.2 ++
        (detectRipples b.firstSampleInBlock
          (afterWindowLoop (prepareBlock b sc st).2.1 wv.1) (rmsArrays b wv.1 wv.2)).2 ∧
      r.state.calibration = (prepareBlock b sc st).2.2.1 ∧
      detectionFrame r.state.settings = detectionFrame (prepareBlock b sc st).2.1 := by
  obtain ⟨c1, c2, -, -⟩ := prepareBlock_config b sc st
  have hN1 : (1 : Int) ≤ b.numSamplesInBlock := by omega
  have hW2 := (clampRmsSamples_bounds _ _ hN1 hW).1
  obtain ⟨wv, hwv, -, -⟩ := blockWindows_total sqrt fuel b (prepareBlock b sc st).2.1
    (c1.trans hmov) (by rw [c2]; exact hW2) hfuel
  have hres := handleWindows_detecting_eq sqrt b (prepareBlock b sc st).2.1
    (prepareBlock b sc st).2.2.1 wv.1 wv.2 hcal
  have hoff : (afterWindowLoop (prepareBlock b sc st).2.1 wv.1).movSwitchEnabled = false :=
    c1.trans hmov
  rw [detectAndGate_off _ _ _ _ hoff] at hres
  have hfr := handleWindows_detecting_frame sqrt b _ _ wv.1 wv.2 _ hcal hres
  exact ⟨_, wv, processStream_of_parts sqrt fuel sc st b wv _ hch hN hwv hres,
    rfl, rfl, hwv, rfl, rfl, rfl, hfr.1⟩

/-! ### Calibration after a change of the movement input channel (C21) -/

theorem movInputChanged_eq (g : Int) (s : RippleDetectorSettings) :
    movInputChanged (some g) s =
      { s with movementInputChannel := g, movChannChanged := true } := rfl

/-- C21: after `parameterValueChanged` has stored the global index 0 as the movement
input channel, the check of lines 369-383 on the next block starts no calibration when
none is requested: `isCalibrating`, `pointsProcessed` and the calibration vectors
are those from before and `movChannChanged` stays set, whereas every index above 0
starts one.  On a stream with movement detection off the block is then handled by
`detectRipples`, and the state after it is not calibrating, counts 600000 processed
samples and keeps the two collected values. -/
theorem C21_channel_zero_starts_no_calibration :
    (∀ (b : StreamBlock) (st : StreamState),
      (prepareBlock b false
        { settings := movInputChanged (some 0) st.settings, calibration := st.calibration }).2.1.isCalibrating =
        st.settings.isCalibrating ∧
      (prepareBlock b false
        { settings := movInputChanged (some 0) st.settings, calibration := st.calibration }).2.1.pointsProcessed =
        st.settings.pointsProcessed ∧
      (prepareBlock b false
        { settings := movInputChanged (some 0) st.settings, calibration := st.calibration }).2.1.movChannChanged =
        true ∧
      (prepareBlock b false
        { settings := movInputChanged (some 0) st.settings, calibration := st.calibration }).2.2.1 =
        st.calibration) ∧
    (∀ (b : StreamBlock) (st : StreamState) (g : Int), 0 < g →
      (prepareBlock b false
        { settings := movInputChanged (some g) st.settings, calibration := st.calibration }).2.1.isCalibrating =
        true ∧
      (prepareBlock b false
        { settings := movInputChanged (some g) st.settings, calibration := st.calibration }).2.1.pointsProcessed =
        0 ∧
      (prepareBlock b false
        { settings := movInputChanged (some g) st.settings, calibration := st.calibration }).2.2.1 =
        { calibrationRmsValues := [], calibrationMovRmsValues := [] }) ∧
    (∃ r, processStream Rat.sqrt 5 false reassignedStream (rampBlock 4) = Except.ok r ∧
      r.returned = false ∧ r.state.settings.isCalibrating = false ∧
      r.state.settings.pointsProcessed = 600000 ∧
      r.state.calibration =
        { calibrationRmsValues := [1, 3], calibrationMovRmsValues := [] }) := by
  refine ⟨?_, ?_, ?_⟩
  · intro b st
    obtain ⟨-, -, h⟩ := prepareBlock_no_request b
      { settings := movInputChanged (some 0) st.settings, calibration := st.calibration }
    obtain ⟨h1, h2, h3, h4⟩ := h (by simp [movInputChanged_eq])
    exact ⟨h1, h2, h3, h4⟩
  · intro b st g hg
    obtain ⟨-, h, -⟩ := prepareBlock_no_request b
      { settings := movInputChanged (some g) st.settings, calibration := st.calibration }
    obtain ⟨h1, h2, -, h4⟩ := h (by simp [movInputChanged_eq, hg])
    exact ⟨h1, h2, h4⟩
  · obtain ⟨r, wv, hr, hret, -, -, -, -, hc, hf⟩ := processStream_detecting Rat.sqrt 5 false
      reassignedStream (rampBlock 4) (by decide) (by decide) (by decide) (by decide)
      (by decide) (by decide)
    have e1 : (prepareBlock (rampBlock 4) false reassignedStream).2.1.isCalibrating =
        false := by decide
    have e2 : (prepareBlock (rampBlock 4) false reassignedStream).2.1.pointsProcessed =
        600000 := by decide
    have e3 : (prepareBlock (rampBlock 4) false reassignedStream).2.2.1 =
        { calibrationRmsValues := [1, 3], calibrationMovRmsValues := [] } := by decide
    obtain ⟨-, -, -, f4, f5, -⟩ := detectionFrame_eq _ _ hf
    exact ⟨r, hr, hret, f4.trans e1, f5.trans e2, hc.trans e3⟩

/-! ### The movement signal in the mode `EMG` (C23) -/

theorem prepareBlock_movSwitch (b : StreamBlock) (sc : Bool) (st : StreamState) :
    (prepareBlock b sc st).2.1.movSwitch = st.settings.movSwitch := by
  unfold prepareBlock checkCalibrate reEnable recomputeThresholds
  simp only []
  split_ifs <;> rfl

/-- In the mode `EMG` a non-empty block of a stream with a primary input channel ends
in the access to `emgData[0]` of line 403. -/
theorem processStream_emg (sqrt : ℚ → ℚ) (fuel : Nat) (sc : Bool) (st : StreamState)
    (b : StreamBlock) (hch : 0 ≤ st.settings.rippleInputChannel)
    (hN : b.numSamplesInBlock ≠ 0) (hmov : st.settings.movSwitchEnabled = true)
    (hemg : st.settings.movSwitch = MovSwitch.EMG) :
    processStream sqrt fuel sc st b = Except.error Fault.outOfBounds := by
  obtain ⟨c1, -, -, -⟩ := prepareBlock_config b sc st
  have c2 := prepareBlock_movSwitch b sc st
  have hbw : blockWindows sqrt fuel b (prepareBlock b sc st).2.1 =
      Except.error Fault.outOfBounds := by
    simp [blockWindows, movementSignal, c1.trans hmov, c2.trans hemg]
  unfold processStream
  rw [if_neg (by omega), if_neg hN]
  simp only [hbw]

/-- C23: in the mode `EMG` the code builds no movement sample buffer: line 403 assigns
to element 0 of the empty vector `emgData`, and `calculateRms` would read the indices
of every window from that empty vector.  In the embedding the movement signal of every
such block is the fault `outOfBounds`, and so is the result of `processStream` on
every non-empty block of a stream in this mode, for every square root and fuel: no
movement RMS value is produced. -/
theorem C23_emg_signal_is_out_of_bounds :
    (∀ (sqrt : ℚ → ℚ) (b : StreamBlock) (s : RippleDetectorSettings),
      s.movSwitchEnabled = true → s.movSwitch = MovSwitch.EMG →
      movementSignal sqrt b s = Except.error Fault.outOfBounds) ∧
    (∀ (sqrt : ℚ → ℚ) (fuel : Nat) (sc : Bool) (n : Nat), n ≠ 0 →
      processStream sqrt fuel sc emgStream (rampBlock n) =
        Except.error Fault.outOfBounds) ∧
    (∀ (sqrt : ℚ → ℚ) (a e : Int), a < e → calculateRmsVector sqrt [] a e = none) := by
  refine ⟨?_, ?_, ?_⟩
  · intro sqrt b s h1 h2
    simp [movementSignal, h1, h2]
  · intro sqrt fuel sc n hn
    exact processStream_emg sqrt fuel sc emgStream (rampBlock n) (by decide) hn rfl rfl
  · intro sqrt a e h
    unfold calculateRmsVector
    obtain ⟨k, hk⟩ : ∃ k, (e - a).toNat = k + 1 := ⟨(e - a).toNat - 1, by omega⟩
    rw [hk]
    unfold squaresFromVector
    split_ifs <;> simp

/-! ### The sample number of the gate events (C24) -/

theorem evalMovementLoop_stamp (f : Int) (ws : List RmsWindow) :
    ∀ (i : Nat) (s : RippleDetectorSettings) (e : TTLEvent),
      e ∈ (evalMovementLoop f i s ws).2 →
      ∃ k : Nat, i ≤ k ∧ k < i + ws.length ∧ e.sampleNumber = f + k ∧ e.bufferOffset = k := by
  induction ws with
  | nil => intro i s e h; simp [evalMovementLoop] at h
  | cons w rest ih =>
    intro i s e h
    simp only [evalMovementLoop, List.mem_append] at h
    rcases h with h | h
    · refine ⟨i, le_refl _, by simp, ?_⟩
      rw [evalMovementStep_events, List.mem_append] at h
      rcases h with h | h
      · split_ifs at h
        · rw [List.mem_singleton.mp h]; exact ⟨rfl, rfl⟩
        · simp at h
      · split_ifs at h
        · rw [List.mem_singleton.mp h]; exact ⟨rfl, rfl⟩
        · simp at h
    · obtain ⟨k, h1, h2, h3⟩ := ih (i + 1) _ e h
      exact ⟨k, by omega, by simp only [List.length_cons]; omega, h3⟩

/-- C24: every event of `evalMovement` carries the sample number
`firstSample + rmsIdx` and the buffer offset `rmsIdx`, where `rmsIdx` is the index of
the window in the block, not the offset `rmsIdx * W` of its first sample.  With a
window length of 4 in a block of 8 samples that starts at sample 100, movement in the
second window (samples 4 to 7) gives the disable event the sample number 101, not
104. -/
theorem C24_disable_event_stamped_with_window_index :
    (∀ (f : Int) (s : RippleDetectorSettings) (ws : List RmsWindow) (e : TTLEvent),
      e ∈ (evalMovement f s ws).2 →
      ∃ k : Nat, k < ws.length ∧ e.sampleNumber = f + k ∧ e.bufferOffset = k) ∧
    windowLoop 3 4 8 0 = some [(0, 4), (4, 8)] ∧
    movRmsArrays gatedSettings [(0, 4), (4, 8)] [(0, 1), (0, 20)] =
      [{ rms := 1, samples := 4 }, { rms := 20, samples := 4 }] ∧
    (evalMovement 100 gatedSettings
        (movRmsArrays gatedSettings [(0, 4), (4, 8)] [(0, 1), (0, 20)])).2 =
      [{ line := OutputLine.movement, channel := 2, sampleNumber := 101, state := true,
         bufferOffset := 1 }] := by
  refine ⟨?_, by decide, by decide, by decide⟩
  intro f s ws e h
  obtain ⟨k, -, h2, h3⟩ := evalMovementLoop_stamp f ws 0 s e h
  exact ⟨k, by omega, h3⟩

/-! ### Strict threshold comparisons (C25) -/

/-- C25: a window whose RMS equals the detection threshold takes the `else` branch of
lines 677-683: the counter `counterAboveThresh` is zero and `flagTimeThreshold` clear
after them, the counter is zero at the end of the iteration of `detectRipples`, and
the flag is clear there when `numSamplesTimeThreshold` is not negative.  A window
whose movement RMS equals the movement threshold takes the `else` branch of lines
600-608: `counterMovDownThresh` grows by the samples of the window,
`counterMovUpThresh` is zero and `flagMovMinTimeUp` clear; the same holds at the end
of the iteration of `evalMovement` when `minMovSamplesAboveThresh` is not negative. -/
theorem C25_threshold_comparisons_are_strict (f : Int) (i : Nat)
    (s : RippleDetectorSettings) (w m : RmsWindow) (o : Oracle)
    (hw : w.rms = s.threshold) (hm : m.rms = s.movThreshold) :
    (countAboveThresh w s).counterAboveThresh = 0 ∧
    (countAboveThresh w s).flagTimeThreshold = false ∧
    (detectRipplesStep f s w o).1.counterAboveThresh = 0 ∧
    (0 ≤ s.numSamplesTimeThreshold →
      (detectRipplesStep f s w o).1.flagTimeThreshold = false) ∧
    (countMovement m s).counterMovDownThresh = s.counterMovDownThresh + m.samples ∧
    (countMovement m s).counterMovUpThresh = 0 ∧
    (countMovement m s).flagMovMinTimeUp = false ∧
    (evalMovementStep f i s m).1.counterMovUpThresh = 0 ∧
    (0 ≤ s.minMovSamplesAboveThresh →
      (evalMovementStep f i s m).1.flagMovMinTimeUp = false ∧
      (evalMovementStep f i s m).1.counterMovDownThresh =
        s.counterMovDownThresh + m.samples) := by
  have h1 : ¬ (w.rms > s.threshold) := by rw [hw]; exact lt_irrefl _
  have h2 : ¬ (m.rms > s.movThreshold) := by rw [hm]; exact lt_irrefl _
  refine ⟨?_, ?_, ?_, ?_, ?_, ?_, ?_, ?_, ?_⟩
  · rw [countAboveThresh_eq]; simp [h1]
  · rw [countAboveThresh_eq]; simp [h1]
  · rw [detectRipplesStep_counter]; simp [h1]
  · intro hn
    rw [detectRipplesStep_flagTimeThreshold, debounced_eq]
    simp [h1, hn]
  · rw [countMovement_eq]; simp [h2]
  · rw [countMovement_eq]; simp [h2]
  · rw [countMovement_eq]; simp [h2]
  · rw [evalMovementStep_counterUp]; simp [h2]
  · intro hn
    constructor
    · rw [evalMovementStep_flagUp, movingReached_eq]
      simp [h2, hn]
    · rw [evalMovementStep_counterDown]
      simp [h2, hn]

theorem C25_threshold_comparisons_are_strict_witness :
    (({ rms := 5, samples := 4 } : RmsWindow).rms = excursionSettings.threshold) ∧
    (({ rms := 10, samples := 4 } : RmsWindow).rms = excursionSettings.movThreshold) ∧
    (detectRipplesStep 0 excursionSettings { rms := 5, samples := 4 }
      ⟨0, 0, 0, 0, 50⟩).1.counterAboveThresh = 0 ∧
    (detectRipplesStep 0 excursionSettings { rms := 5, samples := 4 }
      ⟨0, 0, 0, 0, 50⟩).1.flagTimeThreshold = false ∧
    (evalMovementStep 0 0 excursionSettings { rms := 10, samples := 4 }).1.counterMovUpThresh
      = 0 ∧
    (evalMovementStep 0 0 excursionSettings { rms := 10, samples := 4 }).1.flagMovMinTimeUp
      = false ∧
    (evalMovementStep 0 0 excursionSettings { rms := 10, samples := 4 }).1.counterMovDownThresh
      = excursionSettings.counterMovDownThresh + 4 := by
  have h := C25_threshold_comparisons_are_strict 0 0 excursionSettings
    { rms := 5, samples := 4 } { rms := 10, samples := 4 } ⟨0, 0, 0, 0, 50⟩ rfl rfl
  exact ⟨rfl, rfl, h.2.2.1, h.2.2.2.1 (by decide), h.2.2.2.2.2.2.2.1,
    (h.2.2.2.2.2.2.2.2 (by decide)).1, (h.2.2.2.2.2.2.2.2 (by decide)).2⟩

/-! ### The clamp of the window length is stored (C26) -/

theorem clampRmsSamples_eq_min (W N : Int) : clampRmsSamples W N = min W N := by
  unfold clampRmsSamples
  split_ifs with h
  · rw [min_eq_right (by omega)]
  · rw [min_eq_left (by omega)]

/-- After a block that `processStream` handles without `return`, the stored window
length is the clamped one and the primary input channel is the same. -/
theorem processStream_rmsSamples (sqrt : ℚ → ℚ) (fuel : Nat) (sc : Bool) (st : StreamState)
    (b : StreamBlock) (r : StreamResult)
    (h : processStream sqrt fuel sc st b = Except.ok r) (hret : r.returned = false) :
    r.state.settings.rmsSamples =
      clampRmsSamples st.settings.rmsSamples b.numSamplesInBlock ∧
    r.state.settings.rippleInputChannel = st.settings.rippleInputChannel := by
  obtain ⟨-, -, wv, res, -, hres, -, hs, -, -⟩ := processStream_ok sqrt fuel sc st b r h hret
  obtain ⟨-, c2, c3, -⟩ := prepareBlock_config b sc st
  rw [hs]
  cases hcal : (prepareBlock b sc st).2.1.isCalibrating
  · obtain ⟨hf, -⟩ := handleWindows_detecting_frame sqrt b _ _ _ _ res hcal hres
    obtain ⟨f1, f2, -⟩ := detectionFrame_eq _ _ hf
    exact ⟨f2.trans c2, f1.trans c3⟩
  · obtain ⟨hf, -⟩ := handleWindows_calibrating_frame sqrt b _ _ _ _ res hcal hres
    simp only [calibrationFrame, Prod.mk.injEq] at hf
    exact ⟨hf.2.1.trans c2, hf.1.trans c3⟩

theorem clampedOver_le (blocks : List StreamBlock) :
    ∀ (W : Int), clampedOver W blocks ≤ W ∧
      ∀ b ∈ blocks, clampedOver W blocks ≤ b.numSamplesInBlock := by
  induction blocks with
  | nil => intro W; exact ⟨le_refl _, fun b hb => absurd hb (List.not_mem_nil b)⟩
  | cons x rest ih =>
    intro W
    obtain ⟨h1, h2⟩ := ih (clampRmsSamples W x.numSamplesInBlock)
    have e : clampedOver W (x :: rest) =
        clampedOver (clampRmsSamples W x.numSamplesInBlock) rest := rfl
    rw [e]
    have hc := clampRmsSamples_eq_min W x.numSamplesInBlock
    have hl : clampRmsSamples W x.numSamplesInBlock ≤ W := by
      rw [hc]; exact min_le_left _ _
    have hr : clampRmsSamples W x.numSamplesInBlock ≤ x.numSamplesInBlock := by
      rw [hc]; exact min_le_right _ _
    refine ⟨le_trans h1 hl, ?_⟩
    intro b hb
    rcases List.mem_cons.mp hb with hb | hb
    · rw [hb]; exact le_trans h1 hr
    · exact h2 b hb

theorem clampedOver_mem (blocks : List StreamBlock) :
    ∀ (W : Int), clampedOver W blocks = W ∨
      ∃ b ∈ blocks, clampedOver W blocks = b.numSamplesInBlock := by
  induction blocks with
  | nil => intro W; exact Or.inl rfl
  | cons x rest ih =>
    intro W
    have e : clampedOver W (x :: rest) =
        clampedOver (clampRmsSamples W x.numSamplesInBlock) rest := rfl
    rw [e]
    rcases ih (clampRmsSamples W x.numSamplesInBlock) with h | ⟨b, hb, h⟩
    · rw [h]
      unfold clampRmsSamples
      split_ifs
      · exact Or.inr ⟨x, List.mem_cons_self _ _, rfl⟩
      · exact Or.inl rfl
    · exact Or.inr ⟨b, List.mem_cons_of_mem _ hb, h⟩

theorem processBlocks_rmsSamples (sqrt : ℚ → ℚ) (fuel : Nat) (blocks : List StreamBlock) :
    ∀ (sc : Bool) (st : StreamState) (out : Bool × StreamState × List TTLEvent),
      0 ≤ st.settings.rippleInputChannel →
      (∀ b ∈ blocks, b.numSamplesInBlock ≠ 0) →
      processBlocks sqrt fuel sc st blocks = Except.ok out →
      out.2.1.settings.rmsSamples = clampedOver st.settings.rmsSamples blocks := by
  induction blocks with
  | nil =>
    intro sc st out _ _ h
    simp only [processBlocks] at h
    rw [← Except.ok.inj h]
    rfl
  | cons x rest ih =>
    intro sc st out hch hN h
    simp only [processBlocks] at h
    split at h
    · exact absurd h (by simp)
    · rename_i r hr
      split at h
      · exact absurd h (by simp)
      · rename_i out' hout'
        have hret : r.returned = false := by
          unfold processStream at hr
          rw [if_neg (by omega), if_neg (hN x (List.mem_cons_self _ _))] at hr
          simp only [] at hr
          split at hr
          · exact absurd hr (by simp)
          · split at hr
            · exact absurd hr (by simp)
            · rw [← Except.ok.inj hr]
        obtain ⟨k1, k2⟩ := processStream_rmsSamples sqrt fuel sc st x r hr hret
        have := ih r.shouldCalibrate r.state out' (by rw [k2]; exact hch)
          (fun b hb => hN b (List.mem_cons_of_mem _ hb)) hout'
        rw [← Except.ok.inj h]
        show out'.2.1.settings.rmsSamples = _
        rw [this, k1]
        rfl

/-- A stream with a primary input channel, movement detection off, no pending change
of the movement channel and no calibration running handles a non-empty block without
a calibration request by `detectRipples`, and is such a stream again afterwards. -/
theorem processStream_quiet (sqrt : ℚ → ℚ) (fuel : Nat) (st : StreamState) (b : StreamBlock)
    (hch : 0 ≤ st.settings.rippleInputChannel) (hN : b.numSamplesInBlock ≠ 0)
    (hmov : st.settings.movSwitchEnabled = false) (hW : 1 ≤ st.settings.rmsSamples)
    (hfuel : b.numSamplesInBlock < fuel)
    (hchg : st.settings.movChannChanged = false)
    (hcal : st.settings.isCalibrating = false) :
    ∃ r, processStream sqrt fuel false st b = Except.ok r ∧ r.returned = false ∧
      r.shouldCalibrate = false ∧
      0 ≤ r.state.settings.rippleInputChannel ∧
      r.state.settings.movSwitchEnabled = false ∧
      1 ≤ r.state.settings.rmsSamples ∧
      r.state.settings.movChannChanged = false ∧
      r.state.settings.isCalibrating = false ∧
      r.state.settings.pointsProcessed = st.settings.pointsProcessed ∧
      r.state.calibration = st.calibration ∧
      RunsDetection sqrt fuel (st, b) r.state := by
  obtain ⟨p1, -, p3⟩ := prepareBlock_no_request b st
  obtain ⟨q1, q2, q3, q4⟩ := p3 (by rw [hchg]; rfl)
  obtain ⟨c1, c2, c3, -⟩ := prepareBlock_config b false st
  have hN1 : (1 : Int) ≤ b.numSamplesInBlock := by omega
  obtain ⟨r, wv, hr, hret, hsc, hwv, hs, -, hc, hf⟩ := processStream_detecting sqrt fuel false
    st b hch hN hmov hW hfuel (q1.trans hcal)
  obtain ⟨f1, f2, f3, f4, f5, f6⟩ := detectionFrame_eq _ _ hf
  refine ⟨r, hr, hret, hsc.trans p1, by rw [f1, c3]; exact hch, f3.trans (c1.trans hmov),
    ?_, f6.trans (q3.trans hchg), f4.trans (q1.trans hcal), f5.trans q2, hc.trans q4, ?_⟩
  · rw [f2, c2]; exact (clampRmsSamples_bounds _ _ hN1 hW).1
  · refine ⟨wv, hwv, ?_⟩
    rw [detectAndGate_off _ _ _ _ (show (afterWindowLoop (prepareBlock b false st).2.1
      wv.1).movSwitchEnabled = false from c1.trans hmov)]
    exact hs

theorem processBlocks_quiet (sqrt : ℚ → ℚ) (fuel : Nat) (blocks : List StreamBlock) :
    ∀ (st : StreamState), 0 ≤ st.settings.rippleInputChannel →
      st.settings.movSwitchEnabled = false → 1 ≤ st.settings.rmsSamples →
      st.settings.movChannChanged = false → st.settings.isCalibrating = false →
      (∀ b ∈ blocks, b.numSamplesInBlock ≠ 0 ∧ b.numSamplesInBlock < fuel) →
      ∃ out, processBlocks sqrt fuel false st blocks = Except.ok out := by
  induction blocks with
  | nil => intro st _ _ _ _ _ _; exact ⟨_, rfl⟩
  | cons x rest ih =>
    intro st hch hmov hW hchg hcal hb
    obtain ⟨hN, hfuel⟩ := hb x (List.mem_cons_self _ _)
    obtain ⟨r, hr, -, hsc, r1, r2, r3, r4, r5, -⟩ := processStream_quiet sqrt fuel st x hch hN
      hmov hW hfuel hchg hcal
    obtain ⟨out, hout⟩ := ih r.state r1 r2 r3 r4 r5
      (fun b hb' => hb b (List.mem_cons_of_mem _ hb'))
    refine ⟨(out.1, out.2.1, r.events ++ out.2.2), ?_⟩
    simp only [processBlocks, hr, hsc, hout]

/-- C26: after `process` has handled a block of `N ≥ 1` samples for a stream with a
primary input channel, the stored window length `rmsSamples` is `min(W, N)` of the
stored length `W` before the block, whichever branch handled the windows; over
consecutive blocks it is the minimum of `W` and the sample counts of all of them, so
it never grows and is at most the length of every block seen. -/
theorem C26_clamp_overwrites_window_length (sqrt : ℚ → ℚ) (fuel : Nat) (sc : Bool)
    (st : StreamState) (b : StreamBlock) (rest : List StreamBlock) (r : StreamResult)
    (out : Bool × StreamState × List TTLEvent)
    (hW : 1 ≤ st.settings.rmsSamples)
    (hch : 0 ≤ st.settings.rippleInputChannel)
    (hN : ∀ x ∈ b :: rest, x.numSamplesInBlock ≠ 0)
    (h : processStream sqrt fuel sc st b = Except.ok r)
    (hrest : processBlocks sqrt fuel sc st (b :: rest) = Except.ok out) :
    r.state.settings.rmsSamples = min st.settings.rmsSamples (b.numSamplesInBlock : Int) ∧
    1 ≤ r.state.settings.rmsSamples ∧
    out.2.1.settings.rmsSamples = clampedOver st.settings.rmsSamples (b :: rest) ∧
    out.2.1.settings.rmsSamples ≤ st.settings.rmsSamples ∧
    (∀ x ∈ b :: rest, out.2.1.settings.rmsSamples ≤ x.numSamplesInBlock) ∧
    (out.2.1.settings.rmsSamples = st.settings.rmsSamples ∨
      ∃ x ∈ b :: rest, out.2.1.settings.rmsSamples = x.numSamplesInBlock) := by
  have hret : r.returned = false := by
    unfold processStream at h
    rw [if_neg (by omega), if_neg (hN b (List.mem_cons_self _ _))] at h
    simp only [] at h
    split at h
    · exact absurd h (by simp)
    · split at h
      · exact absurd h (by simp)
      · rw [← Except.ok.inj h]
  obtain ⟨k1, -⟩ := processStream_rmsSamples sqrt fuel sc st b r h hret
  have k3 := processBlocks_rmsSamples sqrt fuel (b :: rest) sc st out hch hN hrest
  obtain ⟨k4, k5⟩ := clampedOver_le (b :: rest) st.settings.rmsSamples
  have hb1 : (1 : Int) ≤ b.numSamplesInBlock := by
    have := hN b (List.mem_cons_self _ _)
    omega
  refine ⟨by rw [k1, clampRmsSamples_eq_min], ?_, k3, by rw [k3]; exact k4, ?_, ?_⟩
  · rw [k1]; exact (clampRmsSamples_bounds _ _ hb1 hW).1
  · intro x hx
    rw [k3]
    exact k5 x hx
  · rw [k3]
    exact clampedOver_mem (b :: rest) st.settings.rmsSamples

theorem C26_clamp_overwrites_window_length_witness :
    ∃ r out, processStream Rat.sqrt 301 false idleStream (rampBlock 4) = Except.ok r ∧
      processBlocks Rat.sqrt 301 false idleStream [rampBlock 4, rampBlock 300] =
        Except.ok out ∧
      idleStream.settings.rmsSamples = 128 ∧
      r.state.settings.rmsSamples = 4 ∧ out.2.1.settings.rmsSamples = 4 := by
  obtain ⟨r, hr, -⟩ := processStream_quiet Rat.sqrt 301 idleStream (rampBlock 4)
    (by decide) (by decide) (by decide) (by decide) (by decide) (by decide) (by decide)
  obtain ⟨out, hout⟩ := processBlocks_quiet Rat.sqrt 301 [rampBlock 4, rampBlock 300]
    idleStream (by decide) (by decide) (by decide) (by decide) (by decide) (by decide)
  have h := C26_clamp_overwrites_window_length Rat.sqrt 301 false idleStream (rampBlock 4)
    [rampBlock 300] r out (by decide) (by decide) (by decide) hr hout
  exact ⟨r, out, hr, hout, rfl, h.1.trans (by decide), h.2.2.1.trans (by decide)⟩

/-! ### A calibration request and the streams of one block (C27) -/

/-- One iteration of the loop over the streams whose body does not `return`. -/
theorem process_cons (sqrt : ℚ → ℚ) (fuel : Nat) (sc : Bool) (st : StreamState)
    (b : StreamBlock) (rest : List (StreamState × StreamBlock)) (r : StreamResult)
    (hen : b.enable_stream = true)
    (hr : processStream sqrt fuel sc st b = Except.ok r) (hret : r.returned = false) :
    process sqrt fuel sc ((st, b) :: rest) =
      match process sqrt fuel r.shouldCalibrate rest with
      | Except.error f => Except.error f
      | Except.ok out => Except.ok (out.1, r.state :: out.2.1, r.events ++ out.2.2) := by
  rw [process]
  simp only [hen, if_true, hr, hret, Bool.false_eq_true, if_false]

/-- The body of the stream loop on an enabled stream with a primary input channel and
a non-empty block does not `return`. -/
theorem processStream_not_returned (sqrt : ℚ → ℚ) (fuel : Nat) (sc : Bool)
    (st : StreamState) (b : StreamBlock) (r : StreamResult)
    (hch : 0 ≤ st.settings.rippleInputChannel) (hN : b.numSamplesInBlock ≠ 0)
    (hr : processStream sqrt fuel sc st b = Except.ok r) : r.returned = false := by
  unfold processStream at hr
  rw [if_neg (by omega), if_neg hN] at hr
  simp only [] at hr
  split at hr
  · exact absurd hr (by simp)
  · split at hr
    · exact absurd hr (by simp)
    · rw [← Except.ok.inj hr]

/-- Without a calibration request, every stream of the block is handled by the body of
the loop without a request, and none is pending afterwards. -/
theorem process_no_request (sqrt : ℚ → ℚ) (fuel : Nat)
    (l : List (StreamState × StreamBlock)) :
    ∀ (out : Bool × List StreamState × List TTLEvent),
      (∀ x ∈ l, x.2.enable_stream = true ∧ 0 ≤ x.1.settings.rippleInputChannel ∧
        x.2.numSamplesInBlock ≠ 0) →
      process sqrt fuel false l = Except.ok out →
      out.1 = false ∧ List.Forall₂ (HandledWithoutRequest sqrt fuel) l out.2.1 := by
  induction l with
  | nil =>
    intro out _ h
    simp only [process] at h
    rw [← Except.ok.inj h]
    exact ⟨rfl, List.Forall₂.nil⟩
  | cons x rest ih =>
    intro out hl h
    obtain ⟨hen, hch, hN⟩ := hl x (List.mem_cons_self _ _)
    rw [process] at h
    simp only [hen, if_true] at h
    split at h
    · exact absurd h (by simp)
    · rename_i r hr
      have hret := processStream_not_returned sqrt fuel false x.1 x.2 r hch hN hr
      have hsc : r.shouldCalibrate = false := by
        obtain ⟨-, -, wv, res, -, -, hs, -⟩ := processStream_ok sqrt fuel false x.1 x.2 r hr hret
        exact hs.trans (prepareBlock_no_request x.2 x.1).1
      simp only [hret, Bool.false_eq_true, if_false, hsc] at h
      split at h
      · exact absurd h (by simp)
      · rename_i out' hout'
        obtain ⟨i1, i2⟩ := ih out' (fun y hy => hl y (List.mem_cons_of_mem _ hy)) hout'
        rw [← Except.ok.inj h]
        exact ⟨i1, List.Forall₂.cons ⟨r, hr, hret, rfl⟩ i2⟩

/-- What a stream handled without a calibration request keeps when its movement
channel did not change. -/
theorem handledWithoutRequest_keeps (sqrt : ℚ → ℚ) (fuel : Nat)
    (x : StreamState × StreamBlock) (st' : StreamState)
    (h : HandledWithoutRequest sqrt fuel x st')
    (hchg : x.1.settings.movChannChanged = false) :
    (prepareBlock x.2 false x.1).2.1.isCalibrating = x.1.settings.isCalibrating ∧
    (prepareBlock x.2 false x.1).2.1.pointsProcessed = x.1.settings.pointsProcessed ∧
    (prepareBlock x.2 false x.1).2.2.1 = x.1.calibration ∧
    (x.1.settings.isCalibrating = false →
      st'.settings.isCalibrating = false ∧ st'.calibration = x.1.calibration ∧
      RunsDetection sqrt fuel x st') := by
  obtain ⟨r, hr, hret, hst⟩ := h
  obtain ⟨-, -, p3⟩ := prepareBlock_no_request x.2 x.1
  obtain ⟨q1, q2, -, q4⟩ := p3 (by rw [hchg]; rfl)
  refine ⟨q1, q2, q4, ?_⟩
  intro hcal
  obtain ⟨-, -, wv, res, hwv, hres, -, hs, hc, -⟩ :=
    processStream_ok sqrt fuel false x.1 x.2 r hr hret
  have hcal' : (prepareBlock x.2 false x.1).2.1.isCalibrating = false := q1.trans hcal
  obtain ⟨hf, hcb⟩ := handleWindows_detecting_frame sqrt x.2 _ _ _ _ res hcal' hres
  obtain ⟨-, -, -, f4, -, -⟩ := detectionFrame_eq _ _ hf
  rw [handleWindows_detecting_eq sqrt x.2 _ _ wv.1 wv.2 hcal'] at hres
  rw [hst]
  refine ⟨by rw [hs]; exact f4.trans hcal', by rw [hc, hcb]; exact q4, wv, hwv, ?_⟩
  rw [hs, ← Except.ok.inj hres]

/-- C27: with a calibration request pending, the first enabled stream of the block
(primary input channel assigned, block not empty) starts a calibration pass at the
check of lines 369-383 and clears the member `shouldCalibrate`; no request is pending
after the block, and every later stream is handled exactly as without a request.  A
later stream whose movement channel did not change keeps `isCalibrating`,
`pointsProcessed` and its calibration vectors at that check, and when it is not
calibrating it stays so and its new settings are those that `detectRipples` (and
`evalMovement`) leave on the windows of the block. -/
theorem C27_only_first_stream_calibrates (sqrt : ℚ → ℚ) (fuel : Nat) (st1 : StreamState)
    (b1 : StreamBlock) (rest : List (StreamState × StreamBlock))
    (out : Bool × List StreamState × List TTLEvent)
    (hen : b1.enable_stream = true) (hch : 0 ≤ st1.settings.rippleInputChannel)
    (hN : b1.numSamplesInBlock ≠ 0)
    (hrest : ∀ x ∈ rest, x.2.enable_stream = true ∧ 0 ≤ x.1.settings.rippleInputChannel ∧
      x.2.numSamplesInBlock ≠ 0)
    (h : process sqrt fuel true ((st1, b1) :: rest) = Except.ok out) :
    out.1 = false ∧
    (prepareBlock b1 true st1).2.1.isCalibrating = true ∧
    (prepareBlock b1 true st1).2.1.pointsProcessed = 0 ∧
    (prepareBlock b1 true st1).2.2.1 =
      { calibrationRmsValues := [], calibrationMovRmsValues := [] } ∧
    (∃ r1, processStream sqrt fuel true st1 b1 = Except.ok r1 ∧ r1.shouldCalibrate = false ∧
      out.2.1.head? = some r1.state) ∧
    List.Forall₂
      (fun x st' =>
        HandledWithoutRequest sqrt fuel x st' ∧
        (x.1.settings.movChannChanged = false →
          (prepareBlock x.2 false x.1).2.1.isCalibrating = x.1.settings.isCalibrating ∧
          (prepareBlock x.2 false x.1).2.1.pointsProcessed = x.1.settings.pointsProcessed ∧
          (prepareBlock x.2 false x.1).2.2.1 = x.1.calibration ∧
          (x.1.settings.isCalibrating = false →
            st'.settings.isCalibrating = false ∧ st'.calibration = x.1.calibration ∧
            RunsDetection sqrt fuel x st')))
      rest out.2.1.tail := by
  obtain ⟨p1, p2, p3, -, p5⟩ := prepareBlock_request b1 st1
  rw [process] at h
  simp only [hen, if_true] at h
  split at h
  · exact absurd h (by simp)
  · rename_i r1 hr1
    have hret := processStream_not_returned sqrt fuel true st1 b1 r1 hch hN hr1
    have hsc : r1.shouldCalibrate = false := by
      obtain ⟨-, -, wv, res, -, -, hs, -⟩ := processStream_ok sqrt fuel true st1 b1 r1 hr1 hret
      exact hs.trans p1
    simp only [hret, Bool.false_eq_true, if_false, hsc] at h
    split at h
    · exact absurd h (by simp)
    · rename_i out' hout'
      obtain ⟨i1, i2⟩ := process_no_request sqrt fuel rest out' hrest hout'
      rw [← Except.ok.inj h]
      refine ⟨i1, p2, p3, p5, ⟨r1, hr1, hsc, rfl⟩, ?_⟩
      show List.Forall₂ _ rest out'.2.1
      exact List.Forall₂.imp
        (fun x st' hx => ⟨hx, handledWithoutRequest_keeps sqrt fuel x st' hx⟩) i2

theorem C27_only_first_stream_calibrates_witness :
    ∃ out, process Rat.sqrt 5 true
        [(idleStream, rampBlock 4), (baselineStream, rampBlock 4)] = Except.ok out ∧
      out.1 = false ∧
      (prepareBlock (rampBlock 4) true idleStream).2.1.isCalibrating = true ∧
      List.Forall₂
        (fun x st' =>
          st'.settings.isCalibrating = false ∧ st'.calibration = x.1.calibration ∧
          RunsDetection Rat.sqrt 5 x st')
        [(baselineStream, rampBlock 4)] out.2.1.tail := by
  obtain ⟨r1, hr1, hret1, hsc1, -⟩ := processStream_calibrating_continues Rat.sqrt 5 true
    idleStream (rampBlock 4) (by decide) (by decide) (by decide) (by decide) (by decide)
    (by decide) (by decide)
  have hsc1' : r1.shouldCalibrate = false :=
    hsc1.trans (prepareBlock_request (rampBlock 4) idleStream).1
  obtain ⟨r2, hr2, hret2, hsc2, -⟩ := processStream_quiet Rat.sqrt 5 baselineStream
    (rampBlock 4) (by decide) (by decide) (by decide) (by decide) (by decide) (by decide)
    (by decide)
  have h2 : process Rat.sqrt 5 false [(baselineStream, rampBlock 4)] =
      Except.ok (false, [r2.state], r2.events ++ []) := by
    rw [process_cons Rat.sqrt 5 false baselineStream (rampBlock 4) [] r2 rfl hr2 hret2, hsc2]
    rfl
  have h1 : process Rat.sqrt 5 true
      [(idleStream, rampBlock 4), (baselineStream, rampBlock 4)] =
      Except.ok (false, [r1.state, r2.state], r1.events ++ (r2.events ++ [])) := by
    rw [process_cons Rat.sqrt 5 true idleStream (rampBlock 4) _ r1 rfl hr1 hret1, hsc1', h2]
  have h := C27_only_first_stream_calibrates Rat.sqrt 5 idleStream (rampBlock 4)
    [(baselineStream, rampBlock 4)] _ rfl (by decide) (by decide)
    (by
      intro x hx
      rw [List.mem_singleton.mp hx]
      exact ⟨rfl, by decide, by decide⟩)
    h1
  refine ⟨_, h1, h.1, h.2.1, ?_⟩
  obtain ⟨hx, -⟩ := List.forall₂_cons.mp h.2.2.2.2.2
  obtain ⟨-, -, -, k⟩ := hx.2 (by decide)
  exact List.Forall₂.cons (k (by decide)) List.Forall₂.nil

/-! ### `process` returns a result in the mode `ACC` -/

theorem accelRow_length (data : Int → Int → ℚ) (ch : Int) (n : Nat) :
    ((List.range n).map (fun i => data ch i)).length = n := by
  simp [Function.comp_def]

theorem accelMagnitude_total (sqrt : ℚ → ℚ) (data : Int → Int → ℚ) (n : Nat)
    (s : RippleDetectorSettings) (a b c : Int) (haux : s.auxChannelIndices = [a, b, c]) :
    ∃ l, accelMagnitude sqrt data n s = some l ∧ l.length = n := by
  obtain ⟨l, hl, hlen, -⟩ := accelModFrom_spec sqrt
    ((List.range n).map (fun i => data a i)) ((List.range n).map (fun i => data b i))
    ((List.range n).map (fun i => data c i)) n 0
    (by rw [accelRow_length]; omega) (by rw [accelRow_length]; omega)
    (by rw [accelRow_length]; omega)
  refine ⟨l, ?_, hlen⟩
  unfold accelMagnitude calculateAccelMod
  rw [haux]
  simpa using hl

theorem squaresFromVector_some (data : List ℚ) :
    ∀ (count : Nat) (idx : Int) (sum : ℚ), 0 ≤ idx → idx + count ≤ data.length →
      ∃ v, squaresFromVector data count idx sum = some v := by
  intro count
  induction count with
  | zero => intro idx sum _ _; exact ⟨sum, rfl⟩
  | succ n ih =>
    intro idx sum h0 h1
    have hlt : idx.toNat < data.length := by
      have : idx < data.length := by push_cast at h1; omega
      omega
    obtain ⟨v, hv⟩ := ih (idx + 1) (sum + (data.get ⟨idx.toNat, hlt⟩) ^ 2) (by omega)
      (by push_cast at h1 ⊢; omega)
    refine ⟨v, ?_⟩
    unfold squaresFromVector
    rw [if_pos h0, List.getElem?_eq_getElem hlt]
    exact hv

theorem calculateRmsVector_some (sqrt : ℚ → ℚ) (data : List ℚ) (a e : Int)
    (h0 : 0 ≤ a) (h1 : a < e) (h2 : e ≤ data.length) :
    ∃ v, calculateRmsVector sqrt data a e = some v := by
  obtain ⟨v, hv⟩ := squaresFromVector_some data (e - a).toNat a 0 h0
    (by rw [Int.toNat_of_nonneg (by omega)]; omega)
  have hne : ((e - a : Int) : ℚ) ≠ 0 := by
    have : e - a ≠ 0 := by omega
    exact_mod_cast this
  refine ⟨sqrt (v / ((e - a : Int) : ℚ)), ?_⟩
  unfold calculateRmsVector divide
  rw [hv]
  simp only [Option.some_bind, if_neg hne, Option.map_some']

theorem windowLoop_bounds (W N : Int) (hW : 1 ≤ W) :
    ∀ (fuel : Nat) (a : Int) (ws : List (Int × Int)), 0 ≤ a →
      windowLoop fuel W N a = some ws → ∀ w ∈ ws, 0 ≤ w.1 ∧ w.1 < w.2 ∧ w.2 ≤ N := by
  intro fuel
  induction fuel with
  | zero => intro a ws _ h; simp [windowLoop] at h
  | succ fuel ih =>
    intro a ws h0 h
    unfold windowLoop at h
    split_ifs at h with ha
    · simp only [Option.map_eq_some'] at h
      obtain ⟨rest, hrest, hws⟩ := h
      rw [← hws]
      intro w hw
      rcases List.mem_cons.mp hw with hw | hw
      · rw [hw]
        show 0 ≤ a ∧ a < windowEnd W N a ∧ windowEnd W N a ≤ N
        rw [windowEnd_eq_min]
        exact ⟨h0, lt_min (by omega) ha, min_le_right _ _⟩
      · exact ih _ rest (by omega) hrest w hw
    · rw [← Option.some.inj h]
      intro w hw
      simp at hw

theorem allWindowValues_total_gated (sqrt : ℚ → ℚ) (b : StreamBlock)
    (s : RippleDetectorSettings) (movement : List ℚ) (hmov : s.movSwitchEnabled = true) :
    ∀ (ws : List (Int × Int)), (∀ w ∈ ws, 0 ≤ w.1 ∧ w.1 < w.2 ∧ w.2 ≤ movement.length) →
      ∃ vals, allWindowValues sqrt b s movement ws = Except.ok vals ∧
        vals.length = ws.length := by
  intro ws
  induction ws with
  | nil => intro _; exact ⟨[], rfl, rfl⟩
  | cons w rest ih =>
    intro h
    obtain ⟨vals, hvals, hlen⟩ := ih (fun x hx => h x (List.mem_cons_of_mem _ hx))
    obtain ⟨w0, w1, w2⟩ := h w (List.mem_cons_self _ _)
    obtain ⟨v, hv⟩ := calculateRms_some sqrt (b.data s.rippleInputChannel) w.1 w.2 w1
    obtain ⟨m, hm⟩ := calculateRmsVector_some sqrt movement w.1 w.2 w0 w1 w2
    refine ⟨(v, m) :: vals, ?_, by simp [hlen]⟩
    simp [allWindowValues, windowValues, hv, hm, hmov, hvals]

theorem blockWindows_total_acc (sqrt : ℚ → ℚ) (fuel : Nat) (b : StreamBlock)
    (s : RippleDetectorSettings) (x y z : Int) (hmov : s.movSwitchEnabled = true)
    (hacc : s.movSwitch = MovSwitch.ACC) (haux : s.auxChannelIndices = [x, y, z])
    (hW : 1 ≤ s.rmsSamples) (hfuel : b.numSamplesInBlock < fuel) :
    ∃ wv, blockWindows sqrt fuel b s = Except.ok wv ∧ wv.2.length = wv.1.length ∧
      windowLoop fuel s.rmsSamples b.numSamplesInBlock 0 = some wv.1 := by
  obtain ⟨l, hl, hllen⟩ := accelMagnitude_total sqrt b.data b.numSamplesInBlock s x y z haux
  obtain ⟨ws, hws, -⟩ := windowLoop_spec s.rmsSamples b.numSamplesInBlock hW fuel 0
    (by simpa using hfuel)
  obtain ⟨vals, hvals, hlen⟩ := allWindowValues_total_gated sqrt b s l hmov ws
    (by
      intro w hw
      rw [hllen]
      exact windowLoop_bounds _ _ hW fuel 0 ws (le_refl _) hws w hw)
  refine ⟨(ws, vals), ?_, hlen, hws⟩
  simp [blockWindows, movementSignal, hmov, hacc, hl, hws, hvals]

theorem calibrateWindows_movValues (vals : List (ℚ × ℚ)) :
    ∀ (s : RippleDetectorSettings) (c : CalibrationBuffers), s.movSwitchEnabled = true →
      (calibrateWindows vals s c).2.calibrationMovRmsValues =
        c.calibrationMovRmsValues ++ vals.map Prod.snd := by
  induction vals with
  | nil => intro s c _; simp [calibrateWindows]
  | cons v rest ih =>
    intro s c hs
    have h1 : (calibrateWindow v.1 v.2 s c).1.movSwitchEnabled = true := by
      unfold calibrateWindow
      rw [if_pos hs]
      exact hs
    have h2 : (calibrateWindow v.1 v.2 s c).2.calibrationMovRmsValues =
        c.calibrationMovRmsValues ++ [v.2] := by
      unfold calibrateWindow
      rw [if_pos hs]
    simp only [calibrateWindows]
    rw [ih _ _ h1, h2]
    simp

theorem finishCalibration_total_gated (sqrt : ℚ → ℚ) (s : RippleDetectorSettings)
    (c : CalibrationBuffers) (hmov : s.movSwitchEnabled = true)
    (hlen : 2 ≤ c.calibrationRmsValues.length)
    (hlenmov : 2 ≤ c.calibrationMovRmsValues.length) :
    ∃ s', finishCalibration sqrt s c = some s' ∧ s'.isCalibrating = false := by
  have h0 : (((c.calibrationRmsValues.length : Int) : ℚ)) ≠ 0 := by
    have : (c.calibrationRmsValues.length : Int) ≠ 0 := by omega
    exact_mod_cast this
  have h1 : (((c.calibrationRmsValues.length : Int) : ℚ)) - 1 ≠ 0 := by
    have : (c.calibrationRmsValues.length : Int) - 1 ≠ 0 := by omega
    exact_mod_cast this
  have h2 : (((c.calibrationMovRmsValues.length : Int) : ℚ)) ≠ 0 := by
    have : (c.calibrationMovRmsValues.length : Int) ≠ 0 := by omega
    exact_mod_cast this
  have h3 : (((c.calibrationMovRmsValues.length : Int) : ℚ)) - 1 ≠ 0 := by
    have : (c.calibrationMovRmsValues.length : Int) - 1 ≠ 0 := by omega
    exact_mod_cast this
  unfold finishCalibration divide
  simp only [Option.bind_eq_bind, if_neg h0, if_neg h1, if_neg h2, if_neg h3,
    Option.some_bind, hmov, if_true]
  exact ⟨_, rfl, rfl⟩

theorem prepareBlock_auxChannelIndices (b : StreamBlock) (sc : Bool) (st : StreamState) :
    (prepareBlock b sc st).2.1.auxChannelIndices = st.settings.auxChannelIndices := by
  unfold prepareBlock checkCalibrate reEnable recomputeThresholds
  simp only []
  split_ifs <;> rfl

/-- A block handled while the stream is calibrating with movement detection on, that
reaches `calibrationPoints` with at least two values of each signal collected. -/
theorem handleWindows_calibrating_finishes_gated (sqrt : ℚ → ℚ) (b : StreamBlock)
    (s : RippleDetectorSettings) (c : CalibrationBuffers) (ws : List (Int × Int))
    (vals : List (ℚ × ℚ)) (hcal : s.isCalibrating = true)
    (hmov : s.movSwitchEnabled = true)
    (hfin : s.calibrationPoints ≤ s.pointsProcessed + b.numSamplesInBlock)
    (hlen : 2 ≤ c.calibrationRmsValues.length + vals.length)
    (hlenmov : 2 ≤ c.calibrationMovRmsValues.length + vals.length) :
    ∃ r, handleWindows sqrt b s c ws vals = Except.ok r ∧ r.1.isCalibrating = false := by
  obtain ⟨cw, hcw⟩ : ∃ cw, cw = calibrateWindows vals
      { s with rmsEndIdx := lastEndIdx s ws } c := ⟨_, rfl⟩
  obtain ⟨-, k2, k3, k4⟩ := calibrateWindows_values vals
    { s with rmsEndIdx := lastEndIdx s ws } c
  have k6 := calibrateWindows_movSwitchEnabled vals { s with rmsEndIdx := lastEndIdx s ws } c
  have k7 := calibrateWindows_movValues vals { s with rmsEndIdx := lastEndIdx s ws } c hmov
  rw [← hcw] at k2 k3 k4 k6 k7
  have k3' : cw.1.pointsProcessed = s.pointsProcessed := k3
  have k4' : cw.1.calibrationPoints = s.calibrationPoints := k4
  have k6' : cw.1.movSwitchEnabled = s.movSwitchEnabled := k6
  have hge : cw.1.pointsProcessed + b.numSamplesInBlock ≥ cw.1.calibrationPoints := by
    rw [k3', k4']; exact hfin
  obtain ⟨s', hs', hs'cal⟩ := finishCalibration_total_gated sqrt
    { cw.1 with pointsProcessed := cw.1.pointsProcessed + b.numSamplesInBlock } cw.2
    (k6'.trans hmov) (by rw [k2]; simpa using hlen) (by rw [k7]; simpa using hlenmov)
  refine ⟨(s', cw.2, []), ?_, hs'cal⟩
  have e1 : handleWindows sqrt b s c ws vals =
      (match calibrationBlockEnd sqrt b.numSamplesInBlock cw.1 cw.2 with
       | none => Except.error Fault.notANumber
       | some s7 => Except.ok (s7, cw.2, [])) := by
    unfold handleWindows
    rw [hcw]
    exact if_pos hcal
  have e2 : calibrationBlockEnd sqrt b.numSamplesInBlock cw.1 cw.2 = some s' := by
    unfold calibrationBlockEnd
    exact (if_pos hge).trans hs'
  rw [e1, e2]

/-- In the mode `ACC` on three auxiliary channels, with a primary input channel, a
non-empty block, a window length of at least one sample and more fuel than samples,
`processStream` gives a result for a block on which the stream is calibrating and
reaches `calibrationPoints` with at least two values of each signal collected: the
calibration ends. -/
theorem processStream_calibrating_finishes_acc (sqrt : ℚ → ℚ) (fuel : Nat) (sc : Bool)
    (st : StreamState) (b : StreamBlock) (x y z : Int)
    (hch : 0 ≤ st.settings.rippleInputChannel) (hN : b.numSamplesInBlock ≠ 0)
    (hmov : st.settings.movSwitchEnabled = true)
    (hacc : st.settings.movSwitch = MovSwitch.ACC)
    (haux : st.settings.auxChannelIndices = [x, y, z])
    (hW : 1 ≤ st.settings.rmsSamples)
    (hfuel : b.numSamplesInBlock < fuel)
    (hcal : (prepareBlock b sc st).2.1.isCalibrating = true)
    (hfin : (prepareBlock b sc st).2.1.calibrationPoints ≤
      (prepareBlock b sc st).2.1.pointsProcessed + b.numSamplesInBlock)
    (hlen : 2 ≤ ((prepareBlock b sc st).2.2.1.calibrationRmsValues.length : Int) +
      ⌈((b.numSamplesInBlock : Int) : ℚ) /
        (clampRmsSamples st.settings.rmsSamples b.numSamplesInBlock : ℚ)⌉)
    (hlenmov : 2 ≤ ((prepareBlock b sc st).2.2.1.calibrationMovRmsValues.length : Int) +
      ⌈((b.numSamplesInBlock : Int) : ℚ) /
        (clampRmsSamples st.settings.rmsSamples b.numSamplesInBlock : ℚ)⌉) :
    ∃ r, processStream sqrt fuel sc st b = Except.ok r ∧ r.returned = false ∧
      r.state.settings.isCalibrating = false := by
  obtain ⟨c1, c2, -, -⟩ := prepareBlock_config b sc st
  have c3 := prepareBlock_movSwitch b sc st
  have c4 := prepareBlock_auxChannelIndices b sc st
  have hN1 : (1 : Int) ≤ b.numSamplesInBlock := by omega
  have hW2 := (clampRmsSamples_bounds _ _ hN1 hW).1
  obtain ⟨wv, hwv, hlenwv, hloop⟩ := blockWindows_total_acc sqrt fuel b
    (prepareBlock b sc st).2.1 x y z (c1.trans hmov) (c3.trans hacc) (c4.trans haux)
    (by rw [c2]; exact hW2) hfuel
  obtain ⟨ws, hws, hcount, -⟩ := windowLoop_cover b.numSamplesInBlock
    (clampRmsSamples st.settings.rmsSamples b.numSamplesInBlock) hN1 hW2 fuel (by simpa using hfuel)
  rw [c2, hws] at hloop
  have hlen2 : 2 ≤ (prepareBlock b sc st).2.2.1.calibrationRmsValues.length + wv.2.length := by
    rw [hlenwv, ← Option.some.inj hloop]
    rw [← hcount] at hlen
    exact_mod_cast hlen
  have hlen3 : 2 ≤ (prepareBlock b sc st).2.2.1.calibrationMovRmsValues.length +
      wv.2.length := by
    rw [hlenwv, ← Option.some.inj hloop]
    rw [← hcount] at hlenmov
    exact_mod_cast hlenmov
  obtain ⟨r, hr, r1⟩ := handleWindows_calibrating_finishes_gated sqrt b
    (prepareBlock b sc st).2.1 (prepareBlock b sc st).2.2.1 wv.1 wv.2 hcal (c1.trans hmov)
    hfin hlen2 hlen3
  exact ⟨_, processStream_of_parts sqrt fuel sc st b wv r hch hN hwv hr, rfl, r1⟩

/-! ### The detector after a calibration pass (C22) -/

/-- On a block handled while the stream is calibrating, `pluginEnabled` and the events
are those that lines 338-347 leave. -/
theorem processStream_calibrating_gate (sqrt : ℚ → ℚ) (fuel : Nat) (sc : Bool)
    (st : StreamState) (b : StreamBlock) (r : StreamResult)
    (hcal : (prepareBlock b sc st).2.1.isCalibrating = true)
    (hret : r.returned = false)
    (h : processStream sqrt fuel sc st b = Except.ok r) :
    r.state.settings.pluginEnabled =
      (st.settings.pluginEnabled || (!st.settings.movSwitchEnabled || sc)) ∧
    r.events =
      if (!st.settings.pluginEnabled && (!st.settings.movSwitchEnabled || sc)) = true then
        [{ line := OutputLine.movement, channel := st.settings.movementOutputChannel,
           sampleNumber := b.firstSampleInBlock, state := false, bufferOffset := 0 }]
      else [] := by
  obtain ⟨-, -, wv, res, -, hres, -, hs, -, hev⟩ := processStream_ok sqrt fuel sc st b r h hret
  obtain ⟨hf, he⟩ := handleWindows_calibrating_frame sqrt b _ _ _ _ res hcal hres
  obtain ⟨p1, p2⟩ := prepareBlock_pluginEnabled b sc st
  simp only [calibrationFrame, Prod.mk.injEq] at hf
  refine ⟨by rw [hs]; exact hf.2.2.2.trans p1, ?_⟩
  rw [hev, he, List.append_nil, p2]

/-- C22 (amended): on every block handled while the stream is calibrating, the one on
which `finishCalibration` runs included, the detector is enabled at the end of the
block exactly when it was enabled before the block, or movement detection is off, or
a calibration request was pending at the start of the block; the only event of the
block is the one of lines 338-347 (movement line, state `false`, first sample of the
block), added exactly when the detector was disabled before the block and movement
detection is off or a request was pending.  Neither the calibrating branches of
`process` nor `finishCalibration` write `pluginEnabled` or add an event. -/
theorem C22_calibration_keeps_gate_state (sqrt : ℚ → ℚ) (fuel : Nat) (sc : Bool)
    (st : StreamState) (b : StreamBlock) (r : StreamResult)
    (hcal : (prepareBlock b sc st).2.1.isCalibrating = true)
    (hret : r.returned = false)
    (h : processStream sqrt fuel sc st b = Except.ok r) :
    r.state.settings.pluginEnabled =
      (st.settings.pluginEnabled || (!st.settings.movSwitchEnabled || sc)) ∧
    r.events =
      (if (!st.settings.pluginEnabled && (!st.settings.movSwitchEnabled || sc)) = true then
        [{ line := OutputLine.movement, channel := st.settings.movementOutputChannel,
           sampleNumber := b.firstSampleInBlock, state := false, bufferOffset := 0 }]
      else []) ∧
    (∀ s' c, finishCalibration sqrt st.settings c = some s' →
      s'.pluginEnabled = st.settings.pluginEnabled) := by
  obtain ⟨h1, h2⟩ := processStream_calibrating_gate sqrt fuel sc st b r hcal hret h
  refine ⟨h1, h2, ?_⟩
  intro s' c hs'
  have := (finishCalibration_calibrationFrame sqrt st.settings s' c hs').1
  simp only [calibrationFrame, Prod.mk.injEq] at this
  exact this.2.2.2

theorem C22_calibration_keeps_gate_state_witness :
    gatedOffStream.settings.pluginEnabled = false ∧
    (prepareBlock (rampBlock 4) true gatedOffStream).2.1.isCalibrating = true ∧
    ∃ r, processStream Rat.sqrt 5 true gatedOffStream (rampBlock 4) = Except.ok r ∧
      r.returned = false ∧ r.state.settings.isCalibrating = false ∧
      r.state.settings.pluginEnabled = true ∧
      r.events = [{ line := OutputLine.movement, channel := 2, sampleNumber := 0,
                    state := false, bufferOffset := 0 }] := by
  have hcal : (prepareBlock (rampBlock 4) true gatedOffStream).2.1.isCalibrating = true := by
    decide
  have h4 : (clampRmsSamples gatedOffStream.settings.rmsSamples
      ((rampBlock 4).numSamplesInBlock : Int)) = 2 := by decide
  have h5 : ((rampBlock 4).numSamplesInBlock : Int) = 4 := by decide
  have h6 : (prepareBlock (rampBlock 4) true
      gatedOffStream).2.2.1.calibrationRmsValues.length = 0 := by decide
  have h6' : (prepareBlock (rampBlock 4) true
      gatedOffStream).2.2.1.calibrationMovRmsValues.length = 0 := by decide
  have h7 : ⌈((4 : Int) : ℚ) / ((2 : Int) : ℚ)⌉ = 2 := by
    have : ((4 : Int) : ℚ) / ((2 : Int) : ℚ) = ((2 : Int) : ℚ) := by norm_num
    rw [this, Int.ceil_intCast]
  obtain ⟨r, hr, hret, hc⟩ := processStream_calibrating_finishes_acc Rat.sqrt 5 true
    gatedOffStream (rampBlock 4) 1 2 3 (by decide) (by decide) (by decide) (by decide)
    (by decide) (by decide) (by decide) hcal (by decide)
    (by rw [h4, h5, h6, h7]; decide) (by rw [h4, h5, h6', h7]; decide)
  have h := C22_calibration_keeps_gate_state Rat.sqrt 5 true gatedOffStream (rampBlock 4) r
    hcal hret hr
  exact ⟨rfl, hcal, r, hr, hret, hc, h.1.trans (by decide), h.2.1.trans (by decide)⟩

/-- C22, counterexample: the detector of a stream in the mode `ACC` is disabled when
the movement input channel is reassigned to channel 5.  The next block of 4 samples
starts the calibration pass (no request is pending), collects two windows of 2
samples and reaches the 4 calibration points, so `finishCalibration` runs in it; at
the end of the block the stream is not calibrating any more, the detector is still
disabled and no event was added. -/
theorem C22_counterexample :
    gatedOffReassigned.settings.pluginEnabled = false ∧
    gatedOffReassigned.settings.isCalibrating = false ∧
    (prepareBlock (rampBlock 4) false gatedOffReassigned).2.1.isCalibrating = true ∧
    ∃ r, processStream Rat.sqrt 5 false gatedOffReassigned (rampBlock 4) = Except.ok r ∧
      r.returned = false ∧ r.state.settings.isCalibrating = false ∧
      r.state.settings.pluginEnabled = false ∧ r.events = [] := by
  have hcal : (prepareBlock (rampBlock 4) false gatedOffReassigned).2.1.isCalibrating =
      true := by decide
  have h4 : (clampRmsSamples gatedOffReassigned.settings.rmsSamples
      ((rampBlock 4).numSamplesInBlock : Int)) = 2 := by decide
  have h5 : ((rampBlock 4).numSamplesInBlock : Int) = 4 := by decide
  have h6 : (prepareBlock (rampBlock 4) false
      gatedOffReassigned).2.2.1.calibrationRmsValues.length = 0 := by decide
  have h6' : (prepareBlock (rampBlock 4) false
      gatedOffReassigned).2.2.1.calibrationMovRmsValues.length = 0 := by decide
  have h7 : ⌈((4 : Int) : ℚ) / ((2 : Int) : ℚ)⌉ = 2 := by
    have : ((4 : Int) : ℚ) / ((2 : Int) : ℚ) = ((2 : Int) : ℚ) := by norm_num
    rw [this, Int.ceil_intCast]
  obtain ⟨r, hr, hret, hc⟩ := processStream_calibrating_finishes_acc Rat.sqrt 5 false
    gatedOffReassigned (rampBlock 4) 1 2 3 (by decide) (by decide) (by decide) (by decide)
    (by decide) (by decide) (by decide) hcal (by decide)
    (by rw [h4, h5, h6, h7]; decide) (by rw [h4, h5, h6', h7]; decide)
  obtain ⟨g1, g2⟩ := processStream_calibrating_gate Rat.sqrt 5 false gatedOffReassigned
    (rampBlock 4) r hcal hret hr
  exact ⟨by decide, by decide, hcal, r, hr, hret, hc, g1.trans (by decide),
    g2.trans (by decide)⟩

/-! ### Degenerate blocks (C16) -/

end RippleDetector
